import Mathlib

/-!
# Asteroids (`src/asteroids.js`): a shallow embedding

Coordinates are JavaScript numbers in the source.  They are modelled by an
arbitrary linearly ordered field `α` (exact arithmetic; `ℚ` is used for
concrete evaluations).  The movement of a body (`moveBody`,
`wrapIfOffScreen`) is modelled a second time in binary64, with every
operation rounded; a statement about coordinates that is proved in the exact
model only says so.  Counters and timestamps (`nBullets`, `ticksLeft`,
`lifetime`, `lastShotTime`, `now`) are integers.

Objects of the source have an identity.  A reference `Ref` is the
constructor that made the object (what `instanceof` reads) together with an
address in the store of that constructor; `===` on objects is equality of
references.  Point objects are never mutated in place by the source, so
points are plain values.

What the source takes from its host is a parameter: `Math.cos`, `Math.sin`,
`Math.sqrt`, `Math.PI` and the stream of `Math.random()` results (`Env`), the canvas
size, the keyboard state and the clock (`Input`).  The two `<audio>`
elements are modelled by counters of their `play()` calls.
-/

namespace Asteroids

/-! ## Geometry (`geom`) -/

/-- A point or vector `{ x, y }`. -/
structure Point (α : Type) where
  x : α
  y : α
  deriving DecidableEq, Repr

/-- A two-point segment `[p0, p1]`. -/
structure Line (α : Type) where
  p0 : Point α
  p1 : Point α
  deriving DecidableEq, Repr

/-- What the host provides: `Math.cos`, `Math.sin`, `Math.sqrt`, `Math.PI`,
and the successive results of `Math.random()`. -/
structure Env (α : Type) where
  cos : α → α
  sin : α → α
  sqrt : α → α
  pi : α
  random : Nat → α

section Geometry

variable {α : Type} [LinearOrderedField α]

/-- The function `geom.translate`. -/
def geom.translate (point translation : Point α) : Point α :=
  { x := point.x + translation.x, y := point.y + translation.y }

/-- The function `geom.vectorTo`. -/
def geom.vectorTo (point1 point2 : Point α) : Point α :=
  { x := point2.x - point1.x, y := point2.y - point1.y }

/-- The function `geom.rotate`. -/
def geom.rotate (env : Env α) (point pivot : Point α) (angle : α) : Point α :=
  { x := (point.x - pivot.x) * env.cos angle -
      (point.y - pivot.y) * env.sin angle +
      pivot.x,
    y := (point.x - pivot.x) * env.sin angle +
      (point.y - pivot.y) * env.cos angle +
      pivot.y }

/-- The local `d` of `geom.linesIntersecting`. -/
def geom.det (a b : Line α) : α :=
  (b.p1.y - b.p0.y) * (a.p1.x - a.p0.x) -
    (b.p1.x - b.p0.x) * (a.p1.y - a.p0.y)

/-- The local `n1` of `geom.linesIntersecting`. -/
def geom.n1 (a b : Line α) : α :=
  (b.p1.x - b.p0.x) * (a.p0.y - b.p0.y) -
    (b.p1.y - b.p0.y) * (a.p0.x - b.p0.x)

/-- The local `n2` of `geom.linesIntersecting`. -/
def geom.n2 (a b : Line α) : α :=
  (a.p1.x - a.p0.x) * (a.p0.y - b.p0.y) -
    (a.p1.y - a.p0.y) * (a.p0.x - b.p0.x)

/-- The function `geom.linesIntersecting`. -/
def geom.linesIntersecting (a b : Line α) : Bool :=
  let d := geom.det a b
  let n1 := geom.n1 a b
  let n2 := geom.n2 a b
  if d = 0 then false
  else decide (n1 / d ≥ 0) && decide (n1 / d ≤ 1) && decide (n2 / d ≥ 0) && decide (n2 / d ≤ 1)

/-- A division that reports a zero divisor instead of producing a value. -/
def checkedDiv (n d : α) : Option α :=
  if d = 0 then none else some (n / d)

/-- The function `geom.linesIntersecting` with every `/` of the source
replaced by `checkedDiv`: the result is `none` as soon as an executed
division has divisor zero.  The `&&` chain is evaluated left to right and
stops at the first false operand, as in the source. -/
def geom.linesIntersectingChecked (a b : Line α) : Option Bool :=
  let d := geom.det a b
  let n1 := geom.n1 a b
  let n2 := geom.n2 a b
  if d = 0 then some false
  else
    (checkedDiv n1 d).bind fun q1 =>
    if ¬ (q1 ≥ 0) then some false else
    (checkedDiv n1 d).bind fun q2 =>
    if ¬ (q2 ≤ 1) then some false else
    (checkedDiv n2 d).bind fun q3 =>
    if ¬ (q3 ≥ 0) then some false else
    (checkedDiv n2 d).bind fun q4 =>
    some (decide (q4 ≤ 1))

/-- The bounds `{ l, r, t, b }` returned by `geom.rect`. -/
structure Rect (α : Type) where
  l : α
  r : α
  t : α
  b : α
  deriving DecidableEq, Repr

/-- The function `geom.rect`, applied to an object with the given `center`
and `size`. -/
def geom.rect (center size : Point α) : Rect α :=
  { l := center.x - size.x / 2,
    r := center.x + size.x / 2,
    t := center.y - size.y / 2,
    b := center.y + size.y / 2 }

/-- The function `geom.lineLength`. -/
def geom.lineLength (env : Env α) (obj : Point α) : α :=
  env.sqrt (obj.x * obj.x + obj.y * obj.y)

end Geometry

/-! ## Polygons and their edges -/

section Shapes

variable {α : Type} [LinearOrderedField α]

/-- The `for` loop of `pointsToLines`.  The list holds `points[i], points[i+1], ...`;
`previous` is `none` when the source reads `points[i]` past the end of the
array (`undefined`).  The result is `lines` and `previous` at loop exit.
A segment is pushed with a defined `previous` only; `previous` is always
defined when the source pushes, since it was read at an index below `i`. -/
def pointsToLinesLoop (connectedLines : Bool) :
    Option (Point α) → List (Point α) → List (Line α) → List (Line α) × Option (Point α)
  | previous, [], lines => (lines, previous)
  | previous, p :: rest, lines =>
    let lines1 := match previous with
      | some q => lines ++ [{ p0 := q, p1 := p }]
      | none => lines
    if connectedLines = false then
      -- `i++` inside the body, then `previous = points[i]`, then the loop's `i++`
      match rest with
      | [] => (lines1, none)
      | q :: rest1 => pointsToLinesLoop connectedLines (some q) rest1 lines1
    else
      pointsToLinesLoop connectedLines (some p) rest lines1

/-- The function `pointsToLines(points, connectedLines)`.  An omitted
`connectedLines` is `true` here: the source only tests `=== false` and
`!== false`. -/
def pointsToLines (points : List (Point α)) (connectedLines : Bool) : List (Line α) :=
  match points with
  | [] => []
  | first :: rest =>
    let r := pointsToLinesLoop connectedLines (some first) rest []
    match connectedLines, r.1, r.2 with
    | true, l0 :: ls, some previous => (l0 :: ls) ++ [{ p0 := previous, p1 := l0.p0 }]
    | _, lines, _ => lines

/-- The function `pairs(a, b)`. -/
def pairs {β γ : Type} (a : List β) (b : List γ) : List (β × γ) :=
  a.flatMap fun ai => b.map fun bj => (ai, bj)

/-- The `for` loop of `asteroidPoints`, with `a` the loop variable, `rnd` the
number of `Math.random()` results consumed so far, and a bound on the
number of iterations.  The arithmetic is that of the field `α`: exact, where
the source rounds every operation to binary64. -/
def asteroidPointsLoop (env : Env α) (center : Point α) (radius : α) (pointCount : Nat) :
    Nat → α → Nat → List (Point α) → List (Point α) × Nat
  | 0, _, rnd, points => (points, rnd)
  | fuel + 1, a, rnd, points =>
    if a < 2 * env.pi then
      let random := env.random rnd
      asteroidPointsLoop env center radius pointCount fuel
        (a + 2 * env.pi / (pointCount : α)) (rnd + 1)
        (points ++ [geom.rotate env
          { x := center.x + radius * (0.2 + random),
            y := center.y - radius * (0.2 + random) } center a])
    else (points, rnd)

/-- The function `asteroidPoints(center, radius, pointCount)`; the second
component is the number of `Math.random()` results consumed afterwards.  In
exact arithmetic the loop variable reaches `2 * Math.PI` after `pointCount`
steps, so `pointCount + 1` iterations are enough for `pointCount > 0`. -/
def asteroidPoints (env : Env α) (rnd : Nat) (center : Point α) (radius : α)
    (pointCount : Nat) : List (Point α) × Nat :=
  asteroidPointsLoop env center radius pointCount (pointCount + 1) 0 rnd []

end Shapes

/-! ## Objects -/

/-- The constructor of an object: what `instanceof` tests. -/
inductive Kind where
  | asteroid
  | player
  | dyingPlayer
  | bullet
  deriving DecidableEq, Repr

/-- A reference to an object: its constructor and its address in the store
of that constructor.  `===` on objects is `=` on references. -/
structure Ref where
  kind : Kind
  addr : Nat
  deriving DecidableEq, Repr

/-- The fields `center`, `points`, `velocity` that `moveBody` and
`wrapIfOffScreen` read and write. -/
structure Body (α : Type) where
  center : Point α
  points : List (Point α)
  velocity : Point α
  deriving DecidableEq, Repr

/-- An object made by `new Asteroid(game, center, radius)`. -/
structure Asteroid (α : Type) extends Body α where
  angle : α
  radius : α
  deriving DecidableEq, Repr

/-- An object made by `new Player(game)`; its `keyboarder` is the host
keyboard, see `Input`. -/
structure Player (α : Type) extends Body α where
  angle : α
  width : α
  height : α
  lineWidth : α
  lastShotTime : Int
  deriving DecidableEq, Repr

/-- An object made by `new Bullet(game, start, velocity, angle)`. -/
structure Bullet (α : Type) extends Body α where
  angle : α
  ticksLeft : Int
  deriving DecidableEq, Repr

/-- One element of `DyingPlayer.lines`: the array `[line[0], line[1]]` with
the extra properties the constructor attaches to it. -/
structure DyingLine (α : Type) where
  p0 : Point α
  p1 : Point α
  angleDelta : α
  axis : Point α
  velocity : Point α
  lineWidthDelta : α
  lineWidth : α
  deriving DecidableEq, Repr

/-- An object made by `new DyingPlayer(player)`.  It has no `velocity`. -/
structure DyingPlayer (α : Type) where
  lifetime : Int
  lineWidth : α
  center : Point α
  points : List (Point α)
  lines : List (DyingLine α)
  deriving DecidableEq, Repr

/-- The keyboard state and the clock read by one `Player.update`:
`keyState[keyCode] === true` and `new Date().getTime()`. -/
structure Input where
  keyState : Nat → Bool
  now : Int

/-- The method `Keyboarder.isDown`. -/
def Input.isDown (inp : Input) (keyCode : Nat) : Bool := inp.keyState keyCode

/-- `KEYS.LEFT`. -/
def KEYS.LEFT : Nat := 37
/-- `KEYS.RIGHT`. -/
def KEYS.RIGHT : Nat := 39
/-- `KEYS.UP`. -/
def KEYS.UP : Nat := 38
/-- `KEYS.SPACE`. -/
def KEYS.SPACE : Nat := 32

/-- The `Game` object together with the store of the objects it refers to.
`shootPlays` and `explosionPlays` count the calls of `shootSound.play()` and
`explosionSound.play()`; `rnd` counts the `Math.random()` results consumed. -/
structure Game (α : Type) where
  debug : Bool
  size : Point α
  center : Point α
  bodies : List Ref
  nBullets : Int
  shootPlays : Nat
  explosionPlays : Nat
  rnd : Nat
  asteroids : List (Asteroid α)
  players : List (Player α)
  bullets : List (Bullet α)
  dyingPlayers : List (DyingPlayer α)
  deriving DecidableEq, Repr

/-! ## Constructors -/

section Program

variable {α : Type} [LinearOrderedField α]

/-- The function `moveBody(body, center)`, in exact arithmetic: the
subtraction of `geom.vectorTo` and the addition of `geom.translate` do not
round.  `moveBody64` is the same function with binary64 rounding. -/
def moveBody (body : Body α) (center : Point α) : Body α :=
  let translation := geom.vectorTo body.center center
  { body with
    center := center
    points := body.points.map fun x => geom.translate x translation }

/-- The constructor `Asteroid(game, center, radius)`; the second component
is the number of `Math.random()` results consumed afterwards. -/
def Asteroid.new (env : Env α) (rnd : Nat) (center : Point α) (radius : α) :
    Asteroid α × Nat :=
  let pts := asteroidPoints env rnd center radius 10
  ({ angle := 0
     center := center
     radius := radius
     points := pts.1
     velocity := { x := env.random pts.2 - 0.5, y := env.random (pts.2 + 1) - 0.5 } },
   pts.2 + 2)

/-- The local function `addBlob(i, offsetY, h)` of the `Player` constructor:
the two points it pushes. -/
def Player.addBlob (originX originY w gap : α) (i : Nat) (offsetY h : α) : List (Point α) :=
  let x := originX + (w + gap) * (i : α)
  let y := originY + offsetY
  [{ x := x, y := y }, { x := x, y := y + h }]

/-- The constructor `Player(game)`, reading `game.debug` and `game.center`.
`Math.floor` is applied to natural numbers, where it is division of naturals
(`width / 8`) or the identity (`9 * (w + gap) - gap`). -/
def Player.new (debug : Bool) (gameCenter : Point α) : Player α :=
  let center : Point α := { x := gameCenter.x, y := gameCenter.y }
  let width : Nat := if debug = true then 128 else 32
  let gap : Nat := 1
  let wN : Nat := width / 8
  let w : α := (wN : α)
  let thisWidth : α := ((9 * (wN + gap) - gap : Nat) : α)
  let height : α := w * 3
  let blobH : α := height / 2
  let originX : α := center.x - (thisWidth / 2) + w / 2
  let originY : α := center.y - (height / 2)
  let addBlob := Player.addBlob originX originY w (gap : α)
  { angle := 0
    center := center
    width := thisWidth
    height := height
    lineWidth := w
    points :=
      -- W
      addBlob 0 0 height ++
      addBlob 1 (height - blobH) blobH ++
      addBlob 2 0 height ++
      -- T
      addBlob 3 0 blobH ++
      addBlob 4 0 height ++
      addBlob 5 0 blobH ++
      -- W
      addBlob 6 0 height ++
      addBlob 7 (height - blobH) blobH ++
      addBlob 8 0 height
    velocity := { x := 0, y := 0 }
    lastShotTime := 0 }

/-- The constructor `Bullet(game, start, velocity, angle)`. -/
def Bullet.new (env : Env α) (start velocity : Point α) (angle : α) : Bullet α :=
  let v := geom.translate velocity (geom.rotate env { x := 0, y := -5 } { x := 0, y := 0 } angle)
  { velocity := v
    angle := angle
    center := start
    points := [start, geom.translate start v]
    ticksLeft := 100 }

/-- The `map` callback of the `DyingPlayer` constructor applied to the lines
in order; `rnd` is the number of `Math.random()` results consumed before the
line at the head. -/
def DyingPlayer.newLines (env : Env α) (player : Player α) :
    Nat → List (Line α) → List (DyingLine α)
  | _, [] => []
  | rnd, line :: rest =>
    { p0 := line.p0
      p1 := line.p1
      angleDelta := env.random rnd * 0.04 - 0.002
      axis :=
        { x := line.p0.x + env.random (rnd + 1) * (line.p1.x - line.p0.x),
          y := line.p0.y + env.random (rnd + 2) * (line.p1.y - line.p0.y) }
      velocity :=
        { x := player.velocity.x * env.random (rnd + 3),
          y := player.velocity.y * env.random (rnd + 4) }
      lineWidthDelta := -env.random (rnd + 5) / 20
      lineWidth := player.lineWidth } :: DyingPlayer.newLines env player (rnd + 6) rest

/-- The constructor `DyingPlayer(player)`; the second component is the
number of `Math.random()` results consumed afterwards. -/
def DyingPlayer.new (env : Env α) (rnd : Nat) (player : Player α) : DyingPlayer α × Nat :=
  let lines := pointsToLines player.points false
  ({ lifetime := 100
     lineWidth := player.lineWidth
     center := player.center
     points := []
     lines := DyingPlayer.newLines env player rnd lines },
   rnd + 6 * lines.length)

/-! ## The world: `Game.prototype` -/

/-- The `points` of the object behind a reference (no points for an address
outside the store, which no reference of a running game has). -/
def Game.pointsOf (g : Game α) (r : Ref) : List (Point α) :=
  match r.kind with
  | Kind.asteroid => ((g.asteroids.get? r.addr).map fun o => o.points).getD []
  | Kind.player => ((g.players.get? r.addr).map fun o => o.points).getD []
  | Kind.bullet => ((g.bullets.get? r.addr).map fun o => o.points).getD []
  | Kind.dyingPlayer => ((g.dyingPlayers.get? r.addr).map fun o => o.points).getD []

/-- The method `Game.addBody`. -/
def Game.addBody (g : Game α) (body : Ref) : Game α :=
  let g1 := { g with bodies := g.bodies ++ [body] }
  if body.kind = Kind.bullet then { g1 with nBullets := g1.nBullets + 1 } else g1

/-- `Array.prototype.indexOf` on the list of bodies: the first index holding
the reference, or `-1`. -/
def indexOf (bodies : List Ref) (body : Ref) : Int :=
  match bodies.indexOf? body with
  | some i => (i : Int)
  | none => -1

/-- `new DyingPlayer(body)` for the player behind `body`: the new object is
put in the store and its reference returned. -/
def Game.newDyingPlayer (env : Env α) (g : Game α) (body : Ref) : Game α × Ref :=
  match g.players.get? body.addr with
  | some player =>
    let d := DyingPlayer.new env g.rnd player
    ({ g with dyingPlayers := g.dyingPlayers ++ [d.1], rnd := d.2 },
     { kind := Kind.dyingPlayer, addr := g.dyingPlayers.length })
  | none =>
    -- no object at this address: not the case for a reference of a running game
    ({ g with dyingPlayers := g.dyingPlayers ++
        [{ lifetime := 100, lineWidth := 0, center := { x := 0, y := 0 }, points := [], lines := [] }] },
     { kind := Kind.dyingPlayer, addr := g.dyingPlayers.length })

/-- The method `Game.removeBody`. -/
def Game.removeBody (env : Env α) (g : Game α) (body : Ref) : Game α :=
  let bodyIndex := indexOf g.bodies body
  let g1 :=
    if bodyIndex ≠ -1 then
      let g0 := { g with bodies := g.bodies.eraseIdx bodyIndex.toNat }
      if body.kind = Kind.bullet then { g0 with nBullets := g0.nBullets - 1 } else g0
    else g
  let g2 :=
    if body.kind = Kind.player ∨ body.kind = Kind.asteroid then
      { g1 with explosionPlays := g1.explosionPlays + 1 }
    else g1
  if body.kind = Kind.player then
    let d := Game.newDyingPlayer env g2 body
    Game.addBody d.1 d.2
  else g2

/-- The method `Game.wrapIfOffScreen`, on the fields of `obj` it reads and
writes. -/
def Game.wrapIfOffScreen (g : Game α) (obj : Body α) : Body α :=
  let screen := geom.rect g.center g.size
  if ((obj.points.filter fun p => decide (p.x > screen.l)).length = 0 ∧
       obj.velocity.x < 0) ∨
      ((obj.points.filter fun p => decide (p.x < screen.r)).length = 0 ∧
       obj.velocity.x > 0) then
    moveBody obj { x := g.size.x - obj.center.x, y := obj.center.y }
  else if ((obj.points.filter fun p => decide (p.y > screen.t)).length = 0 ∧
            obj.velocity.y < 0) ∨
           ((obj.points.filter fun p => decide (p.y < screen.b)).length = 0 ∧
            obj.velocity.y > 0) then
    moveBody obj { x := obj.center.x, y := g.size.y - obj.center.y }
  else obj

/-- `new Asteroid(this.game, center, radius)`: the new object is put in the
store and its reference returned. -/
def Game.newAsteroid (env : Env α) (g : Game α) (center : Point α) (radius : α) :
    Game α × Ref :=
  let a := Asteroid.new env g.rnd center radius
  ({ g with asteroids := g.asteroids ++ [a.1], rnd := a.2 },
   { kind := Kind.asteroid, addr := g.asteroids.length })

/-- The constructor `Game()` up to the start of the tick loop, for a canvas
of the given width and height. -/
def Game.new (env : Env α) (width height : α) : Game α :=
  let size : Point α := { x := width, y := height }
  let center : Point α := { x := size.x / 2, y := size.y / 2 }
  let a1 := Asteroid.new env 0 { x := 0, y := 75 } 50
  let a2 := Asteroid.new env a1.2 { x := 75, y := 75 } 30
  let a3 := Asteroid.new env a2.2 { x := 225, y := 75 } 30
  let a4 := Asteroid.new env a3.2 { x := 150, y := 225 } 30
  { debug := false
    size := size
    center := center
    bodies :=
      [{ kind := Kind.asteroid, addr := 0 },
       { kind := Kind.asteroid, addr := 1 },
       { kind := Kind.asteroid, addr := 2 },
       { kind := Kind.asteroid, addr := 3 },
       { kind := Kind.player, addr := 0 }]
    nBullets := 0
    shootPlays := 0
    explosionPlays := 0
    rnd := a4.2
    asteroids := [a1.1, a2.1, a3.1, a4.1]
    players := [Player.new false center]
    bullets := []
    dyingPlayers := [] }

/-! ## Entity behaviours -/

/-- The method `Asteroid.update`, for the asteroid at `addr`. -/
def Asteroid.update (g : Game α) (addr : Nat) : Game α :=
  match g.asteroids.get? addr with
  | none => g
  | some this =>
    let b1 := moveBody this.toBody (geom.translate this.center this.velocity)
    let b2 := Game.wrapIfOffScreen g b1
    { g with asteroids := g.asteroids.set addr { this with toBody := b2 } }

/-- The method `Asteroid.collision`, for the asteroid at `addr`. -/
def Asteroid.collision (env : Env α) (g : Game α) (addr : Nat) (otherBody : Ref) : Game α :=
  if otherBody.kind = Kind.player ∨ otherBody.kind = Kind.bullet then
    match g.asteroids.get? addr with
    | none => g
    | some this =>
      let g1 := Game.removeBody env g { kind := Kind.asteroid, addr := addr }
      let g2 := Game.removeBody env g1 otherBody
      if this.radius > 10 then
        let radius := this.radius - 10
        let n1 := Game.newAsteroid env g2 { x := this.center.x, y := this.center.y } radius
        let g3 := Game.addBody n1.1 n1.2
        let n2 := Game.newAsteroid env g3 { x := this.center.x, y := this.center.y } radius
        Game.addBody n2.1 n2.2
      else g2
  else g

/-- The method `Player.turn`. -/
def Player.turn (env : Env α) (this : Player α) (angleDelta : α) : Player α :=
  let center := this.center
  { this with
    points := this.points.map fun x => geom.rotate env x center angleDelta
    angle := this.angle + angleDelta }

/-- The test `this.keyboarder.isDown(SPACE) && (now - this.lastShotTime > 50)
&& (this.game.nBullets < 5)` of `Player.update`. -/
def Player.mayFire (inp : Input) (g : Game α) (this : Player α) : Bool :=
  inp.isDown KEYS.SPACE && decide (inp.now - this.lastShotTime > 50) && decide (g.nBullets < 5)

/-- The first statement of `Player.update`: the turn on `LEFT` or `RIGHT`. -/
def Player.updateTurn (env : Env α) (inp : Input) (this : Player α) : Player α :=
  if inp.isDown KEYS.LEFT then Player.turn env this (-env.pi / 30)
  else if inp.isDown KEYS.RIGHT then Player.turn env this (env.pi / 30)
  else this

/-- The second statement of `Player.update`: the thrust on `UP`. -/
def Player.updateThrust (env : Env α) (inp : Input) (this : Player α) : Player α :=
  if inp.isDown KEYS.UP then
    let newVelocity := geom.translate this.velocity
      (geom.rotate env { x := 0, y := -0.05 } { x := 0, y := 0 } this.angle)
    if geom.lineLength env newVelocity < 5 then { this with velocity := newVelocity }
    else this
  else this

/-- The third statement of `Player.update`: the gated shot, with
`now = new Date().getTime()`. -/
def Player.updateFire (env : Env α) (inp : Input) (g : Game α) (this : Player α) :
    Game α × Player α :=
  let now := inp.now
  if Player.mayFire inp g this then
    let this1 := { this with lastShotTime := now }
    let g0 := { g with shootPlays := g.shootPlays + 1 }
    let bulletPos := geom.rotate env
      { x := this1.center.x, y := this1.center.y - this1.height / 2 - 1 }
      this1.center
      this1.angle
    let bullet := Bullet.new env bulletPos this1.velocity this1.angle
    (Game.addBody { g0 with bullets := g0.bullets ++ [bullet] }
       { kind := Kind.bullet, addr := g0.bullets.length }, this1)
  else (g, this)

/-- The method `Player.update`, for the player at `addr`: turn, thrust, shot,
then `moveBody` and `wrapIfOffScreen`. -/
def Player.update (env : Env α) (inp : Input) (g : Game α) (addr : Nat) : Game α :=
  match g.players.get? addr with
  | none => g
  | some this0 =>
    let this1 := Player.updateTurn env inp this0
    let this2 := Player.updateThrust env inp this1
    let fired := Player.updateFire env inp g this2
    let b4 := moveBody fired.2.toBody (geom.translate fired.2.center fired.2.velocity)
    let b5 := Game.wrapIfOffScreen fired.1 b4
    { fired.1 with players := fired.1.players.set addr { fired.2 with toBody := b5 } }

/-- The method `Bullet.update`, for the bullet at `addr`. -/
def Bullet.update (env : Env α) (g : Game α) (addr : Nat) : Game α :=
  match g.bullets.get? addr with
  | none => g
  | some this0 =>
    let this1 := { this0 with ticksLeft := this0.ticksLeft - 1 }
    let g1 :=
      if this0.ticksLeft = 0 then Game.removeBody env g { kind := Kind.bullet, addr := addr }
      else g
    let b2 := moveBody this1.toBody (geom.translate this1.center this1.velocity)
    let b3 := Game.wrapIfOffScreen g1 b2
    { g1 with bullets := g1.bullets.set addr { this1 with toBody := b3 } }

/-- The method `Bullet.collision`, for the bullet at `addr`. -/
def Bullet.collision (env : Env α) (g : Game α) (addr : Nat) (otherBody : Ref) : Game α :=
  if otherBody.kind = Kind.asteroid then
    let g1 := Game.removeBody env g { kind := Kind.bullet, addr := addr }
    Game.removeBody env g1 otherBody
  else g

/-- The `map` callback of `DyingPlayer.update` on one line. -/
def DyingPlayer.updateLine (env : Env α) (line : DyingLine α) : DyingLine α :=
  { line with
    p0 := geom.translate line.velocity (geom.rotate env line.p0 line.axis line.angleDelta)
    p1 := geom.translate line.velocity (geom.rotate env line.p1 line.axis line.angleDelta)
    axis := geom.translate line.velocity line.axis
    lineWidth := line.lineWidth + line.lineWidthDelta }

/-- The method `DyingPlayer.update`, for the dying player at `addr`. -/
def DyingPlayer.update (env : Env α) (g : Game α) (addr : Nat) : Game α :=
  match g.dyingPlayers.get? addr with
  | none => g
  | some this0 =>
    let this1 := { this0 with lifetime := this0.lifetime - 1 }
    if this0.lifetime = 0 then
      let g1 := Game.removeBody env g { kind := Kind.dyingPlayer, addr := addr }
      { g1 with dyingPlayers := g1.dyingPlayers.set addr this1 }
    else
      let this2 := { this1 with lines := this1.lines.map (DyingPlayer.updateLine env) }
      { g with dyingPlayers := g.dyingPlayers.set addr this2 }

/-! ## Collision engine and frame update -/

/-- The function `isColliding(b1, b2)`. -/
def isColliding (g : Game α) (b1 b2 : Ref) : Bool :=
  if b1 = b2 then false
  else decide (((pairs (pointsToLines (g.pointsOf b1) true) (pointsToLines (g.pointsOf b2) true)).filter
    fun x => geom.linesIntersecting x.1 x.2).length > 0)

/-- The first pair of loops of `reportCollisions`: the array `collisions`. -/
def collectCollisions (g : Game α) (bodies : List Ref) : List (Ref × Ref) :=
  (List.range bodies.length).flatMap fun i =>
    (List.range' (i + 1) (bodies.length - (i + 1))).filterMap fun j =>
      match bodies.get? i, bodies.get? j with
      | some bi, some bj => if isColliding g bi bj then some (bi, bj) else none
      | _, _ => none

/-- Whether `body.collision !== undefined`: `Asteroid` and `Bullet` define
a `collision` method, `Player` and `DyingPlayer` do not. -/
def hasCollision (body : Ref) : Bool :=
  match body.kind with
  | Kind.asteroid => true
  | Kind.bullet => true
  | Kind.player => false
  | Kind.dyingPlayer => false

/-- The call `body.collision(otherBody)`, dispatched on the constructor. -/
def collision (env : Env α) (g : Game α) (body otherBody : Ref) : Game α :=
  match body.kind with
  | Kind.asteroid => Asteroid.collision env g body.addr otherBody
  | Kind.bullet => Bullet.collision env g body.addr otherBody
  | Kind.player => g
  | Kind.dyingPlayer => g

/-- The body of the second loop of `reportCollisions` for one element of
`collisions`. -/
def dispatchCollision (env : Env α) (g : Game α) (c : Ref × Ref) : Game α :=
  let g1 := if hasCollision c.1 then collision env g c.1 c.2 else g
  if hasCollision c.2 then collision env g1 c.2 c.1 else g1

/-- The function `reportCollisions(bodies)`, called on `game.bodies`. -/
def reportCollisions (env : Env α) (g : Game α) : Game α :=
  (collectCollisions g g.bodies).foldl (dispatchCollision env) g

/-- The call `body.update()`, dispatched on the constructor. -/
def update (env : Env α) (inp : Input) (g : Game α) (body : Ref) : Game α :=
  match body.kind with
  | Kind.asteroid => Asteroid.update g body.addr
  | Kind.player => Player.update env inp g body.addr
  | Kind.bullet => Bullet.update env g body.addr
  | Kind.dyingPlayer => DyingPlayer.update env g body.addr

/-- One step of `this.bodies.forEach(function(body) { body.update(); })` at
index `k`: `Array.prototype.forEach` calls the callback if index `k` is
still present in the array, and skips it otherwise.  The second component
records the bodies on which `update()` has been called, in call order. -/
def forEachStep (env : Env α) (inp : Input) (st : Game α × List Ref) (k : Nat) :
    Game α × List Ref :=
  match st.1.bodies.get? k with
  | some body => (update env inp st.1 body, st.2 ++ [body])
  | none => st

/-- The update pass of `Game.update`: `this.bodies.forEach(...)`.
`Array.prototype.forEach` reads the length once, before the first call, and
visits the indices `0 .. length - 1` of the array as it is at each step. -/
def Game.updatePass (env : Env α) (inp : Input) (g : Game α) : Game α × List Ref :=
  (List.range g.bodies.length).foldl (forEachStep env inp) (g, [])

/-- The method `Game.update`. -/
def Game.update (env : Env α) (inp : Input) (g : Game α) : Game α :=
  (Game.updatePass env inp (reportCollisions env g)).1

end Program

/-! ## The movement of a body in binary64

The definitions above compute in an exact ordered field.  `moveBody` and
`wrapIfOffScreen` are given here once more with every `+`, `-` and `/ 2` of
the source rounded as IEEE 754 binary64 arithmetic rounds it (to nearest,
ties to even).  They are used where a statement is about a coordinate that
the source computes by rounded additions.

A finite binary64 number is an integer multiple of `2^-1074` with at most 53
significant bits; it is represented by that integer.  `Infinity` and `NaN`
are not represented: a result beyond the largest finite number is outside
this model. -/

/-- The number of low bits that rounding `m` to 53 significant bits drops:
the least `k`, starting from the given one, with `m / 2^k < 2^53`. -/
def b64.dropBits : Nat → Nat → Nat → Nat
  | 0, _, k => k
  | fuel + 1, m, k => if m / 2 ^ k < 2 ^ 53 then k else b64.dropBits fuel m (k + 1)

/-- The binary64 number nearest to the exact value `n * 2^-1074`, ties to the
even mantissa. -/
def b64.round (n : Int) : Int :=
  let m := n.natAbs
  let k := b64.dropBits 2100 m 0
  if k = 0 then n
  else
    let q := m / 2 ^ k
    let r := m % 2 ^ k
    let half := 2 ^ (k - 1)
    let q1 := if r > half ∨ (r = half ∧ q % 2 = 1) then q + 1 else q
    Int.sign n * ((q1 * 2 ^ k : Nat) : Int)

/-- The binary64 sum `a + b`. -/
def b64.add (a b : Int) : Int := b64.round (a + b)

/-- The binary64 difference `a - b`. -/
def b64.sub (a b : Int) : Int := b64.round (a - b)

/-- The binary64 quotient `a / 2`: exact when `a` is even, and otherwise the
nearer of the two neighbours, the even one on a tie. -/
def b64.half (a : Int) : Int :=
  if a % 2 = 0 then a / 2
  else if (a / 2) % 2 = 0 then a / 2
  else a / 2 + 1

/-- The binary64 number `m * 2^(e - 1074)`, for a mantissa `m` of at most 53
bits. -/
def b64.ofMantissa (m : Int) (e : Nat) : Int := m * ((2 ^ e : Nat) : Int)

/-- The binary64 number equal to the integer `k`, for `|k| < 2^53`. -/
def b64.ofInt (k : Int) : Int := b64.ofMantissa k 1074

/-- The function `geom.translate` in binary64. -/
def geom.translate64 (point translation : Point Int) : Point Int :=
  { x := b64.add point.x translation.x, y := b64.add point.y translation.y }

/-- The function `geom.vectorTo` in binary64. -/
def geom.vectorTo64 (point1 point2 : Point Int) : Point Int :=
  { x := b64.sub point2.x point1.x, y := b64.sub point2.y point1.y }

/-- The function `geom.rect` in binary64. -/
def geom.rect64 (center size : Point Int) : Rect Int :=
  { l := b64.sub center.x (b64.half size.x),
    r := b64.add center.x (b64.half size.x),
    t := b64.sub center.y (b64.half size.y),
    b := b64.add center.y (b64.half size.y) }

/-- The function `moveBody(body, center)` in binary64. -/
def moveBody64 (body : Body Int) (center : Point Int) : Body Int :=
  let translation := geom.vectorTo64 body.center center
  { body with
    center := center
    points := body.points.map fun x => geom.translate64 x translation }

/-- The method `Game.wrapIfOffScreen` in binary64, for a game with the given
`center` and `size`. -/
def Game.wrapIfOffScreen64 (gameCenter gameSize : Point Int) (obj : Body Int) : Body Int :=
  let screen := geom.rect64 gameCenter gameSize
  if ((obj.points.filter fun p => decide (p.x > screen.l)).length = 0 ∧
       obj.velocity.x < 0) ∨
      ((obj.points.filter fun p => decide (p.x < screen.r)).length = 0 ∧
       obj.velocity.x > 0) then
    moveBody64 obj { x := b64.sub gameSize.x obj.center.x, y := obj.center.y }
  else if ((obj.points.filter fun p => decide (p.y > screen.t)).length = 0 ∧
            obj.velocity.y < 0) ∨
           ((obj.points.filter fun p => decide (p.y < screen.b)).length = 0 ∧
            obj.velocity.y > 0) then
    moveBody64 obj { x := obj.center.x, y := b64.sub gameSize.y obj.center.y }
  else obj

/-! ## Call sequences on the world -/

/-- A call of `Game.addBody` or `Game.removeBody` with some body. -/
inductive Call where
  | addBody (body : Ref)
  | removeBody (body : Ref)
  deriving DecidableEq, Repr

section Theory

set_option linter.unusedSectionVars false

variable {α : Type} [LinearOrderedField α]

/-- The effect of one call on the world. -/
def Call.run (env : Env α) (g : Game α) : Call → Game α
  | Call.addBody body => Game.addBody g body
  | Call.removeBody body => Game.removeBody env g body

/-- The effect of a finite sequence of calls, first call first. -/
def runCalls (env : Env α) (g : Game α) (calls : List Call) : Game α :=
  calls.foldl (Call.run env) g

/-- The number of `Bullet` entries of a list of bodies. -/
def bulletCount (bodies : List Ref) : Int :=
  ((bodies.filter fun b => decide (b.kind = Kind.bullet)).length : Int)

/-- Whether the argument of the call is a `Bullet`. -/
def Call.onBullet : Call → Bool
  | Call.addBody body => decide (body.kind = Kind.bullet)
  | Call.removeBody body => decide (body.kind = Kind.bullet)

/-- The number `N` of `addBody` calls of a sequence. -/
def countAddBody : List Call → Nat
  | [] => 0
  | Call.addBody _ :: cs => countAddBody cs + 1
  | Call.removeBody _ :: cs => countAddBody cs

/-- The number `M` of `removeBody` calls of a sequence. -/
def countRemoveBody : List Call → Nat
  | [] => 0
  | Call.addBody _ :: cs => countRemoveBody cs
  | Call.removeBody _ :: cs => countRemoveBody cs + 1

/-- Whether every `removeBody` call of the sequence, run from the world `g`,
finds its argument in `bodies` at the time of the call. -/
def removalsFindBody (env : Env α) : Game α → List Call → Bool
  | _, [] => true
  | g, Call.addBody body :: cs => removalsFindBody env (Game.addBody g body) cs
  | g, Call.removeBody body :: cs =>
    decide (body ∈ g.bodies) && removalsFindBody env (Game.removeBody env g body) cs

/-- The laws of `Math.cos` and `Math.sin` that the rotation proofs rely on:
the values at 0 and the addition formulas. -/
structure TrigLaws (env : Env α) : Prop where
  cos_zero : env.cos 0 = 1
  sin_zero : env.sin 0 = 0
  cos_add : ∀ a b, env.cos (a + b) = env.cos a * env.cos b - env.sin a * env.sin b
  sin_add : ∀ a b, env.sin (a + b) = env.sin a * env.cos b + env.cos a * env.sin b

/-- The points of a list taken two by two as disjoint strokes, in the words
of the specification: `[p[0], p[1]], [p[2], p[3]], ...`; a last point without
a partner is dropped. -/
def pairUp : List (Point α) → List (Line α)
  | a :: b :: r => { p0 := a, p1 := b } :: pairUp r
  | _ => []

/-- The world after `n` successive calls of `update()` on the bullet at
`addr`. -/
def Bullet.updateTimes (env : Env α) (addr : Nat) : Nat → Game α → Game α
  | 0, g => g
  | n + 1, g => Bullet.updateTimes env addr n (Bullet.update env g addr)

/-- The radius and center of the asteroids that one handler call
`body.collision(otherBody)` makes, in the words of the specification: two
asteroids of radius `r - 10` at the center of `body` when `body` is an
asteroid of radius `r > 10` and `otherBody` is a `Player` or a `Bullet`, and
none otherwise. -/
def childrenOf (g : Game α) (body otherBody : Ref) : List (α × Point α) :=
  match body.kind, g.asteroids.get? body.addr with
  | Kind.asteroid, some a =>
    if (otherBody.kind = Kind.player ∨ otherBody.kind = Kind.bullet) ∧ a.radius > 10 then
      [(a.radius - 10, a.center), (a.radius - 10, a.center)]
    else []
  | _, _ => []

/-- The glyph of the player: the offset of each polygon point from the center
at construction. -/
def Player.glyph (debug : Bool) (c : Point α) : List (Point α) :=
  (Player.new debug c).points.map fun q => geom.vectorTo (Player.new debug c).center q

/-- The states of a player reachable from its construction, for a game in
debug mode or not and with center `c`, by `turn`, `moveBody`,
`wrapIfOffScreen` and `Player.update` steps with any arguments, in any world. -/
inductive PlayerReachable (env : Env α) (debug : Bool) (c : Point α) : Player α → Prop
  | construct : PlayerReachable env debug c (Player.new debug c)
  | turn (p : Player α) (angleDelta : α) :
      PlayerReachable env debug c p → PlayerReachable env debug c (Player.turn env p angleDelta)
  | moveBody (p : Player α) (center : Point α) :
      PlayerReachable env debug c p →
      PlayerReachable env debug c { p with toBody := moveBody p.toBody center }
  | wrapIfOffScreen (p : Player α) (g : Game α) :
      PlayerReachable env debug c p →
      PlayerReachable env debug c { p with toBody := Game.wrapIfOffScreen g p.toBody }
  | update (p p1 : Player α) (inp : Input) (g : Game α) (addr : Nat) :
      PlayerReachable env debug c p →
      g.players.get? addr = some p →
      (Player.update env inp g addr).players.get? addr = some p1 →
      PlayerReachable env debug c p1

end Theory

/-! ## The collision relation in the words of the specification -/

section CollisionSpec

variable {α : Type} [LinearOrderedField α]

/-- Some edge of the closed polygon of `b1` and some edge of the closed
polygon of `b2` satisfy `linesIntersecting`. -/
def edgesIntersect (g : Game α) (b1 b2 : Ref) : Bool :=
  (pointsToLines (g.pointsOf b1) true).any fun e1 =>
    (pointsToLines (g.pointsOf b2) true).any fun e2 => geom.linesIntersecting e1 e2

/-- The pair reported for the positions `p = (i, j)`, if any: the bodies at
the two positions when they are different objects whose edges intersect. -/
def reportedAt (g : Game α) (bodies : List Ref) (p : Nat × Nat) : Option (Ref × Ref) :=
  match bodies.get? p.1, bodies.get? p.2 with
  | some bi, some bj =>
    if bi ≠ bj ∧ edgesIntersect g bi bj = true then some (bi, bj) else none
  | _, _ => none

/-- The pair reported for the positions `p = (i, j)`, if any, in the words of
the specification: the bodies at the two positions when some edge of the one
and some edge of the other satisfy `linesIntersecting`. -/
def collidingAt (g : Game α) (bodies : List Ref) (p : Nat × Nat) : Option (Ref × Ref) :=
  match bodies.get? p.1, bodies.get? p.2 with
  | some bi, some bj => if edgesIntersect g bi bj = true then some (bi, bj) else none
  | _, _ => none

end CollisionSpec

/-! ## Concrete worlds for evaluation -/

/-- A stand-in host over `ℚ` for concrete evaluations: `cos` and `sin` are
constant (their values at the angle 0), `sqrt` is the rational square root
`Rat.sqrt` (exact on squares of rationals), `Math.PI` is 3 and every
`Math.random()` result is 0.  It is used only where what is evaluated does
not depend on these values or rotates by the angle 0 only. -/
def hostQ : Env ℚ :=
  { cos := fun _ => 1, sin := fun _ => 0, sqrt := Rat.sqrt, pi := 3, random := fun _ => 0 }

/-- The player of the initial world. -/
def thePlayer : Ref := { kind := Kind.player, addr := 0 }

/-- The first asteroid of the initial world. -/
def firstAsteroid : Ref := { kind := Kind.asteroid, addr := 0 }

/-- A sequence of calls that adds one bullet twice, removes the player,
removes the bullet three times and removes a bullet that was never added. -/
def sampleCalls : List Call :=
  [Call.addBody { kind := Kind.bullet, addr := 0 },
   Call.addBody { kind := Kind.bullet, addr := 0 },
   Call.removeBody thePlayer,
   Call.removeBody { kind := Kind.bullet, addr := 0 },
   Call.removeBody { kind := Kind.bullet, addr := 0 },
   Call.removeBody { kind := Kind.bullet, addr := 0 },
   Call.removeBody { kind := Kind.bullet, addr := 7 }]

/-- The initial world on an 800 by 600 canvas after the player has been
removed once (as `Asteroid.collision` does on a hit). -/
def worldAfterCrash : Game ℚ :=
  Game.removeBody hostQ (Game.new hostQ 800 600) thePlayer

/-- An asteroid of radius 30 centred at `(75, 75)`. -/
def bigAsteroid : Asteroid ℚ :=
  { center := { x := 75, y := 75 }
    points := [{ x := 70, y := 70 }, { x := 80, y := 70 }, { x := 75, y := 85 }]
    velocity := { x := 0, y := 0 }
    angle := 0
    radius := 30 }

/-- An asteroid of radius 10 centred at `(200, 75)`. -/
def smallAsteroid : Asteroid ℚ :=
  { center := { x := 200, y := 75 }
    points := [{ x := 195, y := 70 }, { x := 205, y := 70 }, { x := 200, y := 85 }]
    velocity := { x := 0, y := 0 }
    angle := 0
    radius := 10 }

/-- A bullet at `(75, 75)` with all its 100 ticks left. -/
def freshBullet : Bullet ℚ :=
  { center := { x := 75, y := 75 }
    points := [{ x := 75, y := 75 }, { x := 75, y := 70 }]
    velocity := { x := 0, y := -5 }
    angle := 0
    ticksLeft := 100 }

/-- The first bullet of a world. -/
def firstBullet : Ref := { kind := Kind.bullet, addr := 0 }

/-- The second asteroid of a world. -/
def secondAsteroid : Ref := { kind := Kind.asteroid, addr := 1 }

/-- A world with an asteroid of radius 30, an asteroid of radius 10 and one
bullet. -/
def splitWorld : Game ℚ :=
  { debug := false
    size := { x := 300, y := 300 }
    center := { x := 150, y := 150 }
    bodies := [firstAsteroid, secondAsteroid, firstBullet]
    nBullets := 1
    shootPlays := 1
    explosionPlays := 0
    rnd := 0
    asteroids := [bigAsteroid, smallAsteroid]
    players := []
    bullets := [freshBullet]
    dyingPlayers := [] }

/-- The fields of a body that has left the 300 by 300 screen of `splitWorld`
through its left edge, moving left. -/
def leftBody : Body ℚ :=
  { center := { x := -10, y := 50 }
    points := [{ x := -15, y := 45 }, { x := -5, y := 45 }, { x := -10, y := 60 }]
    velocity := { x := -1, y := 0 } }

/-- The fields of a body that has left the 300 by 300 screen of `splitWorld`
through its top left corner, moving up and left: both the horizontal and the
vertical wrap condition hold. -/
def cornerBody : Body ℚ :=
  { center := { x := -10, y := -20 }
    points := [{ x := -15, y := -25 }, { x := -5, y := -25 }, { x := -10, y := -10 }]
    velocity := { x := -1, y := -2 } }

/-- The player made by the `Game` constructor on an 800 by 600 canvas. -/
def newPlayer : Player ℚ := Player.new false { x := 800 / 2, y := 600 / 2 }

/-- A bullet that has been updated 100 times: no tick left. -/
def spentBullet : Bullet ℚ :=
  { center := { x := 100, y := 100 }
    points := [{ x := 100, y := 100 }, { x := 100, y := 95 }]
    velocity := { x := 0, y := -5 }
    angle := 0
    ticksLeft := 0 }

/-- The second bullet of a world. -/
def secondBullet : Ref := { kind := Kind.bullet, addr := 1 }

/-- A world with an asteroid and two bullets, in this order in `bodies`; the
first bullet has no tick left and the second has all of its ticks. -/
def expiryWorld : Game ℚ :=
  { debug := false
    size := { x := 300, y := 300 }
    center := { x := 150, y := 150 }
    bodies := [firstAsteroid, firstBullet, secondBullet]
    nBullets := 2
    shootPlays := 2
    explosionPlays := 0
    rnd := 0
    asteroids := [bigAsteroid]
    players := []
    bullets := [spentBullet, freshBullet]
    dyingPlayers := [] }

/-- The keyboard with no key held, read at time 5000 ms. -/
def idleInput : Input := { keyState := fun _ => false, now := 5000 }

/-- The keyboard with only `SPACE` held, read at time 1000 ms. -/
def fireInput : Input := { keyState := fun k => k == KEYS.SPACE, now := 1000 }

/-- The keyboard with only `SPACE` held, read 40 ms after `fireInput`. -/
def fireAgainInput : Input := { keyState := fun k => k == KEYS.SPACE, now := 1040 }

/-- A `removeBody` of a bullet that is not in the world, then an `addBody` of
that bullet: `N = 1` and `M = 1`. -/
def removeThenAdd : List Call :=
  [Call.removeBody { kind := Kind.bullet, addr := 0 },
   Call.addBody { kind := Kind.bullet, addr := 0 }]

/-- Two bullets added, then the first one removed: `N = 2` and `M = 1`. -/
def addTwoRemoveOne : List Call :=
  [Call.addBody { kind := Kind.bullet, addr := 0 },
   Call.addBody { kind := Kind.bullet, addr := 1 },
   Call.removeBody { kind := Kind.bullet, addr := 0 }]

/-- The three corners of a triangle. -/
def trianglePoints : List (Point ℚ) :=
  [{ x := 0, y := 0 }, { x := 2, y := 0 }, { x := 0, y := 2 }]

/-- Five points on a line. -/
def fivePoints : List (Point ℚ) :=
  [{ x := 0, y := 0 }, { x := 1, y := 0 }, { x := 2, y := 0 }, { x := 3, y := 0 },
   { x := 4, y := 0 }]

/-- The keyboard with only `UP` held, read at time 1000 ms. -/
def thrustInput : Input := { keyState := fun k => k == KEYS.UP, now := 1000 }

/-- A bullet crossing the lower edge of `bigAsteroid` at `x = 72`. -/
def otherBullet : Bullet ℚ :=
  { center := { x := 72, y := 72 }
    points := [{ x := 72, y := 72 }, { x := 72, y := 68 }]
    velocity := { x := 0, y := -4 }
    angle := 0
    ticksLeft := 100 }

/-- A world in which two bullets hit the same asteroid of radius 30 in the
same tick; the bullets are parallel and do not touch each other. -/
def twoBulletWorld : Game ℚ :=
  { debug := false
    size := { x := 300, y := 300 }
    center := { x := 150, y := 150 }
    bodies := [firstAsteroid, firstBullet, secondBullet]
    nBullets := 2
    shootPlays := 2
    explosionPlays := 0
    rnd := 0
    asteroids := [bigAsteroid]
    players := []
    bullets := [freshBullet, otherBullet]
    dyingPlayers := [] }

/-- The keyboard with only `SPACE` held, read 10 ms after `fireInput`. -/
def fireSoonInput : Input := { keyState := fun k => k == KEYS.SPACE, now := 1010 }

/-- The world made by the `Game` constructor after the player has fired its
first shot, at time 1000 ms. -/
def shotWorld : Game ℚ := Player.update hostQ fireInput (Game.new hostQ 800 600) 0

/-- The size `(300, 300)` of a screen, in binary64. -/
def size64 : Point Int := { x := b64.ofInt 300, y := b64.ofInt 300 }

/-- The center `(150, 150)` of that screen, in binary64. -/
def center64 : Point Int := { x := b64.ofInt 150, y := b64.ofInt 150 }

/-- The fields of a body that has left that screen through its left edge,
moving left, in binary64: center `(-10.3, 50)`, points `(-15.1, 45)`,
`(-5.5, 45)` and `(-10.3, 60)`, velocity `(-1, 0)`.  The binary64 number
nearest to `-10.3` is `-5798384520239514 * 2^-49`, the one nearest to `-15.1`
is `-8500544296661811 * 2^-49`, and `-5.5 = -11 * 2^-1`. -/
def leftBody64 : Body Int :=
  { center := { x := b64.ofMantissa (-5798384520239514) 1025, y := b64.ofInt 50 }
    points :=
      [{ x := b64.ofMantissa (-8500544296661811) 1025, y := b64.ofInt 45 },
       { x := b64.ofMantissa (-11) 1073, y := b64.ofInt 45 },
       { x := b64.ofMantissa (-5798384520239514) 1025, y := b64.ofInt 60 }]
    velocity := { x := b64.ofInt (-1), y := b64.ofInt 0 } }

/-- The fields of `cornerBody` in binary64: center `(-10, -20)`, points
`(-15, -25)`, `(-5, -25)` and `(-10, -10)`, velocity `(-1, -2)`. -/
def cornerBody64 : Body Int :=
  { center := { x := b64.ofInt (-10), y := b64.ofInt (-20) }
    points :=
      [{ x := b64.ofInt (-15), y := b64.ofInt (-25) },
       { x := b64.ofInt (-5), y := b64.ofInt (-25) },
       { x := b64.ofInt (-10), y := b64.ofInt (-10) }]
    velocity := { x := b64.ofInt (-1), y := b64.ofInt (-2) } }

/-- The segment `A = [(0,0),(2,2)]`. -/
def crossA : Line ℚ := { p0 := { x := 0, y := 0 }, p1 := { x := 2, y := 2 } }

/-- The segment `B = [(0,2),(2,0)]`, crossing `crossA` at both midpoints. -/
def crossB : Line ℚ := { p0 := { x := 0, y := 2 }, p1 := { x := 2, y := 0 } }

/-- The segment `A = [(0,0),(2,0)]`. -/
def parallelA : Line ℚ := { p0 := { x := 0, y := 0 }, p1 := { x := 2, y := 0 } }

/-- The segment `B = [(0,1),(2,1)]`, parallel to `parallelA`. -/
def parallelB : Line ℚ := { p0 := { x := 0, y := 1 }, p1 := { x := 2, y := 1 } }

section Theory

set_option linter.unusedSectionVars false

variable {α : Type} [LinearOrderedField α]

/-! ## Lemmas on `addBody` and `removeBody` -/

theorem indexOf_eq_neg_one_iff (bodies : List Ref) (body : Ref) :
    indexOf bodies body = -1 ↔ body ∉ bodies := by
  unfold indexOf List.indexOf?
  cases h : List.findIdx? (fun x => x == body) bodies with
  | none =>
    simp only [true_iff]
    rw [List.findIdx?_eq_none_iff] at h
    intro hm
    have := h body hm
    simp at this
  | some i =>
    have hi := List.findIdx?_of_eq_some h
    constructor
    · intro h1
      have h2 : (i : Int) = -1 := h1
      omega
    · intro hn
      exfalso
      apply hn
      cases hg : bodies[i]? with
      | none => simp [hg] at hi
      | some a =>
        simp [hg] at hi
        subst hi
        exact List.getElem?_mem hg

theorem eraseIdx_indexOf (bodies : List Ref) (body : Ref) (h : body ∈ bodies) :
    bodies.eraseIdx (indexOf bodies body).toNat = bodies.erase body := by
  induction bodies with
  | nil => simp at h
  | cons a t ih =>
    unfold indexOf List.indexOf?
    by_cases hab : a = body
    · subst hab
      simp [List.findIdx?_cons]
    · have ht : body ∈ t := by
        rcases List.mem_cons.mp h with h1 | h1
        · exact absurd h1.symm hab
        · exact h1
      have ih1 := ih ht
      unfold indexOf List.indexOf? at ih1
      have hne : indexOf t body ≠ -1 := fun hc => (indexOf_eq_neg_one_iff t body).mp hc ht
      unfold indexOf List.indexOf? at hne
      rw [List.findIdx?_cons]
      simp only [beq_iff_eq, hab, if_false]
      rw [List.findIdx?_succ]
      cases hf : List.findIdx? (fun x => x == body) t with
      | none => simp [hf] at hne
      | some i =>
        simp only [hf] at ih1
        simp only [Option.map_some', Int.toNat_ofNat] at ih1 ⊢
        simp only [Int.toNat_ofNat, List.eraseIdx_cons_succ]
        rw [List.erase_cons_tail (by simpa using hab)]
        simpa using ih1

theorem addBody_bodies (g : Game α) (body : Ref) :
    (Game.addBody g body).bodies = g.bodies ++ [body] := by
  unfold Game.addBody
  split <;> rfl

theorem addBody_nBullets (g : Game α) (body : Ref) :
    (Game.addBody g body).nBullets =
      g.nBullets + (if body.kind = Kind.bullet then 1 else 0) := by
  unfold Game.addBody
  split <;> simp

theorem addBody_explosionPlays (g : Game α) (body : Ref) :
    (Game.addBody g body).explosionPlays = g.explosionPlays := by
  unfold Game.addBody
  split <;> rfl

theorem newDyingPlayer_fields (env : Env α) (g : Game α) (body : Ref) :
    (Game.newDyingPlayer env g body).1.bodies = g.bodies ∧
    (Game.newDyingPlayer env g body).1.nBullets = g.nBullets ∧
    (Game.newDyingPlayer env g body).1.explosionPlays = g.explosionPlays ∧
    (Game.newDyingPlayer env g body).2 =
      { kind := Kind.dyingPlayer, addr := g.dyingPlayers.length } := by
  unfold Game.newDyingPlayer
  split <;> simp

/-- The list of bodies after `removeBody`: the first occurrence of the body
is removed, and for a `Player` a fresh `DyingPlayer` is appended. -/
theorem removeBody_bodies (env : Env α) (g : Game α) (body : Ref) :
    (Game.removeBody env g body).bodies =
      g.bodies.erase body ++
        (if body.kind = Kind.player then
          [{ kind := Kind.dyingPlayer, addr := g.dyingPlayers.length }] else []) := by
  have herase : (if indexOf g.bodies body ≠ -1
      then g.bodies.eraseIdx (indexOf g.bodies body).toNat else g.bodies) =
      g.bodies.erase body := by
    by_cases hm : body ∈ g.bodies
    · have hne : indexOf g.bodies body ≠ -1 :=
        fun hc => (indexOf_eq_neg_one_iff _ _).mp hc hm
      rw [if_pos hne, eraseIdx_indexOf _ _ hm]
    · have he : indexOf g.bodies body = -1 := (indexOf_eq_neg_one_iff _ _).mpr hm
      simp [he, List.erase_of_not_mem hm]
  rw [← herase]
  unfold Game.removeBody
  by_cases hp : body.kind = Kind.player
  · have hb : ¬ body.kind = Kind.bullet := by rw [hp]; decide
    simp only [hp, hb, if_true, if_false, true_or, addBody_bodies]
    rw [(newDyingPlayer_fields env _ body).1, (newDyingPlayer_fields env _ body).2.2.2]
    by_cases hi : indexOf g.bodies body = -1 <;> simp [hi]
  · simp only [hp, if_false, false_or, List.append_nil]
    by_cases hi : indexOf g.bodies body = -1 <;>
      by_cases hb : body.kind = Kind.bullet <;>
      by_cases ha : body.kind = Kind.asteroid <;> simp [hi, hb, ha]

/-- The counter after `removeBody`: decremented exactly when a `Bullet`
that is present was removed. -/
theorem removeBody_nBullets (env : Env α) (g : Game α) (body : Ref) :
    (Game.removeBody env g body).nBullets =
      g.nBullets - (if body ∈ g.bodies ∧ body.kind = Kind.bullet then 1 else 0) := by
  have hi : indexOf g.bodies body ≠ -1 ↔ body ∈ g.bodies := by
    rw [Ne, indexOf_eq_neg_one_iff]; exact not_not
  unfold Game.removeBody
  by_cases hp : body.kind = Kind.player
  · have hb : ¬ body.kind = Kind.bullet := by rw [hp]; decide
    simp only [hp, hb, if_true, if_false, true_or, addBody_nBullets, and_false]
    rw [(newDyingPlayer_fields env _ body).2.1, (newDyingPlayer_fields env _ body).2.2.2]
    by_cases hm : indexOf g.bodies body = -1 <;> simp [hm]
  · simp only [hp, if_false, false_or]
    by_cases hm : body ∈ g.bodies <;>
      by_cases hb : body.kind = Kind.bullet <;>
      by_cases ha : body.kind = Kind.asteroid <;> simp [hi, hm, hb, ha]

/-- The explosion sound is played by every `removeBody` of a `Player` or an
`Asteroid`, whether or not the body was present. -/
theorem removeBody_explosionPlays (env : Env α) (g : Game α) (body : Ref) :
    (Game.removeBody env g body).explosionPlays =
      g.explosionPlays +
        (if body.kind = Kind.player ∨ body.kind = Kind.asteroid then 1 else 0) := by
  unfold Game.removeBody
  by_cases hp : body.kind = Kind.player
  · have hb : ¬ body.kind = Kind.bullet := by rw [hp]; decide
    simp only [hp, hb, if_true, if_false, true_or, addBody_explosionPlays]
    rw [(newDyingPlayer_fields env _ body).2.2.1]
    by_cases hm : indexOf g.bodies body = -1 <;> simp [hm]
  · simp only [hp, if_false, false_or]
    by_cases hm : indexOf g.bodies body = -1 <;>
      by_cases hb : body.kind = Kind.bullet <;>
      by_cases ha : body.kind = Kind.asteroid <;> simp [hm, hb, ha]

theorem addBody_store (g : Game α) (body : Ref) :
    (Game.addBody g body).asteroids = g.asteroids ∧
    (Game.addBody g body).players = g.players ∧
    (Game.addBody g body).bullets = g.bullets ∧
    (Game.addBody g body).dyingPlayers = g.dyingPlayers ∧
    (Game.addBody g body).size = g.size ∧
    (Game.addBody g body).center = g.center ∧
    (Game.addBody g body).rnd = g.rnd := by
  unfold Game.addBody
  split <;> simp

/-- The store after `removeBody`: only the store of dying players grows, by
one object when the body is a `Player`. -/
theorem removeBody_store (env : Env α) (g : Game α) (body : Ref) :
    (Game.removeBody env g body).asteroids = g.asteroids ∧
    (Game.removeBody env g body).players = g.players ∧
    (Game.removeBody env g body).bullets = g.bullets ∧
    (Game.removeBody env g body).size = g.size ∧
    (Game.removeBody env g body).center = g.center ∧
    (Game.removeBody env g body).dyingPlayers.length =
      g.dyingPlayers.length + (if body.kind = Kind.player then 1 else 0) := by
  unfold Game.removeBody
  by_cases hp : body.kind = Kind.player
  · have hb : ¬ body.kind = Kind.bullet := by rw [hp]; decide
    simp only [hp, hb, if_true, if_false, true_or]
    refine ⟨?_, ?_, ?_, ?_, ?_, ?_⟩ <;>
      simp only [(addBody_store _ _).1, (addBody_store _ _).2.1, (addBody_store _ _).2.2.1,
        (addBody_store _ _).2.2.2.1, (addBody_store _ _).2.2.2.2.1,
        (addBody_store _ _).2.2.2.2.2.1] <;>
      unfold Game.newDyingPlayer <;>
      by_cases hm : indexOf g.bodies body = -1 <;> simp [hm] <;> split <;> simp
  · simp only [hp, if_false, false_or]
    by_cases hm : indexOf g.bodies body = -1 <;>
      by_cases hb : body.kind = Kind.bullet <;>
      by_cases ha : body.kind = Kind.asteroid <;> simp [hm, hb, ha]

theorem bulletCount_append (l1 l2 : List Ref) :
    bulletCount (l1 ++ l2) = bulletCount l1 + bulletCount l2 := by
  simp [bulletCount]

theorem bulletCount_erase (bodies : List Ref) (body : Ref) :
    bulletCount (bodies.erase body) =
      bulletCount bodies - (if body ∈ bodies ∧ body.kind = Kind.bullet then 1 else 0) := by
  induction bodies with
  | nil => simp [bulletCount]
  | cons a t ih =>
    by_cases hab : a = body
    · subst hab
      by_cases hb : a.kind = Kind.bullet <;> simp [bulletCount, hb]
    · rw [List.erase_cons_tail (by simpa using hab)]
      have hmem : (body ∈ a :: t) ↔ body ∈ t := by
        simp [List.mem_cons, Ne.symm hab]
      have hcons : ∀ l : List Ref, bulletCount (a :: l) =
          (if a.kind = Kind.bullet then 1 else 0) + bulletCount l := by
        intro l
        by_cases hb : a.kind = Kind.bullet <;> simp [bulletCount, hb]; ring
      rw [hcons, hcons, ih]
      simp only [hmem]
      ring

/-- Each call keeps the difference between the counter and the number of
`Bullet` entries. -/
theorem run_keeps_difference (env : Env α) (g : Game α) (c : Call) :
    (c.run env g).nBullets - bulletCount (c.run env g).bodies =
      g.nBullets - bulletCount g.bodies := by
  cases c with
  | addBody body =>
    simp only [Call.run, addBody_bodies, addBody_nBullets, bulletCount_append]
    by_cases hb : body.kind = Kind.bullet <;> simp [bulletCount, hb]
  | removeBody body =>
    simp only [Call.run, removeBody_bodies, removeBody_nBullets, bulletCount_append,
      bulletCount_erase]
    by_cases hp : body.kind = Kind.player <;> simp [bulletCount, hp]

theorem runCalls_keeps_difference (env : Env α) (calls : List Call) (g : Game α) :
    (runCalls env g calls).nBullets - bulletCount (runCalls env g calls).bodies =
      g.nBullets - bulletCount g.bodies := by
  induction calls generalizing g with
  | nil => rfl
  | cons c cs ih =>
    have h := ih (c.run env g)
    simp only [runCalls, List.foldl_cons] at h ⊢
    rw [h, run_keeps_difference]

theorem bulletCount_eq_zero (bodies : List Ref) (hb : ∀ b ∈ bodies, b.kind ≠ Kind.bullet) :
    bulletCount bodies = 0 := by
  unfold bulletCount
  rw [List.filter_eq_nil_iff.mpr]
  · rfl
  · intro b hm
    simpa using hb b hm

/-! ## C1: the bullet counter -/

/-- C1. Bullet-counter invariant: from any initial world with no `Bullet` in
`bodies` and `nBullets = 0`, after any finite sequence of `addBody` and
`removeBody` calls with arbitrary bodies (present or not, of any kind,
including the `DyingPlayer` that `removeBody` adds for a `Player`),
`nBullets` equals the number of `Bullet` entries of `bodies`. -/
theorem nBullets_eq_bulletCount (env : Env α) (g0 : Game α) (calls : List Call)
    (h0 : g0.nBullets = 0) (hb : ∀ b ∈ g0.bodies, b.kind ≠ Kind.bullet) :
    (runCalls env g0 calls).nBullets = bulletCount (runCalls env g0 calls).bodies := by
  have h := runCalls_keeps_difference env calls g0
  rw [h0, bulletCount_eq_zero _ hb] at h
  linarith

/-- C1, witness: the world made by the `Game` constructor on an 800 by 600
canvas is such an initial world, and the invariant holds after
`sampleCalls`. -/
theorem nBullets_eq_bulletCount_witness :
    (Game.new hostQ 800 600).nBullets = 0 ∧
    (∀ b ∈ (Game.new hostQ 800 600).bodies, b.kind ≠ Kind.bullet) ∧
    (runCalls hostQ (Game.new hostQ 800 600) sampleCalls).nBullets =
      bulletCount (runCalls hostQ (Game.new hostQ 800 600) sampleCalls).bodies :=
  ⟨rfl, by simp [Game.new],
    nBullets_eq_bulletCount hostQ (Game.new hostQ 800 600) sampleCalls rfl
      (by simp [Game.new])⟩

/-! ## C2: `removeBody` on an absent body -/

/-- C2, evaluation at the failing input.  In `worldAfterCrash` the player
and (after one more removal) the first asteroid are absent from `bodies`.
`removeBody` of the absent player still appends a second `DyingPlayer` and
plays the explosion sound; `removeBody` of the absent asteroid still plays
the explosion sound.  The bullet counter is left unchanged. -/
theorem removeBody_absent_not_noop :
    thePlayer ∉ worldAfterCrash.bodies ∧
    (Game.removeBody hostQ worldAfterCrash thePlayer).bodies =
      worldAfterCrash.bodies ++ [{ kind := Kind.dyingPlayer, addr := 1 }] ∧
    (Game.removeBody hostQ worldAfterCrash thePlayer).explosionPlays =
      worldAfterCrash.explosionPlays + 1 ∧
    (Game.removeBody hostQ worldAfterCrash thePlayer).nBullets = worldAfterCrash.nBullets ∧
    firstAsteroid ∉ (Game.removeBody hostQ worldAfterCrash firstAsteroid).bodies ∧
    (Game.removeBody hostQ (Game.removeBody hostQ worldAfterCrash firstAsteroid)
        firstAsteroid).bodies =
      (Game.removeBody hostQ worldAfterCrash firstAsteroid).bodies ∧
    (Game.removeBody hostQ (Game.removeBody hostQ worldAfterCrash firstAsteroid)
        firstAsteroid).explosionPlays =
      (Game.removeBody hostQ worldAfterCrash firstAsteroid).explosionPlays + 1 := by
  have hbodies : worldAfterCrash.bodies =
      [{ kind := Kind.asteroid, addr := 0 }, { kind := Kind.asteroid, addr := 1 },
       { kind := Kind.asteroid, addr := 2 }, { kind := Kind.asteroid, addr := 3 },
       { kind := Kind.dyingPlayer, addr := 0 }] := by
    simp [worldAfterCrash, removeBody_bodies, Game.new, thePlayer]
  have hdying : worldAfterCrash.dyingPlayers.length = 1 := by
    rw [worldAfterCrash, (removeBody_store _ _ _).2.2.2.2.2]
    simp [Game.new, thePlayer]
  refine ⟨?_, ?_, ?_, ?_, ?_, ?_, ?_⟩
  · rw [hbodies]; decide
  · rw [removeBody_bodies, hdying, hbodies]; decide
  · rw [removeBody_explosionPlays]; simp [thePlayer]
  · rw [removeBody_nBullets]; simp [thePlayer]
  · rw [removeBody_bodies, hbodies]; decide
  · rw [removeBody_bodies, removeBody_bodies, hbodies]; decide
  · rw [removeBody_explosionPlays]; simp [firstAsteroid]

/-! ## C3, C4: `geom.linesIntersecting` -/

theorem linesIntersecting_eq_true_iff (a b : Line α) (hd : geom.det a b ≠ 0) :
    geom.linesIntersecting a b = true ↔
      0 ≤ geom.n1 a b / geom.det a b ∧ geom.n1 a b / geom.det a b ≤ 1 ∧
      0 ≤ geom.n2 a b / geom.det a b ∧ geom.n2 a b / geom.det a b ≤ 1 := by
  simp [geom.linesIntersecting, hd, and_assoc]

/-- A common point `a0 + s (a1 - a0) = b0 + t (b1 - b0)` forces
`n1 = s * d` and `n2 = t * d`. -/
theorem n1_n2_of_common_point (a b : Line α) (s t : α)
    (hx : a.p0.x + s * (a.p1.x - a.p0.x) = b.p0.x + t * (b.p1.x - b.p0.x))
    (hy : a.p0.y + s * (a.p1.y - a.p0.y) = b.p0.y + t * (b.p1.y - b.p0.y)) :
    geom.n1 a b = s * geom.det a b ∧ geom.n2 a b = t * geom.det a b := by
  have ex : a.p0.x - b.p0.x = t * (b.p1.x - b.p0.x) - s * (a.p1.x - a.p0.x) := by linarith
  have ey : a.p0.y - b.p0.y = t * (b.p1.y - b.p0.y) - s * (a.p1.y - a.p0.y) := by linarith
  unfold geom.n1 geom.n2 geom.det
  rw [ex, ey]
  constructor <;> ring

/-- C3. For segments `a = [a0, a1]` and `b = [b0, b1]` over an ordered field
with determinant `d ≠ 0`, `geom.linesIntersecting(a, b)` is true if and only
if there are `s` and `t` in `[0, 1]` with
`a0 + s (a1 - a0) = b0 + t (b1 - b0)`, that is, iff the two closed segments
share a point. -/
theorem linesIntersecting_iff_common_point (a b : Line α) (hd : geom.det a b ≠ 0) :
    geom.linesIntersecting a b = true ↔
      ∃ s t : α, 0 ≤ s ∧ s ≤ 1 ∧ 0 ≤ t ∧ t ≤ 1 ∧
        a.p0.x + s * (a.p1.x - a.p0.x) = b.p0.x + t * (b.p1.x - b.p0.x) ∧
        a.p0.y + s * (a.p1.y - a.p0.y) = b.p0.y + t * (b.p1.y - b.p0.y) := by
  rw [linesIntersecting_eq_true_iff a b hd]
  constructor
  · rintro ⟨h1, h2, h3, h4⟩
    refine ⟨geom.n1 a b / geom.det a b, geom.n2 a b / geom.det a b, h1, h2, h3, h4, ?_, ?_⟩
    · have hd1 := hd
      unfold geom.det at hd1
      unfold geom.n1 geom.n2 geom.det
      field_simp
      ring
    · have hd1 := hd
      unfold geom.det at hd1
      unfold geom.n1 geom.n2 geom.det
      field_simp
      ring
  · rintro ⟨s, t, hs0, hs1, ht0, ht1, hx, hy⟩
    obtain ⟨e1, e2⟩ := n1_n2_of_common_point a b s t hx hy
    rw [e1, e2, mul_div_assoc, mul_div_assoc, div_self hd, mul_one, mul_one]
    exact ⟨hs0, hs1, ht0, ht1⟩

/-- C3, witness: `A = [(0,0),(2,2)]` and `B = [(0,2),(2,0)]` have a nonzero
determinant and share their midpoint `(1,1)`, so the test returns true. -/
theorem linesIntersecting_iff_common_point_witness :
    geom.det crossA crossB ≠ 0 ∧ geom.linesIntersecting crossA crossB = true :=
  ⟨by norm_num [geom.det, crossA, crossB],
   (linesIntersecting_iff_common_point crossA crossB
      (by norm_num [geom.det, crossA, crossB])).mpr
      ⟨1 / 2, 1 / 2, by norm_num [crossA, crossB]⟩⟩

theorem det_eq_zero_of_degenerate (a b : Line α) (h : a.p0 = a.p1 ∨ b.p0 = b.p1) :
    geom.det a b = 0 := by
  unfold geom.det
  rcases h with h | h <;> rw [h] <;> ring

/-- The version with checked divisions never reports a division by zero and
agrees with `geom.linesIntersecting` on every input. -/
theorem linesIntersectingChecked_eq (a b : Line α) :
    geom.linesIntersectingChecked a b = some (geom.linesIntersecting a b) := by
  by_cases hd : geom.det a b = 0
  · simp [geom.linesIntersecting, geom.linesIntersectingChecked, hd]
  · simp only [geom.linesIntersecting, geom.linesIntersectingChecked, hd, checkedDiv,
      if_false, Option.some_bind]
    by_cases h1 : geom.n1 a b / geom.det a b ≥ 0 <;>
      by_cases h2 : geom.n1 a b / geom.det a b ≤ 1 <;>
      by_cases h3 : geom.n2 a b / geom.det a b ≥ 0 <;> simp [h1, h2, h3]

/-- C4. Whenever the determinant is 0 (parallel, collinear or overlapping
segments) and whenever either segment has both endpoints equal,
`geom.linesIntersecting(a, b)` is false and no division is executed: the
version with checked divisions returns `false` too, and not a division
error. -/
theorem linesIntersecting_false_of_det_zero (a b : Line α)
    (h : geom.det a b = 0 ∨ a.p0 = a.p1 ∨ b.p0 = b.p1) :
    geom.linesIntersecting a b = false ∧
    geom.linesIntersectingChecked a b = some false := by
  have hd : geom.det a b = 0 := by
    rcases h with h | h
    · exact h
    · exact det_eq_zero_of_degenerate a b h
  simp [geom.linesIntersecting, geom.linesIntersectingChecked, hd]

/-- C4, witness: `A = [(0,0),(2,0)]` and `B = [(0,1),(2,1)]` are parallel and
the test returns false. -/
theorem linesIntersecting_false_of_det_zero_witness :
    (geom.det parallelA parallelB = 0 ∨ parallelA.p0 = parallelA.p1 ∨
      parallelB.p0 = parallelB.p1) ∧
    geom.linesIntersecting parallelA parallelB = false ∧
    geom.linesIntersectingChecked parallelA parallelB = some false :=
  ⟨Or.inl (by norm_num [geom.det, parallelA, parallelB]),
   linesIntersecting_false_of_det_zero parallelA parallelB
     (Or.inl (by norm_num [geom.det, parallelA, parallelB]))⟩

/-! ## C5: the colliding pairs -/

theorem isColliding_eq (g : Game α) (b1 b2 : Ref) :
    isColliding g b1 b2 = (decide (b1 ≠ b2) && edgesIntersect g b1 b2) := by
  unfold isColliding edgesIntersect pairs
  by_cases h : b1 = b2
  · simp [h]
  · simp only [h, if_false, ne_eq, not_false_eq_true, decide_True, Bool.true_and]
    rw [Bool.eq_iff_iff]
    simp only [gt_iff_lt, decide_eq_true_eq, List.length_pos, ne_eq, List.filter_eq_nil_iff,
      List.mem_flatMap, List.mem_map, List.any_eq_true]
    constructor
    · intro hex
      by_contra hno
      apply hex
      rintro ⟨e1, e2⟩ ⟨a, ha, b, hb, hab⟩ hint
      rw [← hab] at hint
      exact hno ⟨a, ha, b, hb, hint⟩
    · rintro ⟨a, ha, b, hb, hint⟩ hall
      exact hall (a, b) ⟨a, ha, b, hb, rfl⟩ hint

/-- The positions `(i, j)` with `i < j < n`, in the order of the two loops. -/
theorem positions_nodup_and_mem (n : Nat) :
    ((List.range n).flatMap fun i =>
        (List.range' (i + 1) (n - (i + 1))).map fun j => (i, j)).Nodup ∧
    ∀ i j, (i, j) ∈ ((List.range n).flatMap fun i =>
        (List.range' (i + 1) (n - (i + 1))).map fun j => (i, j)) ↔ i < j ∧ j < n := by
  constructor
  · rw [List.nodup_flatMap]
    refine ⟨?_, ?_⟩
    · intro i _
      exact (List.nodup_range' _ _).map (fun _ _ h => (Prod.mk.inj h).2)
    · apply List.Nodup.pairwise_of_forall_ne (List.nodup_range n)
      intro a _ b _ hab
      rw [Function.onFun, List.disjoint_left]
      intro p hp hq
      simp only [List.mem_map] at hp hq
      obtain ⟨_, _, rfl⟩ := hp
      obtain ⟨_, _, h2⟩ := hq
      exact hab (Prod.mk.inj h2).1.symm
  · intro i j
    simp only [List.mem_flatMap, List.mem_range, List.mem_map, List.mem_range'_1, Prod.mk.injEq]
    constructor
    · rintro ⟨a, ha, b, ⟨hb1, hb2⟩, rfl, rfl⟩
      omega
    · rintro ⟨h1, h2⟩
      exact ⟨i, by omega, j, ⟨by omega, by omega⟩, rfl, rfl⟩

/-- The pairs collected by `reportCollisions`, for every list of bodies,
repeated objects included.  There is a list `ps` of positions that holds
every `(i, j)` with `i < j < bodies.length` exactly once and nothing else,
such that the pairs collected are the pairs `(bodies[i], bodies[j])`, for
`(i, j)` running through `ps`, for which `bodies[i]` and `bodies[j]` are
different objects and some edge of the closed polygon of `bodies[i]` and some
edge of the closed polygon of `bodies[j]` satisfy `linesIntersecting`. -/
theorem collectCollisions_spec (g : Game α) (bodies : List Ref) :
    ∃ ps : List (Nat × Nat),
      ps.Nodup ∧
      (∀ i j, (i, j) ∈ ps ↔ i < j ∧ j < bodies.length) ∧
      collectCollisions g bodies = ps.filterMap (reportedAt g bodies) := by
  refine ⟨_, (positions_nodup_and_mem bodies.length).1,
    (positions_nodup_and_mem bodies.length).2, ?_⟩
  unfold collectCollisions
  rw [List.filterMap_flatMap]
  congr 1
  funext i
  rw [List.filterMap_map]
  congr 1
  funext j
  simp only [Function.comp, reportedAt]
  cases bodies.get? i <;> cases bodies.get? j <;> simp [isColliding_eq]

theorem nodup_get?_ne (bodies : List Ref) (hnd : bodies.Nodup) (i j : Nat) (a b : Ref)
    (hij : i ≠ j) (ha : bodies.get? i = some a) (hb : bodies.get? j = some b) : a ≠ b := by
  intro hab
  apply hij
  have hi : i < bodies.length := by
    rcases Nat.lt_or_ge i bodies.length with h | h
    · exact h
    · rw [List.get?_eq_none.mpr h] at ha
      cases ha
  rw [List.get?_eq_getElem?] at ha hb
  exact List.getElem?_inj hi hnd (by rw [ha, hb, hab])

/-- C5. For every list of bodies that holds no object twice, as every list
the game builds does: the pairs collected by `reportCollisions` are exactly
the pairs `(bodies[i], bodies[j])`, for `(i, j)` running through a list that
holds every pair of positions `i < j < bodies.length` exactly once and
nothing else, such that some edge of the closed polygon of `bodies[i]` and
some edge of the closed polygon of `bodies[j]` satisfy `linesIntersecting`.
So every unordered pair of distinct positions is tested exactly once, no pair
is reported twice and no body is paired with itself. -/
theorem collectCollisions_exact (g : Game α) (bodies : List Ref) (hnd : bodies.Nodup) :
    (∃ ps : List (Nat × Nat),
      ps.Nodup ∧
      (∀ i j, (i, j) ∈ ps ↔ i < j ∧ j < bodies.length) ∧
      collectCollisions g bodies = ps.filterMap (collidingAt g bodies)) ∧
    (collectCollisions g bodies).Nodup ∧
    (∀ c ∈ collectCollisions g bodies, c.1 ≠ c.2) := by
  obtain ⟨ps, hps, hmem, hcol⟩ := collectCollisions_spec g bodies
  have hsame : ps.filterMap (reportedAt g bodies) = ps.filterMap (collidingAt g bodies) := by
    apply List.filterMap_congr
    rintro ⟨i, j⟩ hp
    have hij := (hmem i j).mp hp
    unfold reportedAt collidingAt
    cases hi : bodies.get? i with
    | none => rfl
    | some bi =>
      cases hj : bodies.get? j with
      | none => rfl
      | some bj =>
        have hne := nodup_get?_ne bodies hnd i j bi bj (by omega) hi hj
        simp only [hi, hj, ne_eq, hne, not_false_eq_true, true_and]
  have hcol2 : collectCollisions g bodies = ps.filterMap (collidingAt g bodies) := by
    rw [hcol, hsame]
  have hsome : ∀ (p : Nat × Nat) (c : Ref × Ref), collidingAt g bodies p = some c →
      bodies.get? p.1 = some c.1 ∧ bodies.get? p.2 = some c.2 := by
    intro p c hc
    unfold collidingAt at hc
    cases hi : bodies.get? p.1 with
    | none =>
      rw [hi] at hc
      cases hc
    | some bi =>
      cases hj : bodies.get? p.2 with
      | none =>
        rw [hi, hj] at hc
        cases hc
      | some bj =>
        rw [hi, hj] at hc
        simp only at hc
        by_cases he : edgesIntersect g bi bj = true
        · simp only [he, if_true, Option.some.injEq] at hc
          rw [← hc]
          exact ⟨rfl, rfl⟩
        · simp [he] at hc
  refine ⟨⟨ps, hps, hmem, hcol2⟩, ?_, ?_⟩
  · rw [hcol2]
    apply List.Nodup.filterMap _ hps
    intro p p1 c hc hc1
    obtain ⟨h1, h2⟩ := hsome p c hc
    obtain ⟨h3, h4⟩ := hsome p1 c hc1
    have e1 : p.1 = p1.1 := by
      by_contra hne
      exact nodup_get?_ne bodies hnd p.1 p1.1 c.1 c.1 hne h1 h3 rfl
    have e2 : p.2 = p1.2 := by
      by_contra hne
      exact nodup_get?_ne bodies hnd p.2 p1.2 c.2 c.2 hne h2 h4 rfl
    exact Prod.ext e1 e2
  · intro c hc
    rw [hcol2, List.mem_filterMap] at hc
    obtain ⟨⟨i, j⟩, hp, hcp⟩ := hc
    have hij := (hmem i j).mp hp
    obtain ⟨h1, h2⟩ := hsome (i, j) c hcp
    exact nodup_get?_ne bodies hnd i j c.1 c.2 (by omega) h1 h2

/-- C5, witness: the bodies of `twoBulletWorld`, an asteroid and two bullets,
are three different objects. -/
theorem collectCollisions_exact_witness :
    twoBulletWorld.bodies.Nodup ∧
    (∃ ps : List (Nat × Nat),
      ps.Nodup ∧
      (∀ i j, (i, j) ∈ ps ↔ i < j ∧ j < twoBulletWorld.bodies.length) ∧
      collectCollisions twoBulletWorld twoBulletWorld.bodies =
        ps.filterMap (collidingAt twoBulletWorld twoBulletWorld.bodies)) ∧
    (collectCollisions twoBulletWorld twoBulletWorld.bodies).Nodup ∧
    (∀ c ∈ collectCollisions twoBulletWorld twoBulletWorld.bodies, c.1 ≠ c.2) :=
  ⟨by decide, collectCollisions_exact twoBulletWorld twoBulletWorld.bodies (by decide)⟩

/-! ## C6: asteroid split -/

theorem newAsteroid_fields (env : Env α) (g : Game α) (center : Point α) (radius : α) :
    (Game.newAsteroid env g center radius).1.bodies = g.bodies ∧
    (Game.newAsteroid env g center radius).1.asteroids =
      g.asteroids ++ [(Asteroid.new env g.rnd center radius).1] ∧
    (Game.newAsteroid env g center radius).2 =
      { kind := Kind.asteroid, addr := g.asteroids.length } ∧
    (Asteroid.new env g.rnd center radius).1.radius = radius ∧
    (Asteroid.new env g.rnd center radius).1.center = center :=
  ⟨rfl, rfl, rfl, rfl, rfl⟩

/-- The bodies left after the two `removeBody` calls of a collision handler
on `this` (not a player) and `o`. -/
theorem bodies_after_two_removals (env : Env α) (g : Game α) (this o : Ref)
    (hk : this.kind ≠ Kind.player) :
    (Game.removeBody env (Game.removeBody env g this) o).bodies =
      (g.bodies.erase this).erase o ++
        (if o.kind = Kind.player then
          [{ kind := Kind.dyingPlayer, addr := g.dyingPlayers.length }] else []) := by
  rw [removeBody_bodies, removeBody_bodies, (removeBody_store env g this).2.2.2.2.2]
  simp [hk]

/-- The method `Asteroid.collision` on a `Player` or `Bullet`, unfolded. -/
theorem asteroid_collision_eq (env : Env α) (g : Game α) (addr : Nat) (a : Asteroid α)
    (o : Ref) (ha : g.asteroids.get? addr = some a)
    (ho : o.kind = Kind.player ∨ o.kind = Kind.bullet) :
    Asteroid.collision env g addr o =
      if a.radius > 10 then
        Game.addBody
          (Game.newAsteroid env
            (Game.addBody
              (Game.newAsteroid env
                (Game.removeBody env
                  (Game.removeBody env g { kind := Kind.asteroid, addr := addr }) o)
                { x := a.center.x, y := a.center.y } (a.radius - 10)).1
              (Game.newAsteroid env
                (Game.removeBody env
                  (Game.removeBody env g { kind := Kind.asteroid, addr := addr }) o)
                { x := a.center.x, y := a.center.y } (a.radius - 10)).2)
            { x := a.center.x, y := a.center.y } (a.radius - 10)).1
          (Game.newAsteroid env
            (Game.addBody
              (Game.newAsteroid env
                (Game.removeBody env
                  (Game.removeBody env g { kind := Kind.asteroid, addr := addr }) o)
                { x := a.center.x, y := a.center.y } (a.radius - 10)).1
              (Game.newAsteroid env
                (Game.removeBody env
                  (Game.removeBody env g { kind := Kind.asteroid, addr := addr }) o)
                { x := a.center.x, y := a.center.y } (a.radius - 10)).2)
            { x := a.center.x, y := a.center.y } (a.radius - 10)).2
      else
        Game.removeBody env
          (Game.removeBody env g { kind := Kind.asteroid, addr := addr }) o := by
  unfold Asteroid.collision
  rw [if_pos ho, ha]

/-- C6. Asteroid split.  Let `a` be the asteroid at `addr`, of radius `r`,
and `o` a `Player` or a `Bullet`.  After `a.collision(o)`:
`bodies` is the old list with the entry of `a` and the entry of `o` removed
(followed by the `DyingPlayer` that `removeBody` adds when `o` is a
`Player`) and, when `r > 10`, followed by exactly two new asteroids; the
store of asteroids grows by exactly these two objects, each of radius
`r - 10` and with center equal to `a`'s center; when `r ≤ 10` no asteroid is
made or appended.  In a world that holds no body twice, neither `a` nor `o`
is in `bodies` afterwards. -/
theorem asteroid_collision_split (env : Env α) (g : Game α) (addr : Nat) (a : Asteroid α)
    (o : Ref) (ha : g.asteroids.get? addr = some a)
    (ho : o.kind = Kind.player ∨ o.kind = Kind.bullet) :
    (Asteroid.collision env g addr o).bodies =
      (g.bodies.erase { kind := Kind.asteroid, addr := addr }).erase o ++
        (if o.kind = Kind.player then
          [{ kind := Kind.dyingPlayer, addr := g.dyingPlayers.length }] else []) ++
        (if a.radius > 10 then
          [{ kind := Kind.asteroid, addr := g.asteroids.length },
           { kind := Kind.asteroid, addr := g.asteroids.length + 1 }] else []) ∧
    (∃ c1 c2 : Asteroid α,
      c1.radius = a.radius - 10 ∧ c2.radius = a.radius - 10 ∧
      c1.center = a.center ∧ c2.center = a.center ∧
      (Asteroid.collision env g addr o).asteroids =
        g.asteroids ++ (if a.radius > 10 then [c1, c2] else [])) ∧
    (g.bodies.Nodup →
      { kind := Kind.asteroid, addr := addr } ∉ (Asteroid.collision env g addr o).bodies ∧
      o ∉ (Asteroid.collision env g addr o).bodies) := by
  have hk : ({ kind := Kind.asteroid, addr := addr } : Ref).kind ≠ Kind.player := by simp
  have hrest := bodies_after_two_removals env g { kind := Kind.asteroid, addr := addr } o hk
  have hast : (Game.removeBody env
      (Game.removeBody env g { kind := Kind.asteroid, addr := addr }) o).asteroids =
      g.asteroids := by
    rw [(removeBody_store env _ o).1, (removeBody_store env g _).1]
  have hlt : addr < g.asteroids.length := by
    rcases Nat.lt_or_ge addr g.asteroids.length with h | h
    · exact h
    · rw [List.get?_eq_none.mpr h] at ha
      cases ha
  have hbodies : (Asteroid.collision env g addr o).bodies =
      (g.bodies.erase { kind := Kind.asteroid, addr := addr }).erase o ++
        (if o.kind = Kind.player then
          [{ kind := Kind.dyingPlayer, addr := g.dyingPlayers.length }] else []) ++
        (if a.radius > 10 then
          [{ kind := Kind.asteroid, addr := g.asteroids.length },
           { kind := Kind.asteroid, addr := g.asteroids.length + 1 }] else []) := by
    rw [asteroid_collision_eq env g addr a o ha ho]
    by_cases hr : a.radius > 10
    · simp only [hr, if_true, addBody_bodies, (newAsteroid_fields env _ _ _).1,
        (newAsteroid_fields env _ _ _).2.2.1, (addBody_store _ _).1,
        (newAsteroid_fields env _ _ _).2.1, hrest, hast, List.length_append,
        List.length_singleton, List.append_assoc, List.singleton_append]
    · simp only [hr, if_false, hrest, List.append_nil]
  refine ⟨hbodies, ?_, ?_⟩
  · refine ⟨(Asteroid.new env (Game.removeBody env
        (Game.removeBody env g { kind := Kind.asteroid, addr := addr }) o).rnd
        { x := a.center.x, y := a.center.y } (a.radius - 10)).1,
      (Asteroid.new env (Game.addBody
        (Game.newAsteroid env (Game.removeBody env
          (Game.removeBody env g { kind := Kind.asteroid, addr := addr }) o)
          { x := a.center.x, y := a.center.y } (a.radius - 10)).1
        (Game.newAsteroid env (Game.removeBody env
          (Game.removeBody env g { kind := Kind.asteroid, addr := addr }) o)
          { x := a.center.x, y := a.center.y } (a.radius - 10)).2).rnd
        { x := a.center.x, y := a.center.y } (a.radius - 10)).1, rfl, rfl, rfl, rfl, ?_⟩
    rw [asteroid_collision_eq env g addr a o ha ho]
    by_cases hr : a.radius > 10
    · simp only [hr, if_true, (addBody_store _ _).1, (newAsteroid_fields env _ _ _).2.1,
        hast, List.append_assoc, List.singleton_append]
    · simp only [hr, if_false, hast, List.append_nil]
  · intro hnd
    rw [hbodies]
    have hnd1 : (g.bodies.erase { kind := Kind.asteroid, addr := addr }).Nodup := hnd.erase _
    constructor
    · intro hm
      rcases List.mem_append.mp hm with hm | hm
      · rcases List.mem_append.mp hm with hm | hm
        · exact (List.Nodup.not_mem_erase hnd) (List.mem_of_mem_erase hm)
        · by_cases hp : o.kind = Kind.player
          · simp [hp] at hm
          · simp [hp] at hm
      · by_cases hr : a.radius > 10
        · simp only [hr, if_true, List.mem_cons, Ref.mk.injEq, true_and,
            List.mem_singleton, List.not_mem_nil, or_false] at hm
          omega
        · simp [hr] at hm
    · intro hm
      rcases List.mem_append.mp hm with hm | hm
      · rcases List.mem_append.mp hm with hm | hm
        · exact (List.Nodup.not_mem_erase hnd1) hm
        · by_cases hp : o.kind = Kind.player
          · simp only [hp, if_true, List.mem_singleton] at hm
            rw [hm] at hp
            cases hp
          · simp [hp] at hm
      · by_cases hr : a.radius > 10
        · simp only [hr, if_true, List.mem_cons, List.mem_singleton, List.not_mem_nil,
            or_false] at hm
          rcases hm with hm | hm <;> rw [hm] at ho <;> rcases ho with ho | ho <;> cases ho
        · simp [hr] at hm

/-- C6, witness.  In `splitWorld` the asteroid of radius 30 hit by the bullet
leaves `bodies` with the other asteroid and exactly two new asteroids, of
radius 20 and with the center `(75, 75)` of the one destroyed; the asteroid
of radius 10 hit by the bullet leaves no new asteroid. -/
theorem asteroid_collision_split_witness :
    splitWorld.asteroids.get? 0 = some bigAsteroid ∧
    (firstBullet.kind = Kind.player ∨ firstBullet.kind = Kind.bullet) ∧
    splitWorld.bodies.Nodup ∧
    (Asteroid.collision hostQ splitWorld 0 firstBullet).bodies =
      [secondAsteroid, { kind := Kind.asteroid, addr := 2 },
        { kind := Kind.asteroid, addr := 3 }] ∧
    (∃ c1 c2 : Asteroid ℚ,
      c1.radius = 20 ∧ c2.radius = 20 ∧
      c1.center = { x := 75, y := 75 } ∧ c2.center = { x := 75, y := 75 } ∧
      (Asteroid.collision hostQ splitWorld 0 firstBullet).asteroids =
        splitWorld.asteroids ++ [c1, c2]) ∧
    (firstAsteroid ∉ (Asteroid.collision hostQ splitWorld 0 firstBullet).bodies ∧
      firstBullet ∉ (Asteroid.collision hostQ splitWorld 0 firstBullet).bodies) ∧
    (Asteroid.collision hostQ splitWorld 1 firstBullet).bodies = [firstAsteroid] ∧
    (Asteroid.collision hostQ splitWorld 1 firstBullet).asteroids = splitWorld.asteroids := by
  have h30 := asteroid_collision_split hostQ splitWorld 0 bigAsteroid firstBullet rfl
    (Or.inr rfl)
  have h10 := asteroid_collision_split hostQ splitWorld 1 smallAsteroid firstBullet rfl
    (Or.inr rfl)
  refine ⟨rfl, Or.inr rfl, by decide, ?_, ?_, h30.2.2 (by decide), ?_, ?_⟩
  · rw [h30.1]
    simp [splitWorld, firstBullet, firstAsteroid, secondAsteroid, bigAsteroid]
    norm_num
  · obtain ⟨c1, c2, r1, r2, e1, e2, hs⟩ := h30.2.1
    refine ⟨c1, c2, ?_, ?_, ?_, ?_, ?_⟩
    · rw [r1]; norm_num [bigAsteroid]
    · rw [r2]; norm_num [bigAsteroid]
    · rw [e1]; rfl
    · rw [e2]; rfl
    · rw [hs]; simp [bigAsteroid]; norm_num
  · rw [h10.1]
    simp [splitWorld, firstBullet, firstAsteroid, secondAsteroid, smallAsteroid]
  · obtain ⟨c1, c2, _, _, _, _, hs⟩ := h10.2.1
    rw [hs]
    simp [smallAsteroid]

/-! ## C7, C8: screen wrap -/

theorem filter_length_eq_zero_iff {β : Type} (l : List β) (p : β → Bool) :
    (l.filter p).length = 0 ↔ ∀ x ∈ l, p x = false := by
  rw [List.length_eq_zero, List.filter_eq_nil_iff]
  simp

/-- When the horizontal test of `wrapIfOffScreen` succeeds, the body is moved
to the center `(size.x - center.x, center.y)`. -/
theorem wrap_of_horizontal (g : Game α) (obj : Body α)
    (h : ((∀ p ∈ obj.points, p.x ≤ (geom.rect g.center g.size).l) ∧ obj.velocity.x < 0) ∨
         ((∀ p ∈ obj.points, (geom.rect g.center g.size).r ≤ p.x) ∧ obj.velocity.x > 0)) :
    Game.wrapIfOffScreen g obj =
      moveBody obj { x := g.size.x - obj.center.x, y := obj.center.y } := by
  unfold Game.wrapIfOffScreen
  simp only [filter_length_eq_zero_iff, decide_eq_false_iff_not, not_lt, gt_iff_lt]
  rw [if_pos h]

theorem moveBody_fields (body : Body α) (center : Point α) :
    (moveBody body center).center = center ∧
    (moveBody body center).velocity = body.velocity ∧
    (moveBody body center).points = body.points.map fun p =>
      { x := p.x + (center.x - body.center.x), y := p.y + (center.y - body.center.y) } :=
  ⟨rfl, rfl, rfl⟩

/-- When the horizontal test of `wrapIfOffScreen` succeeds in binary64, the
body is moved to the center `(size.x - center.x, center.y)`, the subtraction
being the binary64 one. -/
theorem wrap64_of_horizontal (gameCenter gameSize : Point Int) (obj : Body Int)
    (h : ((∀ p ∈ obj.points, p.x ≤ (geom.rect64 gameCenter gameSize).l) ∧
           obj.velocity.x < 0) ∨
         ((∀ p ∈ obj.points, (geom.rect64 gameCenter gameSize).r ≤ p.x) ∧
           obj.velocity.x > 0)) :
    Game.wrapIfOffScreen64 gameCenter gameSize obj =
      moveBody64 obj { x := b64.sub gameSize.x obj.center.x, y := obj.center.y } := by
  unfold Game.wrapIfOffScreen64
  simp only [filter_length_eq_zero_iff, decide_eq_false_iff_not, not_lt, gt_iff_lt]
  rw [if_pos h]

theorem moveBody64_fields (body : Body Int) (center : Point Int) :
    (moveBody64 body center).center = center ∧
    (moveBody64 body center).velocity = body.velocity ∧
    (moveBody64 body center).points = body.points.map fun p =>
      { x := b64.add p.x (b64.sub center.x body.center.x),
        y := b64.add p.y (b64.sub center.y body.center.y) } :=
  ⟨rfl, rfl, rfl⟩

theorem b64_round_zero : b64.round 0 = 0 := by decide

/-- In binary64, adding `c - c` to a binary64 number gives that number. -/
theorem b64_add_sub_self (y c : Int) (hy : b64.round y = y) :
    b64.add y (b64.sub c c) = y := by
  unfold b64.add b64.sub
  rw [sub_self, b64_round_zero, add_zero, hy]

/-- C7, as amended. In every world of width `W` (whatever its left screen
edge, 0 included), for a body whose every polygon point has `x` less than
the left edge and whose `velocity.x` is negative, `wrapIfOffScreen` moves
the center to `x = W - (old center.x)`, leaves every `y` as it was, and adds
`(W - (old center.x)) - (old center.x)` to the `x` of every point.  This holds
in exact arithmetic (first part), where the amount added is
`W - 2 * (old center.x)`, and in binary64 (second part, for points whose `y`
is a binary64 number), where each of the two subtractions and the addition
is rounded. -/
theorem wrap_left_reflects_center (g : Game α) (obj : Body α)
    (hp : ∀ p ∈ obj.points, p.x < (geom.rect g.center g.size).l)
    (hv : obj.velocity.x < 0)
    (gameCenter gameSize : Point Int) (obj64 : Body Int)
    (hp64 : ∀ p ∈ obj64.points, p.x < (geom.rect64 gameCenter gameSize).l)
    (hv64 : obj64.velocity.x < 0)
    (hy64 : ∀ p ∈ obj64.points, b64.round p.y = p.y) :
    ((Game.wrapIfOffScreen g obj).center.x = g.size.x - obj.center.x ∧
     (Game.wrapIfOffScreen g obj).center.y = obj.center.y ∧
     (Game.wrapIfOffScreen g obj).points = obj.points.map fun p =>
       { x := p.x + (g.size.x - 2 * obj.center.x), y := p.y }) ∧
    ((Game.wrapIfOffScreen64 gameCenter gameSize obj64).center.x =
       b64.sub gameSize.x obj64.center.x ∧
     (Game.wrapIfOffScreen64 gameCenter gameSize obj64).center.y = obj64.center.y ∧
     (Game.wrapIfOffScreen64 gameCenter gameSize obj64).points = obj64.points.map fun p =>
       { x := b64.add p.x (b64.sub (b64.sub gameSize.x obj64.center.x) obj64.center.x),
         y := p.y }) := by
  constructor
  · rw [wrap_of_horizontal g obj (Or.inl ⟨fun p hm => le_of_lt (hp p hm), hv⟩)]
    refine ⟨rfl, rfl, ?_⟩
    rw [(moveBody_fields _ _).2.2]
    apply List.map_congr_left
    intro p _
    congr 1 <;> ring
  · rw [wrap64_of_horizontal gameCenter gameSize obj64
      (Or.inl ⟨fun p hm => le_of_lt (hp64 p hm), hv64⟩)]
    refine ⟨rfl, rfl, ?_⟩
    rw [(moveBody64_fields _ _).2.2]
    apply List.map_congr_left
    intro p hm
    simp only
    rw [b64_add_sub_self p.y obj64.center.y (hy64 p hm)]

set_option exponentiation.threshold 4000 in
set_option maxRecDepth 100000 in
/-- C7, witness: `leftBody` in `splitWorld`, whose center goes from
`x = -10` to `x = 310`; and in binary64 `leftBody64` on the same screen,
whose center goes from `x = -10.3` to `x = 310.3` and whose first point goes
from `x = -15.1` to `x = 305.5`. -/
theorem wrap_left_reflects_center_witness :
    (geom.rect splitWorld.center splitWorld.size).l = 0 ∧
    (∀ p ∈ leftBody.points, p.x < (geom.rect splitWorld.center splitWorld.size).l) ∧
    leftBody.velocity.x < 0 ∧
    (geom.rect64 center64 size64).l = 0 ∧
    (∀ p ∈ leftBody64.points, p.x < (geom.rect64 center64 size64).l) ∧
    leftBody64.velocity.x < 0 ∧
    (∀ p ∈ leftBody64.points, b64.round p.y = p.y) ∧
    (Game.wrapIfOffScreen splitWorld leftBody).center.x = 310 ∧
    (Game.wrapIfOffScreen64 center64 size64 leftBody64).center.x =
      b64.ofMantissa 5458855329582285 1030 ∧
    (Game.wrapIfOffScreen64 center64 size64 leftBody64).points.head? =
      some { x := b64.ofMantissa 611 1073, y := b64.ofInt 45 } := by
  have hl : (geom.rect splitWorld.center splitWorld.size).l = 0 := by
    norm_num [geom.rect, splitWorld]
  have hp : ∀ p ∈ leftBody.points, p.x < (geom.rect splitWorld.center splitWorld.size).l := by
    rw [hl]
    simp [leftBody]
  have hv : leftBody.velocity.x < 0 := by norm_num [leftBody]
  have hp64 : ∀ p ∈ leftBody64.points, p.x < (geom.rect64 center64 size64).l := by decide
  have hv64 : leftBody64.velocity.x < 0 := by decide
  have hy64 : ∀ p ∈ leftBody64.points, b64.round p.y = p.y := by decide
  have h := wrap_left_reflects_center splitWorld leftBody hp hv center64 size64 leftBody64
    hp64 hv64 hy64
  refine ⟨hl, hp, hv, by decide, hp64, hv64, hy64, ?_, ?_, ?_⟩
  · rw [h.1.1]
    norm_num [splitWorld, leftBody]
  · rw [h.2.1]
    decide
  · rw [h.2.2.2]
    decide

/-- C7, counterexample to the property as the specification states it.  In `splitWorld` (width 300,
left edge 0) every point of `leftBody` is left of the left edge and its
`velocity.x` is negative, yet after `wrapIfOffScreen` its center is at
`x = 310`, which is not the old `center.x + 300 = 290`, and its first point
is at `x = 305`, which is not the old `x + 300 = 285`. -/
theorem wrap_left_not_translation_by_width :
    (geom.rect splitWorld.center splitWorld.size).l = 0 ∧
    (∀ p ∈ leftBody.points, p.x < (geom.rect splitWorld.center splitWorld.size).l) ∧
    leftBody.velocity.x < 0 ∧
    (Game.wrapIfOffScreen splitWorld leftBody).center.x = 310 ∧
    leftBody.center.x + splitWorld.size.x = 290 ∧
    (Game.wrapIfOffScreen splitWorld leftBody).points.map (fun p => p.x) = [305, 315, 310] ∧
    leftBody.points.map (fun p => p.x + splitWorld.size.x) = [285, 295, 290] := by
  have hl : (geom.rect splitWorld.center splitWorld.size).l = 0 := by
    norm_num [geom.rect, splitWorld]
  have hp : ∀ p ∈ leftBody.points, p.x ≤ (geom.rect splitWorld.center splitWorld.size).l := by
    rw [hl]
    simp [leftBody]
  have hv : leftBody.velocity.x < 0 := by norm_num [leftBody]
  have hw := wrap_of_horizontal splitWorld leftBody (Or.inl ⟨hp, hv⟩)
  refine ⟨hl, ?_, hv, ?_, ?_, ?_, ?_⟩
  · rw [hl]
    simp [leftBody]
  · rw [hw]
    norm_num [moveBody, splitWorld, leftBody]
  · norm_num [splitWorld, leftBody]
  · rw [hw]
    norm_num [moveBody, geom.translate, geom.vectorTo, splitWorld, leftBody]
  · norm_num [splitWorld, leftBody]

/-- C8, as amended. For every world of width `W` and every body that
satisfies the horizontal wrap condition (all points at or beyond the left
edge with `velocity.x < 0`, or all points at or beyond the right edge with
`velocity.x > 0`), whatever the vertical positions and velocity: after
`wrapIfOffScreen` the center's `x` is `W - (old center.x)`, the center's `y`
and every point's `y` are unchanged, the velocity is unchanged, and every
point is the old point translated by the vector that `geom.vectorTo` gives
from the old center to the new center.  This holds in exact arithmetic
(first part) and in binary64 (second part, for points whose `y` is a binary64
number).  In exact arithmetic (first part, last conjunct) every point
thereby keeps its offset from the center. -/
theorem wrap_horizontal_only_x (g : Game α) (obj : Body α)
    (h : ((∀ p ∈ obj.points, p.x ≤ (geom.rect g.center g.size).l) ∧ obj.velocity.x < 0) ∨
         ((∀ p ∈ obj.points, (geom.rect g.center g.size).r ≤ p.x) ∧ obj.velocity.x > 0))
    (gameCenter gameSize : Point Int) (obj64 : Body Int)
    (h64 : ((∀ p ∈ obj64.points, p.x ≤ (geom.rect64 gameCenter gameSize).l) ∧
             obj64.velocity.x < 0) ∨
           ((∀ p ∈ obj64.points, (geom.rect64 gameCenter gameSize).r ≤ p.x) ∧
             obj64.velocity.x > 0))
    (hy64 : ∀ p ∈ obj64.points, b64.round p.y = p.y) :
    ((Game.wrapIfOffScreen g obj).center.x = g.size.x - obj.center.x ∧
     (Game.wrapIfOffScreen g obj).center.y = obj.center.y ∧
     (Game.wrapIfOffScreen g obj).points.map (fun p => p.y) = obj.points.map (fun p => p.y) ∧
     (Game.wrapIfOffScreen g obj).velocity = obj.velocity ∧
     (Game.wrapIfOffScreen g obj).points = obj.points.map (fun p =>
       geom.translate p (geom.vectorTo obj.center (Game.wrapIfOffScreen g obj).center)) ∧
     (Game.wrapIfOffScreen g obj).points.map
         (fun p => geom.vectorTo (Game.wrapIfOffScreen g obj).center p) =
       obj.points.map (fun p => geom.vectorTo obj.center p)) ∧
    ((Game.wrapIfOffScreen64 gameCenter gameSize obj64).center.x =
       b64.sub gameSize.x obj64.center.x ∧
     (Game.wrapIfOffScreen64 gameCenter gameSize obj64).center.y = obj64.center.y ∧
     (Game.wrapIfOffScreen64 gameCenter gameSize obj64).points.map (fun p => p.y) =
       obj64.points.map (fun p => p.y) ∧
     (Game.wrapIfOffScreen64 gameCenter gameSize obj64).velocity = obj64.velocity ∧
     (Game.wrapIfOffScreen64 gameCenter gameSize obj64).points = obj64.points.map (fun p =>
       geom.translate64 p (geom.vectorTo64 obj64.center
         (Game.wrapIfOffScreen64 gameCenter gameSize obj64).center))) := by
  constructor
  · rw [wrap_of_horizontal g obj h]
    refine ⟨rfl, rfl, ?_, rfl, rfl, ?_⟩
    · rw [(moveBody_fields _ _).2.2, List.map_map]
      apply List.map_congr_left
      intro p _
      simp
    · rw [(moveBody_fields _ _).2.2, (moveBody_fields _ _).1, List.map_map]
      apply List.map_congr_left
      intro p _
      simp only [Function.comp, geom.vectorTo]
      congr 1 <;> ring
  · rw [wrap64_of_horizontal gameCenter gameSize obj64 h64]
    refine ⟨rfl, rfl, ?_, rfl, rfl⟩
    rw [(moveBody64_fields _ _).2.2, List.map_map]
    apply List.map_congr_left
    intro p hm
    simp only [Function.comp]
    exact b64_add_sub_self p.y obj64.center.y (hy64 p hm)

set_option exponentiation.threshold 4000 in
set_option maxRecDepth 100000 in
/-- C8, witness: `cornerBody` in `splitWorld`, and `cornerBody64` on the same
screen in binary64, satisfy the horizontal and the vertical wrap condition;
only the `x` coordinates change. -/
theorem wrap_horizontal_only_x_witness :
    (((∀ p ∈ cornerBody.points, p.x ≤ (geom.rect splitWorld.center splitWorld.size).l) ∧
        cornerBody.velocity.x < 0) ∨
      ((∀ p ∈ cornerBody.points, (geom.rect splitWorld.center splitWorld.size).r ≤ p.x) ∧
        cornerBody.velocity.x > 0)) ∧
    ((∀ p ∈ cornerBody.points, p.y ≤ (geom.rect splitWorld.center splitWorld.size).t) ∧
      cornerBody.velocity.y < 0) ∧
    (((∀ p ∈ cornerBody64.points, p.x ≤ (geom.rect64 center64 size64).l) ∧
        cornerBody64.velocity.x < 0) ∨
      ((∀ p ∈ cornerBody64.points, (geom.rect64 center64 size64).r ≤ p.x) ∧
        cornerBody64.velocity.x > 0)) ∧
    ((∀ p ∈ cornerBody64.points, p.y ≤ (geom.rect64 center64 size64).t) ∧
      cornerBody64.velocity.y < 0) ∧
    (∀ p ∈ cornerBody64.points, b64.round p.y = p.y) ∧
    (Game.wrapIfOffScreen splitWorld cornerBody).center = { x := 310, y := -20 } ∧
    (Game.wrapIfOffScreen splitWorld cornerBody).velocity = cornerBody.velocity ∧
    (Game.wrapIfOffScreen64 center64 size64 cornerBody64).center =
      { x := b64.ofInt 310, y := b64.ofInt (-20) } ∧
    (Game.wrapIfOffScreen64 center64 size64 cornerBody64).velocity = cornerBody64.velocity ∧
    (Game.wrapIfOffScreen64 center64 size64 cornerBody64).points.map (fun p => p.y) =
      [b64.ofInt (-25), b64.ofInt (-25), b64.ofInt (-10)] := by
  have hh : ((∀ p ∈ cornerBody.points, p.x ≤ (geom.rect splitWorld.center splitWorld.size).l) ∧
        cornerBody.velocity.x < 0) ∨
      ((∀ p ∈ cornerBody.points, (geom.rect splitWorld.center splitWorld.size).r ≤ p.x) ∧
        cornerBody.velocity.x > 0) := by
    left
    norm_num [geom.rect, splitWorld, cornerBody]
  have hh64 : ((∀ p ∈ cornerBody64.points, p.x ≤ (geom.rect64 center64 size64).l) ∧
        cornerBody64.velocity.x < 0) ∨
      ((∀ p ∈ cornerBody64.points, (geom.rect64 center64 size64).r ≤ p.x) ∧
        cornerBody64.velocity.x > 0) := by decide
  have hy64 : ∀ p ∈ cornerBody64.points, b64.round p.y = p.y := by decide
  have h := wrap_horizontal_only_x splitWorld cornerBody hh center64 size64 cornerBody64
    hh64 hy64
  refine ⟨hh, ?_, hh64, by decide, hy64, ?_, h.1.2.2.2.1, ?_, h.2.2.2.2.1, ?_⟩
  · norm_num [geom.rect, splitWorld, cornerBody]
  · have hx := h.1.1
    have hy := h.1.2.1
    cases hc : (Game.wrapIfOffScreen splitWorld cornerBody).center with
    | mk x y =>
      rw [hc] at hx hy
      simp only at hx hy
      rw [hx, hy]
      norm_num [splitWorld, cornerBody]
  · have hx := h.2.1
    have hy := h.2.2.1
    cases hc : (Game.wrapIfOffScreen64 center64 size64 cornerBody64).center with
    | mk x y =>
      rw [hc] at hx hy
      simp only at hx hy
      rw [hx, hy]
      decide
  · rw [h.2.2.2.1]
    decide

set_option exponentiation.threshold 4000 in
set_option maxRecDepth 100000 in
/-- C8, counterexample to the property as the specification states it, in
binary64.  On a screen of width 300 (left edge 0) every point of `leftBody64`
is at or beyond the left edge and its `velocity.x` is negative.
`wrapIfOffScreen` moves the center from `x = -10.3` to `x = 310.3` by adding
the binary64 number `320.6` to the `x` of every point; the first point goes
from `x = -15.1` to `x = 305.5`, the second from `x = -5.5` to `x = 315.1`.
The offsets of these two points from the center were `-4.799999999999999` and
`4.800000000000001`; they are `-4.800000000000011` and `4.800000000000011`
afterwards.  All four differences are binary64 numbers, so they are the same
whether the subtraction is exact or rounded. -/
theorem wrap_offset_not_kept_binary64 :
    (geom.rect64 center64 size64).l = 0 ∧
    (∀ p ∈ leftBody64.points, p.x ≤ (geom.rect64 center64 size64).l) ∧
    leftBody64.velocity.x < 0 ∧
    (Game.wrapIfOffScreen64 center64 size64 leftBody64).center =
      { x := b64.ofMantissa 5458855329582285 1030, y := b64.ofInt 50 } ∧
    geom.vectorTo64 leftBody64.center
        (Game.wrapIfOffScreen64 center64 size64 leftBody64).center =
      { x := b64.ofMantissa 2820027422919885 1031, y := 0 } ∧
    (Game.wrapIfOffScreen64 center64 size64 leftBody64).points.map (fun p => p.x) =
      [b64.ofMantissa 611 1073, b64.ofMantissa 2771648911297741 1031,
       b64.ofMantissa 5458855329582285 1030] ∧
    leftBody64.points.map (fun p => (geom.vectorTo64 leftBody64.center p).x) =
      [b64.ofMantissa (-2702159776422297) 1025, b64.ofMantissa 1351079888211149 1026, 0] ∧
    leftBody64.points.map (fun p => p.x - leftBody64.center.x) =
      [b64.ofMantissa (-2702159776422297) 1025, b64.ofMantissa 1351079888211149 1026, 0] ∧
    (Game.wrapIfOffScreen64 center64 size64 leftBody64).points.map
        (fun p => (geom.vectorTo64
          (Game.wrapIfOffScreen64 center64 size64 leftBody64).center p).x) =
      [b64.ofMantissa (-84442493013197) 1030, b64.ofMantissa 84442493013197 1030, 0] ∧
    (Game.wrapIfOffScreen64 center64 size64 leftBody64).points.map
        (fun p => p.x - (Game.wrapIfOffScreen64 center64 size64 leftBody64).center.x) =
      [b64.ofMantissa (-84442493013197) 1030, b64.ofMantissa 84442493013197 1030, 0] ∧
    (Game.wrapIfOffScreen64 center64 size64 leftBody64).points.map
        (fun p => p.x - (Game.wrapIfOffScreen64 center64 size64 leftBody64).center.x) ≠
      leftBody64.points.map (fun p => p.x - leftBody64.center.x) := by
  decide

/-! ## C9: the fire-rate gate -/

theorem updateTurn_lastShotTime (env : Env α) (inp : Input) (this : Player α) :
    (Player.updateTurn env inp this).lastShotTime = this.lastShotTime := by
  unfold Player.updateTurn Player.turn
  split
  · rfl
  · split <;> rfl

theorem updateThrust_lastShotTime (env : Env α) (inp : Input) (this : Player α) :
    (Player.updateThrust env inp this).lastShotTime = this.lastShotTime := by
  unfold Player.updateThrust
  split
  · dsimp only
    split <;> rfl
  · rfl

theorem mayFire_eq_true_iff (inp : Input) (g : Game α) (this : Player α) :
    Player.mayFire inp g this = true ↔
      inp.isDown KEYS.SPACE = true ∧ inp.now - this.lastShotTime > 50 ∧ g.nBullets < 5 := by
  simp [Player.mayFire, and_assoc]

/-- The gated shot of `Player.update`: one bullet is made and added, and
`lastShotTime` set to `now`, exactly when the gate is open. -/
theorem updateFire_spec (env : Env α) (inp : Input) (g : Game α) (this : Player α) :
    (Player.updateFire env inp g this).1.players = g.players ∧
    (Player.mayFire inp g this = true →
      (Player.updateFire env inp g this).1.bodies =
        g.bodies ++ [{ kind := Kind.bullet, addr := g.bullets.length }] ∧
      (Player.updateFire env inp g this).1.nBullets = g.nBullets + 1 ∧
      (Player.updateFire env inp g this).2.lastShotTime = inp.now) ∧
    (¬ Player.mayFire inp g this = true →
      (Player.updateFire env inp g this).1 = g ∧
      (Player.updateFire env inp g this).2 = this) := by
  unfold Player.updateFire
  by_cases h : Player.mayFire inp g this = true
  · simp only [h, if_true, (addBody_store _ _).2.1, addBody_bodies, addBody_nBullets]
    simp
  · simp only [h]
    simp

/-- One `Player.update`: the world's bodies and counter and the player's
`lastShotTime` afterwards. -/
theorem player_update_gate (env : Env α) (inp : Input) (g : Game α) (addr : Nat)
    (p : Player α) (hp : g.players.get? addr = some p) :
    ∃ p1 : Player α,
      (Player.update env inp g addr).players.get? addr = some p1 ∧
      if inp.isDown KEYS.SPACE = true ∧ inp.now - p.lastShotTime > 50 ∧ g.nBullets < 5 then
        (Player.update env inp g addr).bodies =
          g.bodies ++ [{ kind := Kind.bullet, addr := g.bullets.length }] ∧
        (Player.update env inp g addr).nBullets = g.nBullets + 1 ∧
        p1.lastShotTime = inp.now
      else
        (Player.update env inp g addr).bodies = g.bodies ∧
        (Player.update env inp g addr).nBullets = g.nBullets ∧
        p1.lastShotTime = p.lastShotTime := by
  have hlt : addr < g.players.length := by
    rcases Nat.lt_or_ge addr g.players.length with h | h
    · exact h
    · rw [List.get?_eq_none.mpr h] at hp
      cases hp
  have hspec := updateFire_spec env inp g
    (Player.updateThrust env inp (Player.updateTurn env inp p))
  have hls : (Player.updateThrust env inp (Player.updateTurn env inp p)).lastShotTime =
      p.lastShotTime := by
    rw [updateThrust_lastShotTime, updateTurn_lastShotTime]
  have hgate := mayFire_eq_true_iff inp g
    (Player.updateThrust env inp (Player.updateTurn env inp p))
  rw [hls] at hgate
  unfold Player.update
  rw [hp]
  dsimp only
  generalize Player.updateFire env inp g
    (Player.updateThrust env inp (Player.updateTurn env inp p)) = F at hspec ⊢
  refine ⟨{ F.2 with toBody := (Game.wrapIfOffScreen F.1
      (moveBody F.2.toBody (geom.translate F.2.center F.2.velocity))) }, ?_, ?_⟩
  · rw [hspec.1, List.get?_eq_getElem?]
    simp [hlt]
  · by_cases hg : inp.isDown KEYS.SPACE = true ∧ inp.now - p.lastShotTime > 50 ∧
        g.nBullets < 5
    · rw [if_pos hg]
      exact hspec.2.1 (hgate.mpr hg)
    · rw [if_neg hg]
      have hno := hspec.2.2 (fun hc => hg (hgate.mp hc))
      rw [hno.1, hno.2]
      exact ⟨rfl, rfl, hls⟩

/-- The store of bullets after one `Player.update`: one object made by the
`Bullet` constructor is added exactly when the gate is open. -/
theorem player_update_bullets (env : Env α) (inp : Input) (g : Game α) (addr : Nat)
    (p : Player α) (hp : g.players.get? addr = some p) :
    if inp.isDown KEYS.SPACE = true ∧ inp.now - p.lastShotTime > 50 ∧ g.nBullets < 5 then
      ∃ (start velocity : Point α) (angle : α),
        (Player.update env inp g addr).bullets =
          g.bullets ++ [Bullet.new env start velocity angle]
    else (Player.update env inp g addr).bullets = g.bullets := by
  have hls : (Player.updateThrust env inp (Player.updateTurn env inp p)).lastShotTime =
      p.lastShotTime := by
    rw [updateThrust_lastShotTime, updateTurn_lastShotTime]
  have hgate := mayFire_eq_true_iff inp g
    (Player.updateThrust env inp (Player.updateTurn env inp p))
  rw [hls] at hgate
  unfold Player.update
  rw [hp]
  dsimp only
  unfold Player.updateFire
  by_cases hg : inp.isDown KEYS.SPACE = true ∧ inp.now - p.lastShotTime > 50 ∧ g.nBullets < 5
  · rw [if_pos hg]
    simp only [hgate.mpr hg, if_true, (addBody_store _ _).2.2.1]
    exact ⟨_, _, _, rfl⟩
  · rw [if_neg hg]
    have hno : ¬ Player.mayFire inp g
        (Player.updateThrust env inp (Player.updateTurn env inp p)) = true :=
      fun hc => hg (hgate.mp hc)
    simp only [hno]
    rfl

/-- C9, as amended. Fire-rate gate.  For the player `p` at `addr` and a
`Player.update` at time `now`: exactly one `Bullet` is appended to `bodies`,
the counter goes up by one and `lastShotTime` becomes `now` if `SPACE` is
held, `now - lastShotTime > 50` and `game.nBullets < 5`; otherwise `bodies`
and the counter are unchanged and `lastShotTime` is unchanged.  Hence two
inputs whose timestamps differ by at most 50 ms produce at most one bullet,
and exactly one when the first of them passes the gate; with `nBullets ≥ 5`
nothing is added whatever the timing; with `SPACE` not held nothing is
added. -/
theorem fire_rate_gate (env : Env α) (inp inp2 : Input) (g : Game α) (addr : Nat)
    (p : Player α) (hp : g.players.get? addr = some p) :
    (∃ p1 : Player α,
      (Player.update env inp g addr).players.get? addr = some p1 ∧
      if inp.isDown KEYS.SPACE = true ∧ inp.now - p.lastShotTime > 50 ∧ g.nBullets < 5 then
        (Player.update env inp g addr).bodies =
          g.bodies ++ [{ kind := Kind.bullet, addr := g.bullets.length }] ∧
        (Player.update env inp g addr).nBullets = g.nBullets + 1 ∧
        p1.lastShotTime = inp.now
      else
        (Player.update env inp g addr).bodies = g.bodies ∧
        (Player.update env inp g addr).nBullets = g.nBullets ∧
        p1.lastShotTime = p.lastShotTime) ∧
    (inp.isDown KEYS.SPACE = true ∧ inp.now - p.lastShotTime > 50 ∧ g.nBullets < 5 →
      inp2.now - inp.now ≤ 50 →
      (Player.update env inp2 (Player.update env inp g addr) addr).bodies =
        g.bodies ++ [{ kind := Kind.bullet, addr := g.bullets.length }]) ∧
    (5 ≤ g.nBullets → (Player.update env inp g addr).bodies = g.bodies) ∧
    (inp.isDown KEYS.SPACE = false → (Player.update env inp g addr).bodies = g.bodies) ∧
    (inp2.now - inp.now ≤ 50 →
      (Player.update env inp2 (Player.update env inp g addr) addr).bodies = g.bodies ∨
      (Player.update env inp2 (Player.update env inp g addr) addr).bodies =
        g.bodies ++ [{ kind := Kind.bullet, addr := g.bullets.length }]) := by
  have h1 := player_update_gate env inp g addr p hp
  have hmost : inp2.now - inp.now ≤ 50 →
      (Player.update env inp2 (Player.update env inp g addr) addr).bodies = g.bodies ∨
      (Player.update env inp2 (Player.update env inp g addr) addr).bodies =
        g.bodies ++ [{ kind := Kind.bullet, addr := g.bullets.length }] := by
    intro hclose
    obtain ⟨p1, hp1, hstep⟩ := h1
    obtain ⟨p2, _, hstep2⟩ :=
      player_update_gate env inp2 (Player.update env inp g addr) addr p1 hp1
    have hbul := player_update_bullets env inp g addr p hp
    by_cases hopen : inp.isDown KEYS.SPACE = true ∧ inp.now - p.lastShotTime > 50 ∧
        g.nBullets < 5
    · rw [if_pos hopen] at hstep
      have hshut : ¬ (inp2.isDown KEYS.SPACE = true ∧ inp2.now - p1.lastShotTime > 50 ∧
          (Player.update env inp g addr).nBullets < 5) := by
        rintro ⟨_, ht, _⟩
        rw [hstep.2.2] at ht
        omega
      rw [if_neg hshut] at hstep2
      right
      rw [hstep2.1, hstep.1]
    · rw [if_neg hopen] at hstep hbul
      by_cases hopen2 : inp2.isDown KEYS.SPACE = true ∧ inp2.now - p1.lastShotTime > 50 ∧
          (Player.update env inp g addr).nBullets < 5
      · rw [if_pos hopen2] at hstep2
        right
        rw [hstep2.1, hstep.1, hbul]
      · rw [if_neg hopen2] at hstep2
        left
        rw [hstep2.1, hstep.1]
  refine ⟨h1, ?_, ?_, ?_, hmost⟩
  · intro hopen hclose
    obtain ⟨p1, hp1, hstep⟩ := h1
    rw [if_pos hopen] at hstep
    obtain ⟨p2, _, hstep2⟩ := player_update_gate env inp2 (Player.update env inp g addr) addr p1 hp1
    have hshut : ¬ (inp2.isDown KEYS.SPACE = true ∧ inp2.now - p1.lastShotTime > 50 ∧
        (Player.update env inp g addr).nBullets < 5) := by
      rintro ⟨_, ht, _⟩
      rw [hstep.2.2] at ht
      omega
    rw [if_neg hshut] at hstep2
    rw [hstep2.1, hstep.1]
  · intro h5
    obtain ⟨p1, _, hstep⟩ := h1
    have hshut : ¬ (inp.isDown KEYS.SPACE = true ∧ inp.now - p.lastShotTime > 50 ∧
        g.nBullets < 5) := by
      rintro ⟨_, _, hn⟩
      omega
    rw [if_neg hshut] at hstep
    exact hstep.1
  · intro hkey
    obtain ⟨p1, _, hstep⟩ := h1
    have hshut : ¬ (inp.isDown KEYS.SPACE = true ∧ inp.now - p.lastShotTime > 50 ∧
        g.nBullets < 5) := by
      rintro ⟨hk, _, _⟩
      rw [hkey] at hk
      cases hk
    rw [if_neg hshut] at hstep
    exact hstep.1

/-- C9, witness.  In the world made by the `Game` constructor (no shot yet,
no bullet), `SPACE` held at time 1000 and again at time 1040: the two
updates of the player leave exactly one bullet appended to `bodies`. -/
theorem fire_rate_gate_witness :
    (Game.new hostQ 800 600).players.get? 0 =
      some newPlayer ∧
    (fireInput.isDown KEYS.SPACE = true ∧
      fireInput.now - newPlayer.lastShotTime > 50 ∧
      (Game.new hostQ 800 600).nBullets < 5) ∧
    fireAgainInput.now - fireInput.now ≤ 50 ∧
    (Player.update hostQ fireAgainInput
        (Player.update hostQ fireInput (Game.new hostQ 800 600) 0) 0).bodies =
      (Game.new hostQ 800 600).bodies ++ [firstBullet] := by
  have hopen : fireInput.isDown KEYS.SPACE = true ∧
      fireInput.now - newPlayer.lastShotTime > 50 ∧
      (Game.new hostQ 800 600).nBullets < 5 := by
    refine ⟨by decide, ?_, ?_⟩
    · show (1000 : Int) - 0 > 50
      decide
    · show (0 : Int) < 5
      decide
  have hclose : fireAgainInput.now - fireInput.now ≤ 50 := by decide
  exact ⟨rfl, hopen, hclose,
    (fire_rate_gate hostQ fireInput fireAgainInput (Game.new hostQ 800 600) 0
      newPlayer rfl).2.1 hopen hclose⟩

/-- C9, counterexample to the property as the specification states it.  In
`shotWorld` the player has fired at time 1000 and one bullet is live.  With
`SPACE` held at times 1010 and 1040, two fire inputs 30 ms apart, the two
updates of the player add no bullet at all, not exactly one: both inputs
come within 50 ms of the shot at time 1000. -/
theorem two_fire_inputs_no_bullet :
    shotWorld.bodies = (Game.new hostQ 800 600).bodies ++ [firstBullet] ∧
    shotWorld.nBullets = 1 ∧
    fireSoonInput.isDown KEYS.SPACE = true ∧
    fireAgainInput.isDown KEYS.SPACE = true ∧
    fireAgainInput.now - fireSoonInput.now ≤ 50 ∧
    (Player.update hostQ fireAgainInput
        (Player.update hostQ fireSoonInput shotWorld 0) 0).bodies = shotWorld.bodies := by
  obtain ⟨p1, hp1, hstep1⟩ :=
    player_update_gate hostQ fireInput (Game.new hostQ 800 600) 0 newPlayer rfl
  have hopen : fireInput.isDown KEYS.SPACE = true ∧
      fireInput.now - newPlayer.lastShotTime > 50 ∧
      (Game.new hostQ 800 600).nBullets < 5 := by
    refine ⟨by decide, ?_, ?_⟩
    · show (1000 : Int) - 0 > 50
      decide
    · show (0 : Int) < 5
      decide
  rw [if_pos hopen] at hstep1
  obtain ⟨hb1, hn1, ht1⟩ := hstep1
  have ht1' : p1.lastShotTime = 1000 := ht1
  obtain ⟨p2, hp2, hstep2⟩ := player_update_gate hostQ fireSoonInput shotWorld 0 p1 hp1
  have hshut2 : ¬ (fireSoonInput.isDown KEYS.SPACE = true ∧
      fireSoonInput.now - p1.lastShotTime > 50 ∧ shotWorld.nBullets < 5) := by
    rintro ⟨_, ht, _⟩
    rw [ht1'] at ht
    have : fireSoonInput.now = 1010 := rfl
    omega
  rw [if_neg hshut2] at hstep2
  obtain ⟨hb2, hn2, ht2⟩ := hstep2
  obtain ⟨p3, _, hstep3⟩ := player_update_gate hostQ fireAgainInput
    (Player.update hostQ fireSoonInput shotWorld 0) 0 p2 hp2
  have hshut3 : ¬ (fireAgainInput.isDown KEYS.SPACE = true ∧
      fireAgainInput.now - p2.lastShotTime > 50 ∧
      (Player.update hostQ fireSoonInput shotWorld 0).nBullets < 5) := by
    rintro ⟨_, ht, _⟩
    rw [ht2, ht1'] at ht
    have : fireAgainInput.now = 1040 := rfl
    omega
  rw [if_neg hshut3] at hstep3
  refine ⟨hb1, ?_, by decide, by decide, by decide, ?_⟩
  · show (Player.update hostQ fireInput (Game.new hostQ 800 600) 0).nBullets = 1
    rw [hn1]
    rfl
  · rw [hstep3.1, hb2]

/-! ## C10: the update pass -/

theorem get?_set_self {β : Type} (l : List β) (i : Nat) (x : β) (h : i < l.length) :
    (l.set i x).get? i = some x := by
  rw [List.get?_eq_getElem?]
  simp [h]

theorem asteroid_update_frame (g : Game α) (addr : Nat) :
    (Asteroid.update g addr).bodies = g.bodies ∧
    (Asteroid.update g addr).bullets = g.bullets := by
  unfold Asteroid.update
  split <;> exact ⟨rfl, rfl⟩

/-- One `Bullet.update`: the counter `ticksLeft` goes down by one, and the
bullet's entry is removed from `bodies` exactly when `ticksLeft` was 0. -/
theorem bullet_update_spec (env : Env α) (g : Game α) (addr : Nat) (b : Bullet α)
    (hb : g.bullets.get? addr = some b) :
    (∃ b1 : Bullet α, (Bullet.update env g addr).bullets.get? addr = some b1 ∧
      b1.ticksLeft = b.ticksLeft - 1) ∧
    (Bullet.update env g addr).bullets.length = g.bullets.length ∧
    (∀ k, k ≠ addr → (Bullet.update env g addr).bullets.get? k = g.bullets.get? k) ∧
    (Bullet.update env g addr).bodies =
      if b.ticksLeft = 0 then g.bodies.erase { kind := Kind.bullet, addr := addr }
      else g.bodies := by
  have hlt : addr < g.bullets.length := by
    rcases Nat.lt_or_ge addr g.bullets.length with h | h
    · exact h
    · rw [List.get?_eq_none.mpr h] at hb
      cases hb
  unfold Bullet.update
  rw [hb]
  dsimp only
  have hstore : (if b.ticksLeft = 0
      then Game.removeBody env g { kind := Kind.bullet, addr := addr } else g).bullets =
      g.bullets := by
    split
    · exact (removeBody_store env g _).2.2.1
    · rfl
  refine ⟨⟨_, get?_set_self _ _ _ (by rw [hstore]; exact hlt), rfl⟩, ?_, ?_, ?_⟩
  · rw [hstore, List.length_set]
  · intro k hk
    rw [hstore, List.get?_eq_getElem?, List.get?_eq_getElem?,
      List.getElem?_set_ne (Ne.symm hk)]
  · by_cases h0 : b.ticksLeft = 0
    · simp only [h0, if_true, removeBody_bodies]
      simp
    · simp only [h0, if_false]

/-- C10, evaluation at the failing input.  In `expiryWorld` the update pass
starts with `bodies = [asteroid, bullet 0, bullet 1]`.  The update of
bullet 0, which has no tick left, removes it from `bodies` during the pass;
`forEach` then finds no element at index 2, so `update()` is called on the
asteroid and on bullet 0 only.  Bullet 1 stays in `bodies` and is not
updated: it is the same object after the pass, with its 100 ticks. -/
theorem updatePass_skips_after_removal :
    expiryWorld.bodies = [firstAsteroid, firstBullet, secondBullet] ∧
    (Game.updatePass hostQ idleInput expiryWorld).2 = [firstAsteroid, firstBullet] ∧
    (Game.updatePass hostQ idleInput expiryWorld).1.bodies = [firstAsteroid, secondBullet] ∧
    (Game.updatePass hostQ idleInput expiryWorld).1.bullets.get? 1 = some freshBullet := by
  have h0 : forEachStep hostQ idleInput (expiryWorld, []) 0 =
      (Asteroid.update expiryWorld 0, [firstAsteroid]) := rfl
  have hb0 : (Asteroid.update expiryWorld 0).bodies =
      [firstAsteroid, firstBullet, secondBullet] := (asteroid_update_frame _ _).1
  have hs0 : (Asteroid.update expiryWorld 0).bullets = [spentBullet, freshBullet] :=
    (asteroid_update_frame _ _).2
  have hget : (Asteroid.update expiryWorld 0).bullets.get? 0 = some spentBullet := by
    rw [hs0]; rfl
  have hspec := bullet_update_spec hostQ (Asteroid.update expiryWorld 0) 0 spentBullet hget
  have hb1 : (Bullet.update hostQ (Asteroid.update expiryWorld 0) 0).bodies =
      [firstAsteroid, secondBullet] := by
    rw [hspec.2.2.2, hb0]
    decide
  have h1 : forEachStep hostQ idleInput (Asteroid.update expiryWorld 0, [firstAsteroid]) 1 =
      (Bullet.update hostQ (Asteroid.update expiryWorld 0) 0, [firstAsteroid, firstBullet]) := by
    unfold forEachStep
    simp only [hb0]
    rfl
  have h2 : forEachStep hostQ idleInput
      (Bullet.update hostQ (Asteroid.update expiryWorld 0) 0, [firstAsteroid, firstBullet]) 2 =
      (Bullet.update hostQ (Asteroid.update expiryWorld 0) 0, [firstAsteroid, firstBullet]) := by
    unfold forEachStep
    simp only [hb1]
    rfl
  have hpass : Game.updatePass hostQ idleInput expiryWorld =
      (Bullet.update hostQ (Asteroid.update expiryWorld 0) 0, [firstAsteroid, firstBullet]) := by
    have hr : List.range expiryWorld.bodies.length = [0, 1, 2] := by decide
    unfold Game.updatePass
    rw [hr]
    simp only [List.foldl_cons, List.foldl_nil, h0, h1, h2]
  refine ⟨rfl, ?_, ?_, ?_⟩
  · rw [hpass]
  · rw [hpass]; exact hb1
  · rw [hpass, hspec.2.2.1 1 (by decide), hs0]
    rfl

/-! ## C11: counter arithmetic -/

theorem runCalls_nBullets (env : Env α) (calls : List Call) (g : Game α)
    (hall : ∀ c ∈ calls, c.onBullet = true)
    (hfind : removalsFindBody env g calls = true) :
    (runCalls env g calls).nBullets =
      g.nBullets + (countAddBody calls : Int) - (countRemoveBody calls : Int) := by
  induction calls generalizing g with
  | nil => simp [runCalls, countAddBody, countRemoveBody]
  | cons c cs ih =>
    have hc := hall c (List.mem_cons_self _ _)
    have hcs : ∀ c1 ∈ cs, c1.onBullet = true := fun c1 h1 => hall c1 (List.mem_cons_of_mem _ h1)
    cases c with
    | addBody body =>
      have hk : body.kind = Kind.bullet := by simpa [Call.onBullet] using hc
      have hf : removalsFindBody env (Game.addBody g body) cs = true := by
        simpa [removalsFindBody] using hfind
      have h := ih (Game.addBody g body) hcs hf
      simp only [runCalls, List.foldl_cons, Call.run] at h ⊢
      rw [h, addBody_nBullets]
      simp only [hk, if_true, countAddBody, countRemoveBody]
      push_cast
      ring
    | removeBody body =>
      have hk : body.kind = Kind.bullet := by simpa [Call.onBullet] using hc
      have hf : body ∈ g.bodies ∧ removalsFindBody env (Game.removeBody env g body) cs = true := by
        simpa [removalsFindBody] using hfind
      have h := ih (Game.removeBody env g body) hcs hf.2
      simp only [runCalls, List.foldl_cons, Call.run] at h ⊢
      rw [h, removeBody_nBullets]
      simp only [hk, hf.1, and_self, if_true, countAddBody, countRemoveBody]
      push_cast
      ring

/-- C11, as amended. Starting from a world with `nBullets = 0`, after any
sequence of `N` `addBody` calls and `M` `removeBody` calls whose arguments
are Bullets, in which every `removeBody` call finds its bullet in `bodies`,
`nBullets` equals `N - M`. -/
theorem nBullets_eq_adds_sub_removes (env : Env α) (g : Game α) (calls : List Call)
    (h0 : g.nBullets = 0)
    (hall : ∀ c ∈ calls, c.onBullet = true)
    (hfind : removalsFindBody env g calls = true) :
    (runCalls env g calls).nBullets =
      (countAddBody calls : Int) - (countRemoveBody calls : Int) := by
  rw [runCalls_nBullets env calls g hall hfind, h0]
  ring

/-- C11, witness: two bullets added to the world made by the `Game`
constructor and the first one removed leave `nBullets = 2 - 1`. -/
theorem nBullets_eq_adds_sub_removes_witness :
    (Game.new hostQ 800 600).nBullets = 0 ∧
    (∀ c ∈ addTwoRemoveOne, c.onBullet = true) ∧
    removalsFindBody hostQ (Game.new hostQ 800 600) addTwoRemoveOne = true ∧
    (runCalls hostQ (Game.new hostQ 800 600) addTwoRemoveOne).nBullets = 1 := by
  have hall : ∀ c ∈ addTwoRemoveOne, c.onBullet = true := by decide
  have hfind : removalsFindBody hostQ (Game.new hostQ 800 600) addTwoRemoveOne = true := by
    simp [addTwoRemoveOne, removalsFindBody, addBody_bodies]
  refine ⟨rfl, hall, hfind, ?_⟩
  rw [nBullets_eq_adds_sub_removes hostQ (Game.new hostQ 800 600) addTwoRemoveOne rfl hall hfind]
  rfl

/-- C11, counterexample to the property as the specification states it.
From the world made by the `Game` constructor (`nBullets = 0`), the sequence
`removeBody(b), addBody(b)` for a bullet `b` has `N = 1`, `M = 1` and
`M ≤ N`, yet leaves `nBullets = 1`, not `N - M = 0`: the `removeBody` call
does not find `b` and leaves the counter alone. -/
theorem nBullets_ne_adds_sub_removes :
    (Game.new hostQ 800 600).nBullets = 0 ∧
    (∀ c ∈ removeThenAdd, c.onBullet = true) ∧
    countAddBody removeThenAdd = 1 ∧
    countRemoveBody removeThenAdd = 1 ∧
    (runCalls hostQ (Game.new hostQ 800 600) removeThenAdd).nBullets = 1 := by
  refine ⟨rfl, by decide, rfl, rfl, ?_⟩
  simp [runCalls, removeThenAdd, Call.run, addBody_nBullets, removeBody_nBullets, Game.new]

/-! ## C16: rotation laws -/

/-- The real cosine and sine satisfy the laws, whatever the other host
functions are. -/
theorem trigLaws_real (sqrt : ℝ → ℝ) (pi : ℝ) (random : Nat → ℝ) :
    TrigLaws { cos := Real.cos, sin := Real.sin, sqrt := sqrt, pi := pi, random := random } :=
  { cos_zero := Real.cos_zero
    sin_zero := Real.sin_zero
    cos_add := Real.cos_add
    sin_add := Real.sin_add }

theorem rotate_zero (env : Env α) (h : TrigLaws env) (p c : Point α) :
    geom.rotate env p c 0 = p := by
  unfold geom.rotate
  rw [h.cos_zero, h.sin_zero]
  cases p
  simp

/-- Two rotations about the same pivot compose to the rotation by the sum
of the angles. -/
theorem rotate_rotate (env : Env α) (h : TrigLaws env) (p c : Point α) (a b : α) :
    geom.rotate env (geom.rotate env p c a) c b = geom.rotate env p c (a + b) := by
  unfold geom.rotate
  rw [h.cos_add, h.sin_add]
  simp only [Point.mk.injEq]
  constructor <;> ring

/-- C16. Over the reals, with `Math.cos` and `Math.sin` the real cosine and
sine: `geom.rotate(p, c, 0) = p` and
`geom.rotate(geom.rotate(p, c, θ), c, -θ) = p`, for every point `p`, pivot
`c` and angle `θ`, where `geom.rotate` is
`x' = (x - px) cos θ - (y - py) sin θ + px`,
`y' = (x - px) sin θ + (y - py) cos θ + py`. -/
theorem rotate_identity_and_inverse (sqrt : ℝ → ℝ) (pi : ℝ) (random : Nat → ℝ)
    (p c : Point ℝ) (θ : ℝ) :
    geom.rotate { cos := Real.cos, sin := Real.sin, sqrt := sqrt, pi := pi, random := random }
        p c 0 = p ∧
    geom.rotate { cos := Real.cos, sin := Real.sin, sqrt := sqrt, pi := pi, random := random }
        (geom.rotate
          { cos := Real.cos, sin := Real.sin, sqrt := sqrt, pi := pi, random := random }
          p c θ) c (-θ) = p ∧
    (geom.rotate { cos := Real.cos, sin := Real.sin, sqrt := sqrt, pi := pi, random := random }
        p c θ).x = (p.x - c.x) * Real.cos θ - (p.y - c.y) * Real.sin θ + c.x ∧
    (geom.rotate { cos := Real.cos, sin := Real.sin, sqrt := sqrt, pi := pi, random := random }
        p c θ).y = (p.x - c.x) * Real.sin θ + (p.y - c.y) * Real.cos θ + c.y := by
  have h := trigLaws_real sqrt pi random
  refine ⟨rotate_zero _ h p c, ?_, rfl, rfl⟩
  rw [rotate_rotate _ h, add_neg_cancel]
  exact rotate_zero _ h p c

/-! ## C18: symmetry of the collision test -/

theorem det_n1_n2_swap (a b : Line α) :
    geom.det b a = -geom.det a b ∧ geom.n1 b a = -geom.n2 a b ∧
    geom.n2 b a = -geom.n1 a b := by
  unfold geom.det geom.n1 geom.n2
  refine ⟨?_, ?_, ?_⟩ <;> ring

theorem linesIntersecting_comm (a b : Line α) :
    geom.linesIntersecting a b = geom.linesIntersecting b a := by
  obtain ⟨hd, h1, h2⟩ := det_n1_n2_swap a b
  unfold geom.linesIntersecting
  simp only [hd, h1, h2, neg_eq_zero, neg_div_neg_eq]
  by_cases h0 : geom.det a b = 0
  · simp [h0]
  · simp only [h0, if_false]
    rw [Bool.eq_iff_iff]
    simp only [Bool.and_eq_true, decide_eq_true_eq]
    tauto

theorem edgesIntersect_comm (g : Game α) (b1 b2 : Ref) :
    edgesIntersect g b1 b2 = edgesIntersect g b2 b1 := by
  unfold edgesIntersect
  rw [Bool.eq_iff_iff]
  simp only [List.any_eq_true]
  constructor
  · rintro ⟨e1, h1, e2, h2, h⟩
    exact ⟨e2, h2, e1, h1, by rw [← linesIntersecting_comm]; exact h⟩
  · rintro ⟨e1, h1, e2, h2, h⟩
    exact ⟨e2, h2, e1, h1, by rw [← linesIntersecting_comm]; exact h⟩

/-- C18. For all segments `a` and `b`,
`geom.linesIntersecting(a, b) = geom.linesIntersecting(b, a)`, and for all
bodies `b1` and `b2` of any world, `isColliding(b1, b2) = isColliding(b2, b1)`. -/
theorem collision_test_symmetric :
    (∀ a b : Line α, geom.linesIntersecting a b = geom.linesIntersecting b a) ∧
    (∀ (g : Game α) (b1 b2 : Ref), isColliding g b1 b2 = isColliding g b2 b1) := by
  refine ⟨linesIntersecting_comm, ?_⟩
  intro g b1 b2
  rw [isColliding_eq, isColliding_eq, edgesIntersect_comm g b1 b2]
  by_cases h : b1 = b2
  · simp [h]
  · have h1 : ¬ b2 = b1 := fun hc => h hc.symm
    simp [h, h1]

/-! ## C13: edges of a closed polygon -/

/-- The loop of `pointsToLines` for a closed polygon: it appends the segment
from each point to the next and ends with `previous` the last point. -/
theorem pointsToLinesLoop_connected (rest : List (Point α)) (prev : Point α)
    (acc : List (Line α)) :
    pointsToLinesLoop true (some prev) rest acc =
      (acc ++ List.zipWith Line.mk (prev :: rest) rest,
       some ((prev :: rest).getLast (List.cons_ne_nil _ _))) := by
  induction rest generalizing prev acc with
  | nil => simp [pointsToLinesLoop]
  | cons p r ih =>
    unfold pointsToLinesLoop
    simp only [ih, Bool.true_eq_false, if_false]
    simp [List.getLast_cons]

theorem zipWith_close (l : List (Point α)) (a x : Point α) :
    List.zipWith Line.mk (a :: l) l ++
        [{ p0 := (a :: l).getLast (List.cons_ne_nil _ _), p1 := x }] =
      List.zipWith Line.mk (a :: l) (l ++ [x]) := by
  induction l generalizing a with
  | nil => simp
  | cons b r ih =>
    have h := ih b
    simp only [List.zipWith_cons_cons, List.cons_append, List.cons.injEq, true_and]
    rw [← h]
    simp [List.getLast_cons]

/-- The edges of a closed polygon with at least two points: each point is
joined to the next, and the last to the first. -/
theorem pointsToLines_connected_eq (a b : Point α) (r : List (Point α)) :
    pointsToLines (a :: b :: r) true =
      List.zipWith Line.mk (a :: b :: r) (b :: r ++ [a]) := by
  have h := zipWith_close (b :: r) a a
  unfold pointsToLines
  simp only [pointsToLinesLoop_connected, List.nil_append, List.zipWith_cons_cons]
  simp only [List.zipWith_cons_cons] at h
  exact h

/-- C13. For a point list `p` of length `n ≥ 2`, `pointsToLines(p)` with
`connectedLines` omitted or true returns exactly `n` segments, the `i`-th
being `[p[i], p[i+1]]` for `i < n - 1` and the last being `[p[n-1], p[0]]`;
for `n = 0` or `n = 1` it returns no segment. -/
theorem pointsToLines_connected (p : List (Point α)) :
    (p.length < 2 → pointsToLines p true = []) ∧
    (2 ≤ p.length →
      (pointsToLines p true).length = p.length ∧
      (∀ i a b, p.get? i = some a → p.get? (i + 1) = some b →
        (pointsToLines p true).get? i = some { p0 := a, p1 := b }) ∧
      (∀ a b, p.get? (p.length - 1) = some a → p.get? 0 = some b →
        (pointsToLines p true).get? (p.length - 1) = some { p0 := a, p1 := b })) := by
  constructor
  · intro h
    match p, h with
    | [], _ => rfl
    | [a], _ => simp [pointsToLines, pointsToLinesLoop]
    | _ :: _ :: _, h => exact absurd h (by simp)
  · intro h
    match p, h with
    | a :: b :: r, _ =>
      rw [pointsToLines_connected_eq]
      refine ⟨by simp, ?_, ?_⟩
      · intro i x y hx hy
        rw [List.get?_eq_getElem?] at hx hy ⊢
        rw [List.getElem?_zipWith, hx]
        have hy1 : (b :: r ++ [a])[i]? = some y := by
          rw [List.getElem?_cons_succ] at hy
          have hi : i < (b :: r).length := by
            rcases Nat.lt_or_ge i (b :: r).length with hlt | hge
            · exact hlt
            · rw [List.getElem?_eq_none hge] at hy
              cases hy
          rw [List.getElem?_append_left hi]
          exact hy
        rw [hy1]
      · intro x y hx hy
        rw [List.get?_eq_getElem?] at hx hy ⊢
        rw [List.getElem?_zipWith, hx]
        have hy1 : (b :: r ++ [a])[(a :: b :: r).length - 1]? = some y := by
          have hl : (a :: b :: r).length - 1 = (b :: r).length := by simp
          rw [hl, List.getElem?_concat_length]
          simpa using hy
        rw [hy1]

/-- C13, witness: the triangle `(0,0), (2,0), (0,2)` has the three edges
`(0,0)-(2,0)`, `(2,0)-(0,2)` and `(0,2)-(0,0)`; a single point has none. -/
theorem pointsToLines_connected_witness :
    2 ≤ trianglePoints.length ∧
    (pointsToLines trianglePoints true).length = 3 ∧
    (pointsToLines trianglePoints true).get? 1 =
      some { p0 := { x := 2, y := 0 }, p1 := { x := 0, y := 2 } } ∧
    (pointsToLines trianglePoints true).get? 2 =
      some { p0 := { x := 0, y := 2 }, p1 := { x := 0, y := 0 } } ∧
    pointsToLines [({ x := 0, y := 0 } : Point ℚ)] true = [] := by
  have h := (pointsToLines_connected trianglePoints).2 (by decide)
  exact ⟨by decide, h.1, h.2.1 1 _ _ rfl rfl, h.2.2 _ _ rfl rfl,
    (pointsToLines_connected [({ x := 0, y := 0 } : Point ℚ)]).1 (by decide)⟩

/-! ## C14: disjoint strokes -/

theorem pointsToLinesLoop_disjoint (n : Nat) :
    ∀ (rest : List (Point α)), rest.length = n → ∀ (q : Point α) (acc : List (Line α)),
      (pointsToLinesLoop false (some q) rest acc).1 = acc ++ pairUp (q :: rest) := by
  induction n using Nat.strong_induction_on with
  | _ n ih =>
    intro rest hn q acc
    match rest, hn with
    | [], _ => simp [pointsToLinesLoop, pairUp]
    | [p], _ => simp [pointsToLinesLoop, pairUp]
    | p :: q1 :: r, hn =>
      have hlt : r.length < n := by
        rw [← hn]
        simp only [List.length_cons]
        omega
      unfold pointsToLinesLoop
      simp only [if_true]
      rw [ih r.length hlt r rfl q1]
      simp [pairUp]

theorem pointsToLines_disjoint_eq (p : List (Point α)) :
    pointsToLines p false = pairUp p := by
  cases p with
  | nil => simp [pointsToLines, pairUp]
  | cons a r =>
    unfold pointsToLines
    simp only [pointsToLinesLoop_disjoint r.length r rfl a [], List.nil_append]

theorem pairUp_length (n : Nat) :
    ∀ (p : List (Point α)), p.length = n → (pairUp p).length = n / 2 := by
  induction n using Nat.strong_induction_on with
  | _ n ih =>
    intro p hn
    match p, hn with
    | [], hn => simp [pairUp, ← hn]
    | [a], hn => simp [pairUp, ← hn]
    | a :: b :: r, hn =>
      have hlt : r.length < n := by
        rw [← hn]
        simp only [List.length_cons]
        omega
      simp only [pairUp, List.length_cons, ih r.length hlt r rfl]
      rw [← hn]
      simp only [List.length_cons]
      omega

theorem pairUp_get? (k : Nat) :
    ∀ (p : List (Point α)) (a b : Point α), p.get? (2 * k) = some a →
      p.get? (2 * k + 1) = some b → (pairUp p).get? k = some { p0 := a, p1 := b } := by
  induction k with
  | zero =>
    intro p a b ha hb
    match p, ha, hb with
    | x :: y :: r, ha, hb =>
      simp only [List.get?_eq_getElem?, Nat.mul_zero, List.getElem?_cons_zero, Nat.zero_add,
        List.getElem?_cons_succ, Option.some.injEq] at ha hb
      simp [pairUp, ha, hb]
    | [x], _, hb => simp at hb
    | [], ha, _ => simp at ha
  | succ k ih =>
    intro p a b ha hb
    match p, ha, hb with
    | x :: y :: r, ha, hb =>
      have e1 : 2 * (k + 1) = 2 * k + 1 + 1 := by ring
      have e2 : 2 * (k + 1) + 1 = 2 * k + 1 + 1 + 1 := by ring
      rw [e1] at ha
      rw [e2] at hb
      simp only [List.get?_eq_getElem?, List.getElem?_cons_succ] at ha hb
      have h := ih r a b (by rw [List.get?_eq_getElem?]; exact ha)
        (by rw [List.get?_eq_getElem?]; exact hb)
      simpa [pairUp] using h
    | [x], ha, _ =>
      have e1 : 2 * (k + 1) = 2 * k + 1 + 1 := by ring
      rw [e1] at ha
      simp at ha
    | [], ha, _ => simp at ha

/-- C14. For every point list `p` of length `n`, `pointsToLines(p, false)`
returns exactly `floor(n / 2)` segments, the `k`-th being
`[p[2k], p[2k+1]]`, with no closing segment; when `n` is odd every index used
by a segment is below `n - 1`, so the last point is in no segment.  The
player's glyph has 18 points and yields 9 strokes. -/
theorem pointsToLines_disjoint (p : List (Point α)) :
    (pointsToLines p false).length = p.length / 2 ∧
    (∀ k a b, p.get? (2 * k) = some a → p.get? (2 * k + 1) = some b →
      (pointsToLines p false).get? k = some { p0 := a, p1 := b }) ∧
    (p.length % 2 = 1 → ∀ k, k < (pointsToLines p false).length → 2 * k + 1 < p.length - 1) ∧
    (∀ (debug : Bool) (c : Point α),
      (Player.new debug c).points.length = 18 ∧
      (pointsToLines (Player.new debug c).points false).length = 9) := by
  have hlen : ∀ q : List (Point α), (pointsToLines q false).length = q.length / 2 := by
    intro q
    rw [pointsToLines_disjoint_eq, pairUp_length q.length q rfl]
  refine ⟨hlen p, ?_, ?_, ?_⟩
  · intro k a b ha hb
    rw [pointsToLines_disjoint_eq]
    exact pairUp_get? k p a b ha hb
  · intro hodd k hk
    rw [hlen p] at hk
    omega
  · intro debug c
    have h18 : (Player.new debug c).points.length = 18 := by
      simp [Player.new, Player.addBlob]
    exact ⟨h18, by rw [hlen, h18]⟩

/-- C14, witness: five points give the two strokes `p[0]-p[1]` and
`p[2]-p[3]`, and the fifth point is in none. -/
theorem pointsToLines_disjoint_witness :
    fivePoints.length % 2 = 1 ∧
    (pointsToLines fivePoints false).length = 2 ∧
    (pointsToLines fivePoints false).get? 1 =
      some { p0 := { x := 2, y := 0 }, p1 := { x := 3, y := 0 } } ∧
    (∀ k, k < (pointsToLines fivePoints false).length → 2 * k + 1 < fivePoints.length - 1) := by
  have h := pointsToLines_disjoint fivePoints
  exact ⟨by decide, h.1, h.2.1 1 _ _ rfl rfl, h.2.2.1 (by decide)⟩

/-! ## C17: bullet expiry -/

/-- A bullet with `t` ticks left is in the world through its first `t`
updates and its entry is removed by update number `t + 1`. -/
theorem bullet_life (env : Env α) (addr : Nat) (t : Nat) :
    ∀ (g : Game α) (b : Bullet α), g.bullets.get? addr = some b → b.ticksLeft = (t : Int) →
      (∀ k, k ≤ t → (Bullet.updateTimes env addr k g).bodies = g.bodies) ∧
      (Bullet.updateTimes env addr (t + 1) g).bodies =
        g.bodies.erase { kind := Kind.bullet, addr := addr } := by
  induction t with
  | zero =>
    intro g b hb ht
    obtain ⟨_, _, _, hbodies⟩ := bullet_update_spec env g addr b hb
    constructor
    · intro k hk
      have hk0 : k = 0 := by omega
      rw [hk0]
      rfl
    · show (Bullet.update env g addr).bodies = _
      rw [hbodies, if_pos (by simpa using ht)]
  | succ t ih =>
    intro g b hb ht
    obtain ⟨⟨b1, hb1, ht1⟩, _, _, hbodies⟩ := bullet_update_spec env g addr b hb
    have hne : ¬ b.ticksLeft = 0 := by
      rw [ht]
      push_cast
      omega
    rw [if_neg hne] at hbodies
    have ht1' : b1.ticksLeft = (t : Int) := by
      rw [ht1, ht]
      push_cast
      ring
    obtain ⟨hstay, hgone⟩ := ih (Bullet.update env g addr) b1 hb1 ht1'
    constructor
    · intro k hk
      cases k with
      | zero => rfl
      | succ k =>
        show (Bullet.updateTimes env addr k (Bullet.update env g addr)).bodies = _
        rw [hstay k (by omega), hbodies]
    · show (Bullet.updateTimes env addr (t + 1) (Bullet.update env g addr)).bodies = _
      rw [hgone, hbodies]

/-- C17. The `Bullet` constructor sets `ticksLeft` to 100.  Every
`Bullet.update` call decrements `ticksLeft` by exactly 1 and removes the
bullet's entry from `bodies` exactly when `ticksLeft` is 0 on entry.  So for
a bullet with `ticksLeft = 100`, and in particular for a bullet as the
constructor makes it, on which nothing but its own `update()` acts, `bodies`
is unchanged through its first 100 updates and loses the bullet's entry
during the 101st; in a world that holds no body twice the bullet is then
absent. -/
theorem bullet_expiry (env : Env α) (g : Game α) (addr : Nat) (b : Bullet α)
    (hb : g.bullets.get? addr = some b) :
    (∀ (start velocity : Point α) (angle : α),
      (Bullet.new env start velocity angle).ticksLeft = 100) ∧
    (∃ b1 : Bullet α, (Bullet.update env g addr).bullets.get? addr = some b1 ∧
      b1.ticksLeft = b.ticksLeft - 1) ∧
    ((Bullet.update env g addr).bodies =
      if b.ticksLeft = 0 then g.bodies.erase { kind := Kind.bullet, addr := addr }
      else g.bodies) ∧
    (b.ticksLeft = 100 →
      (∀ k, k ≤ 100 → (Bullet.updateTimes env addr k g).bodies = g.bodies) ∧
      (Bullet.updateTimes env addr 101 g).bodies =
        g.bodies.erase { kind := Kind.bullet, addr := addr } ∧
      (g.bodies.Nodup →
        { kind := Kind.bullet, addr := addr } ∉ (Bullet.updateTimes env addr 101 g).bodies)) ∧
    ((∃ (start velocity : Point α) (angle : α), b = Bullet.new env start velocity angle) →
      (∀ k, k ≤ 100 → (Bullet.updateTimes env addr k g).bodies = g.bodies) ∧
      (Bullet.updateTimes env addr 101 g).bodies =
        g.bodies.erase { kind := Kind.bullet, addr := addr } ∧
      (g.bodies.Nodup →
        { kind := Kind.bullet, addr := addr } ∉ (Bullet.updateTimes env addr 101 g).bodies)) := by
  obtain ⟨h1, _, _, h4⟩ := bullet_update_spec env g addr b hb
  have hlife : b.ticksLeft = 100 →
      (∀ k, k ≤ 100 → (Bullet.updateTimes env addr k g).bodies = g.bodies) ∧
      (Bullet.updateTimes env addr 101 g).bodies =
        g.bodies.erase { kind := Kind.bullet, addr := addr } ∧
      (g.bodies.Nodup →
        { kind := Kind.bullet, addr := addr } ∉
          (Bullet.updateTimes env addr 101 g).bodies) := by
    intro h100
    obtain ⟨hstay, hgone⟩ := bullet_life env addr 100 g b hb (by rw [h100]; rfl)
    refine ⟨hstay, hgone, ?_⟩
    intro hnd
    rw [hgone]
    exact List.Nodup.not_mem_erase hnd
  refine ⟨fun _ _ _ => rfl, h1, h4, hlife, ?_⟩
  rintro ⟨start, velocity, angle, hnew⟩
  apply hlife
  rw [hnew]
  rfl

/-- C17, witness: the bullet of `shotWorld` is the one the player has just
fired, made by the `Bullet` constructor at `(400, 293)`; it is in `bodies`
after 100 updates and absent after 101. -/
theorem bullet_expiry_witness :
    shotWorld.bullets.get? 0 =
      some (Bullet.new hostQ { x := 400, y := 293 } { x := 0, y := 0 } 0) ∧
    shotWorld.bodies.Nodup ∧
    firstBullet ∈ shotWorld.bodies ∧
    firstBullet ∈ (Bullet.updateTimes hostQ 0 100 shotWorld).bodies ∧
    firstBullet ∉ (Bullet.updateTimes hostQ 0 101 shotWorld).bodies := by
  have hstart : geom.rotate hostQ
      { x := newPlayer.center.x, y := newPlayer.center.y - newPlayer.height / 2 - 1 }
      newPlayer.center newPlayer.angle = { x := 400, y := 293 } := by
    simp [geom.rotate, hostQ, newPlayer, Player.new]
    norm_num
  have hfired : shotWorld.bullets.get? 0 =
      some (Bullet.new hostQ (geom.rotate hostQ
        { x := newPlayer.center.x, y := newPlayer.center.y - newPlayer.height / 2 - 1 }
        newPlayer.center newPlayer.angle) newPlayer.velocity newPlayer.angle) := rfl
  rw [hstart] at hfired
  have hget : shotWorld.bullets.get? 0 =
      some (Bullet.new hostQ { x := 400, y := 293 } { x := 0, y := 0 } 0) := hfired
  have hbodies : shotWorld.bodies = (Game.new hostQ 800 600).bodies ++ [firstBullet] := rfl
  have hnd : shotWorld.bodies.Nodup := by
    rw [hbodies]
    decide
  have hin : firstBullet ∈ shotWorld.bodies := by
    rw [hbodies]
    decide
  have h := (bullet_expiry hostQ shotWorld 0 _ hget).2.2.2.2 ⟨_, _, _, rfl⟩
  refine ⟨hget, hnd, hin, ?_, h.2.2 hnd⟩
  rw [h.1 100 (le_refl _)]
  exact hin

/-! ## C12: the speed clamp -/

/-- The player that `Player.update` stores back at `addr`. -/
theorem player_update_stored (env : Env α) (inp : Input) (g : Game α) (addr : Nat)
    (p : Player α) (hp : g.players.get? addr = some p) :
    (Player.update env inp g addr).players.get? addr =
      some { (Player.updateFire env inp g
          (Player.updateThrust env inp (Player.updateTurn env inp p))).2 with
        toBody := (Game.wrapIfOffScreen
          (Player.updateFire env inp g
            (Player.updateThrust env inp (Player.updateTurn env inp p))).1
          (moveBody
            (Player.updateFire env inp g
              (Player.updateThrust env inp (Player.updateTurn env inp p))).2.toBody
            (geom.translate
              (Player.updateFire env inp g
                (Player.updateThrust env inp (Player.updateTurn env inp p))).2.center
              (Player.updateFire env inp g
                (Player.updateThrust env inp (Player.updateTurn env inp p))).2.velocity))) } := by
  have hlt : addr < g.players.length := by
    rcases Nat.lt_or_ge addr g.players.length with h | h
    · exact h
    · rw [List.get?_eq_none.mpr h] at hp
      cases hp
  have hspec := updateFire_spec env inp g
    (Player.updateThrust env inp (Player.updateTurn env inp p))
  unfold Player.update
  rw [hp]
  dsimp only
  exact get?_set_self _ _ _ (by rw [hspec.1]; exact hlt)

theorem wrap_velocity (g : Game α) (obj : Body α) :
    (Game.wrapIfOffScreen g obj).velocity = obj.velocity := by
  unfold Game.wrapIfOffScreen
  dsimp only
  split
  · rfl
  · split <;> rfl

theorem updateTurn_velocity (env : Env α) (inp : Input) (this : Player α) :
    (Player.updateTurn env inp this).velocity = this.velocity := by
  unfold Player.updateTurn Player.turn
  split
  · rfl
  · split <;> rfl

/-- The thrust keeps the speed below 5: the new velocity is taken only when
its length is below 5. -/
theorem updateThrust_speed (env : Env α) (inp : Input) (this : Player α)
    (h : geom.lineLength env this.velocity < 5) :
    geom.lineLength env (Player.updateThrust env inp this).velocity < 5 := by
  unfold Player.updateThrust
  split
  · dsimp only
    split
    · assumption
    · exact h
  · exact h

theorem updateFire_velocity (env : Env α) (inp : Input) (g : Game α) (this : Player α) :
    (Player.updateFire env inp g this).2.velocity = this.velocity := by
  unfold Player.updateFire
  split <;> rfl

/-- One `Player.update` stores a player whose speed is below 5 when the
speed was below 5 before. -/
theorem player_update_speed (env : Env α) (inp : Input) (g : Game α) (addr : Nat)
    (p : Player α) (hp : g.players.get? addr = some p)
    (hv : geom.lineLength env p.velocity < 5) :
    ∃ p1 : Player α, (Player.update env inp g addr).players.get? addr = some p1 ∧
      geom.lineLength env p1.velocity < 5 := by
  refine ⟨_, player_update_stored env inp g addr p hp, ?_⟩
  have h1 : geom.lineLength env (Player.updateTurn env inp p).velocity < 5 := by
    rw [updateTurn_velocity]
    exact hv
  have h2 := updateThrust_speed env inp _ h1
  show geom.lineLength env (Game.wrapIfOffScreen _ _).velocity < 5
  rw [wrap_velocity]
  show geom.lineLength env (Player.updateFire env inp g _).2.velocity < 5
  rw [updateFire_velocity]
  exact h2

/-- C12. Player speed clamp, for a host with `Math.sqrt(0) = 0`: the speed
`lineLength(velocity)` of a newly constructed player is 0; every
`Player.update`, whatever the keys held, the heading and the state of the
world, stores a player whose speed is below 5 when the speed was below 5
before; hence the speed is below 5 in every state reachable from the
construction by `turn`, `moveBody`, `wrapIfOffScreen` and `Player.update`
steps. -/
theorem player_speed_clamp (env : Env α) (hsqrt : env.sqrt 0 = 0) :
    (∀ (debug : Bool) (c : Point α),
      geom.lineLength env (Player.new debug c).velocity = 0) ∧
    (∀ (inp : Input) (g : Game α) (addr : Nat) (p : Player α),
      g.players.get? addr = some p → geom.lineLength env p.velocity < 5 →
      ∃ p1 : Player α, (Player.update env inp g addr).players.get? addr = some p1 ∧
        geom.lineLength env p1.velocity < 5) ∧
    (∀ (debug : Bool) (c : Point α) (p : Player α),
      PlayerReachable env debug c p → geom.lineLength env p.velocity < 5) := by
  have h0 : ∀ (debug : Bool) (c : Point α),
      geom.lineLength env (Player.new debug c).velocity = 0 := by
    intro debug c
    simp [geom.lineLength, Player.new, hsqrt]
  refine ⟨h0, fun inp g addr p hp hv => player_update_speed env inp g addr p hp hv, ?_⟩
  intro debug c p hreach
  induction hreach with
  | construct =>
    rw [h0]
    norm_num
  | turn p angleDelta _ ih => exact ih
  | moveBody p center _ ih => exact ih
  | wrapIfOffScreen p g _ ih =>
    show geom.lineLength env (Game.wrapIfOffScreen g p.toBody).velocity < 5
    rw [wrap_velocity]
    exact ih
  | update p p1 inp g addr _ hp hp1 ih =>
    obtain ⟨p2, hp2, hv2⟩ := player_update_speed env inp g addr p hp ih
    rw [hp1] at hp2
    rw [Option.some.inj hp2]
    exact hv2

/-- C12, witness: with the rational square root, the player made by the
`Game` constructor has speed 0, and after an update with `UP` held its speed
is below 5. -/
theorem player_speed_clamp_witness :
    hostQ.sqrt 0 = 0 ∧
    geom.lineLength hostQ newPlayer.velocity = 0 ∧
    (∃ p1 : Player ℚ,
      (Player.update hostQ thrustInput (Game.new hostQ 800 600) 0).players.get? 0 = some p1 ∧
      geom.lineLength hostQ p1.velocity < 5) := by
  have hsqrt : hostQ.sqrt 0 = 0 := by
    have h := Rat.sqrt_eq 0
    rw [mul_zero, abs_zero] at h
    exact h
  have h := player_speed_clamp hostQ hsqrt
  have h0 : geom.lineLength hostQ newPlayer.velocity = 0 := h.1 false _
  refine ⟨hsqrt, h0, h.2.1 thrustInput (Game.new hostQ 800 600) 0 newPlayer rfl ?_⟩
  rw [h0]
  norm_num

/-! ## C15: distance of an asteroid vertex from the center -/

/-- A rotation keeps the squared distance from the pivot, for a host whose
`cos` and `sin` satisfy `cos² + sin² = 1`. -/
theorem rotate_distSq (env : Env α)
    (hpyth : ∀ a, env.cos a * env.cos a + env.sin a * env.sin a = 1)
    (p c : Point α) (a : α) :
    ((geom.rotate env p c a).x - c.x) * ((geom.rotate env p c a).x - c.x) +
        ((geom.rotate env p c a).y - c.y) * ((geom.rotate env p c a).y - c.y) =
      (p.x - c.x) * (p.x - c.x) + (p.y - c.y) * (p.y - c.y) := by
  unfold geom.rotate
  simp only
  have h := hpyth a
  have e : ((p.x - c.x) * env.cos a - (p.y - c.y) * env.sin a + c.x - c.x) *
        ((p.x - c.x) * env.cos a - (p.y - c.y) * env.sin a + c.x - c.x) +
      ((p.x - c.x) * env.sin a + (p.y - c.y) * env.cos a + c.y - c.y) *
        ((p.x - c.x) * env.sin a + (p.y - c.y) * env.cos a + c.y - c.y) =
      ((p.x - c.x) * (p.x - c.x) + (p.y - c.y) * (p.y - c.y)) *
        (env.cos a * env.cos a + env.sin a * env.sin a) := by ring
  rw [e, h, mul_one]

/-- The loop of `asteroidPoints` appends to the points it starts from, and
the `i`-th vertex it appends is at squared distance `2 (radius (0.2 + u))²`
from the center, `u` being the `i`-th random draw of the loop. -/
theorem asteroidPointsLoop_distSq (env : Env α)
    (hpyth : ∀ a, env.cos a * env.cos a + env.sin a * env.sin a = 1)
    (center : Point α) (radius : α) (pointCount : Nat) (fuel : Nat) :
    ∀ (a : α) (rnd : Nat) (acc : List (Point α)),
      ∃ new : List (Point α),
        (asteroidPointsLoop env center radius pointCount fuel a rnd acc).1 = acc ++ new ∧
        ∀ i v, new.get? i = some v →
          (v.x - center.x) * (v.x - center.x) + (v.y - center.y) * (v.y - center.y) =
            2 * ((radius * (0.2 + env.random (rnd + i))) *
              (radius * (0.2 + env.random (rnd + i)))) := by
  induction fuel with
  | zero =>
    intro a rnd acc
    exact ⟨[], by simp [asteroidPointsLoop], by simp⟩
  | succ fuel ih =>
    intro a rnd acc
    unfold asteroidPointsLoop
    by_cases hg : a < 2 * env.pi
    · simp only [hg, if_true]
      obtain ⟨new, hnew, hall⟩ := ih (a + 2 * env.pi / (pointCount : α)) (rnd + 1)
        (acc ++ [geom.rotate env
          { x := center.x + radius * (0.2 + env.random rnd),
            y := center.y - radius * (0.2 + env.random rnd) } center a])
      refine ⟨geom.rotate env
          { x := center.x + radius * (0.2 + env.random rnd),
            y := center.y - radius * (0.2 + env.random rnd) } center a :: new, ?_, ?_⟩
      · rw [hnew, List.append_assoc]
        rfl
      · intro i v hv
        cases i with
        | zero =>
          simp only [List.get?_cons_zero, Option.some.injEq] at hv
          rw [← hv, rotate_distSq env hpyth]
          simp only [add_zero]
          ring
        | succ i =>
          simp only [List.get?_cons_succ] at hv
          have h := hall i v hv
          rw [h]
          have e : rnd + 1 + i = rnd + (i + 1) := by omega
          rw [e]
    · simp only [hg, if_false]
      exact ⟨[], by simp, by simp⟩

/-- When the loop of `asteroidPoints` runs at least once, the first vertex it
appends is the point `(center.x + R, center.y - R)`, `R = radius (0.2 + u)`
for the first draw `u`, rotated about the center by the loop variable. -/
theorem asteroidPointsLoop_first (env : Env α)
    (hpyth : ∀ a, env.cos a * env.cos a + env.sin a * env.sin a = 1)
    (center : Point α) (radius : α) (pointCount : Nat) (fuel : Nat)
    (a : α) (rnd : Nat) (acc : List (Point α)) (hg : a < 2 * env.pi) :
    (asteroidPointsLoop env center radius pointCount (fuel + 1) a rnd acc).1.get? acc.length =
      some (geom.rotate env
        { x := center.x + radius * (0.2 + env.random rnd),
          y := center.y - radius * (0.2 + env.random rnd) } center a) := by
  rw [asteroidPointsLoop]
  simp only [hg, if_true]
  obtain ⟨new, hnew, _⟩ := asteroidPointsLoop_distSq env hpyth center radius pointCount fuel
    (a + 2 * env.pi / (pointCount : α)) (rnd + 1)
    (acc ++ [geom.rotate env
      { x := center.x + radius * (0.2 + env.random rnd),
        y := center.y - radius * (0.2 + env.random rnd) } center a])
  rw [hnew, List.append_assoc, List.get?_eq_getElem?, List.getElem?_append_right (le_refl _)]
  simp

/-- C15, as amended. In exact real arithmetic, with `Math.cos`, `Math.sin`
and `Math.sqrt` the real functions and every random draw in `[0, 1)`: for
every center and every base radius `r > 0`, the vertex at index `i` of
`asteroidPoints(center, r, pointCount)` lies at Euclidean distance exactly
`√2 * r * (0.2 + u)` from the center, `u` being the `i`-th random draw of the
call, hence at a distance in `[0.2 * √2 * r, 1.2 * √2 * r)`. -/
theorem asteroid_vertex_distance (pi : ℝ) (random : Nat → ℝ)
    (hu : ∀ k, 0 ≤ random k ∧ random k < 1)
    (center : Point ℝ) (r : ℝ) (hr : 0 < r) (rnd pointCount : Nat)
    (i : Nat) (v : Point ℝ)
    (hv : (asteroidPoints
        { cos := Real.cos, sin := Real.sin, sqrt := Real.sqrt, pi := pi, random := random }
        rnd center r pointCount).1.get? i = some v) :
    geom.lineLength
        { cos := Real.cos, sin := Real.sin, sqrt := Real.sqrt, pi := pi, random := random }
        (geom.vectorTo center v) = Real.sqrt 2 * (r * (0.2 + random (rnd + i))) ∧
    Real.sqrt 2 * (0.2 * r) ≤ Real.sqrt 2 * (r * (0.2 + random (rnd + i))) ∧
    Real.sqrt 2 * (r * (0.2 + random (rnd + i))) < Real.sqrt 2 * (1.2 * r) := by
  have hpyth : ∀ a : ℝ, Real.cos a * Real.cos a + Real.sin a * Real.sin a = 1 := by
    intro a
    have h := Real.cos_sq_add_sin_sq a
    nlinarith [h]
  obtain ⟨new, hnew, hall⟩ := asteroidPointsLoop_distSq
      { cos := Real.cos, sin := Real.sin, sqrt := Real.sqrt, pi := pi, random := random }
      hpyth center r pointCount (pointCount + 1) 0 rnd []
  unfold asteroidPoints at hv
  rw [hnew, List.nil_append] at hv
  have h := hall i v hv
  have hk0 := (hu (rnd + i)).1
  have hk1 := (hu (rnd + i)).2
  have hR : 0 ≤ r * (0.2 + random (rnd + i)) := by
    apply mul_nonneg (le_of_lt hr)
    linarith
  have h2 : (0 : ℝ) < Real.sqrt 2 := Real.sqrt_pos.mpr (by norm_num)
  refine ⟨?_, ?_, ?_⟩
  · unfold geom.lineLength geom.vectorTo
    simp only at h ⊢
    rw [h, Real.sqrt_mul (by norm_num), Real.sqrt_mul_self hR]
  · apply mul_le_mul_of_nonneg_left _ (le_of_lt h2)
    nlinarith
  · apply mul_lt_mul_of_pos_left _ h2
    nlinarith

/-- C15, witness: real host with every random draw 0, center `(0, 0)`, base
radius 5 and 10 points, as the `Asteroid` constructor asks for.  The vertex
at index 0 is `(1, -1)`, at distance `√2 * (5 * (0.2 + 0)) = √2` from the
center. -/
theorem asteroid_vertex_distance_witness :
    (∀ k : Nat, (0 : ℝ) ≤ (fun _ => (0 : ℝ)) k ∧ (fun _ => (0 : ℝ)) k < 1) ∧
    (0 : ℝ) < 5 ∧
    (asteroidPoints
        { cos := Real.cos, sin := Real.sin, sqrt := Real.sqrt, pi := Real.pi,
          random := fun _ => (0 : ℝ) }
        0 { x := 0, y := 0 } 5 10).1.get? 0 = some { x := 1, y := -1 } ∧
    geom.lineLength
        { cos := Real.cos, sin := Real.sin, sqrt := Real.sqrt, pi := Real.pi,
          random := fun _ => (0 : ℝ) }
        (geom.vectorTo { x := 0, y := 0 } { x := 1, y := -1 }) = Real.sqrt 2 := by
  have hpyth : ∀ a : ℝ, Real.cos a * Real.cos a + Real.sin a * Real.sin a = 1 := by
    intro a
    have h := Real.cos_sq_add_sin_sq a
    nlinarith [h]
  have hu : ∀ k : Nat, (0 : ℝ) ≤ (fun _ => (0 : ℝ)) k ∧ (fun _ => (0 : ℝ)) k < 1 :=
    fun _ => ⟨le_refl _, by norm_num⟩
  have hget : (asteroidPoints
        { cos := Real.cos, sin := Real.sin, sqrt := Real.sqrt, pi := Real.pi,
          random := fun _ => (0 : ℝ) }
        0 { x := 0, y := 0 } 5 10).1.get? 0 = some { x := 1, y := -1 } := by
    have h := asteroidPointsLoop_first
      { cos := Real.cos, sin := Real.sin, sqrt := Real.sqrt, pi := Real.pi,
        random := fun _ => (0 : ℝ) }
      hpyth { x := 0, y := 0 } 5 10 10 0 0 []
      (by simpa using Real.pi_pos)
    unfold asteroidPoints
    rw [List.length_nil] at h
    rw [h]
    simp only [geom.rotate, Real.cos_zero, Real.sin_zero]
    norm_num
  have h := asteroid_vertex_distance Real.pi (fun _ => 0) hu { x := 0, y := 0 } 5
    (by norm_num) 0 10 0 { x := 1, y := -1 } hget
  refine ⟨hu, by norm_num, hget, ?_⟩
  rw [h.1]
  norm_num

/-- C15, counterexample to the property as the specification states it.
With the first random draw `u = 0`, base radius 5 and center `(0, 0)`, the
first vertex (rotation by the angle 0) is `(1, -1)`: its squared distance
from the center is 2, while `(r * (0.2 + u))² = 1`.  Its distance is `√2`,
not `r * (0.2 + u) = 1`. -/
theorem asteroid_vertex_not_at_radius :
    (asteroidPoints hostQ 0 { x := 0, y := 0 } 5 10).1.head? = some { x := 1, y := -1 } ∧
    hostQ.random 0 = 0 ∧
    ((1 : ℚ) - 0) * (1 - 0) + (-1 - 0) * (-1 - 0) = 2 ∧
    ((5 : ℚ) * (0.2 + hostQ.random 0)) * (5 * (0.2 + hostQ.random 0)) = 1 := by
  refine ⟨?_, rfl, by norm_num, ?_⟩
  · simp [asteroidPoints, asteroidPointsLoop, hostQ, geom.rotate]
    norm_num
  · simp [hostQ]
    norm_num

/-! ## C19: children are spawned per handler call -/

theorem mem_after_two_removals (env : Env α) (g : Game α) (this o y : Ref)
    (hk : this.kind ≠ Kind.player) (hy : y ∈ g.bodies) (h1 : y ≠ this) (h2 : y ≠ o) :
    y ∈ (Game.removeBody env (Game.removeBody env g this) o).bodies := by
  rw [bodies_after_two_removals env g this o hk]
  apply List.mem_append_left
  exact (List.mem_erase_of_ne h2).mpr ((List.mem_erase_of_ne h1).mpr hy)

/-- The effect of `Asteroid.collision` on the store of asteroids and on
`bodies`, whether or not the asteroid is in `bodies`. -/
theorem asteroid_collision_effect (env : Env α) (g : Game α) (addr : Nat) (o : Ref) :
    ∃ new : List (Asteroid α),
      (Asteroid.collision env g addr o).asteroids = g.asteroids ++ new ∧
      new.map (fun c => (c.radius, c.center)) =
        childrenOf g { kind := Kind.asteroid, addr := addr } o ∧
      (∀ y ∈ g.bodies, y ≠ { kind := Kind.asteroid, addr := addr } → y ≠ o →
        y ∈ (Asteroid.collision env g addr o).bodies) ∧
      (∀ j, j < new.length →
        { kind := Kind.asteroid, addr := g.asteroids.length + j } ∈
          (Asteroid.collision env g addr o).bodies) := by
  have hk : ({ kind := Kind.asteroid, addr := addr } : Ref).kind ≠ Kind.player := by simp
  by_cases ho : o.kind = Kind.player ∨ o.kind = Kind.bullet
  · cases ha : g.asteroids.get? addr with
    | none =>
      refine ⟨[], ?_, ?_, ?_, ?_⟩
      · unfold Asteroid.collision
        rw [if_pos ho, ha]
        simp
      · unfold childrenOf
        simp only [ha]
        rfl
      · intro y hy _ _
        unfold Asteroid.collision
        rw [if_pos ho, ha]
        exact hy
      · intro j hj
        simp at hj
    | some a =>
      have hast : (Game.removeBody env
          (Game.removeBody env g { kind := Kind.asteroid, addr := addr }) o).asteroids =
          g.asteroids := by
        rw [(removeBody_store env _ o).1, (removeBody_store env g _).1]
      have hmem : ∀ y ∈ g.bodies, y ≠ { kind := Kind.asteroid, addr := addr } → y ≠ o →
          y ∈ (Game.removeBody env
            (Game.removeBody env g { kind := Kind.asteroid, addr := addr }) o).bodies :=
        fun y hy h1 h2 => mem_after_two_removals env g _ o y hk hy h1 h2
      rw [asteroid_collision_eq env g addr a o ha ho]
      generalize Game.removeBody env
        (Game.removeBody env g { kind := Kind.asteroid, addr := addr }) o = G2 at hast hmem ⊢
      by_cases hr : a.radius > 10
      · simp only [hr, if_true]
        refine ⟨[(Asteroid.new env G2.rnd { x := a.center.x, y := a.center.y }
              (a.radius - 10)).1,
            (Asteroid.new env
              (Game.addBody
                (Game.newAsteroid env G2 { x := a.center.x, y := a.center.y }
                  (a.radius - 10)).1
                (Game.newAsteroid env G2 { x := a.center.x, y := a.center.y }
                  (a.radius - 10)).2).rnd
              { x := a.center.x, y := a.center.y } (a.radius - 10)).1], ?_, ?_, ?_, ?_⟩
        · simp only [(addBody_store _ _).1, (newAsteroid_fields env _ _ _).2.1, hast,
            List.append_assoc, List.singleton_append]
        · unfold childrenOf
          simp only [ha, ho, hr, and_self, if_true, List.map_cons, List.map_nil,
            (newAsteroid_fields env _ _ _).2.2.2.1, (newAsteroid_fields env _ _ _).2.2.2.2]
        · intro y hy h1 h2
          simp only [addBody_bodies, (newAsteroid_fields env _ _ _).1]
          apply List.mem_append_left
          apply List.mem_append_left
          exact hmem y hy h1 h2
        · intro j hj
          simp only [addBody_bodies, (newAsteroid_fields env _ _ _).1,
            (newAsteroid_fields env _ _ _).2.2.1, (addBody_store _ _).1,
            (newAsteroid_fields env _ _ _).2.1, hast, List.length_append,
            List.length_singleton]
          simp only [List.length_cons, List.length_nil] at hj
          have hj2 : j = 0 ∨ j = 1 := by omega
          rcases hj2 with rfl | rfl <;> simp
      · simp only [hr, if_false]
        refine ⟨[], ?_, ?_, ?_, ?_⟩
        · simp [hast]
        · unfold childrenOf
          simp only [ha, hr, and_false, if_false]
          rfl
        · intro y hy h1 h2
          exact hmem y hy h1 h2
        · intro j hj
          simp at hj
  · refine ⟨[], ?_, ?_, ?_, ?_⟩
    · unfold Asteroid.collision
      rw [if_neg ho]
      simp
    · unfold childrenOf
      simp only
      split
      · simp [ho]
      · rfl
    · intro y hy _ _
      unfold Asteroid.collision
      rw [if_neg ho]
      exact hy
    · intro j hj
      simp at hj

/-- The effect of one handler call `body.collision(otherBody)` on the store
of asteroids and on `bodies`. -/
theorem collision_effect (env : Env α) (g : Game α) (body other : Ref) :
    ∃ new : List (Asteroid α),
      (collision env g body other).asteroids = g.asteroids ++ new ∧
      new.map (fun c => (c.radius, c.center)) = childrenOf g body other ∧
      (∀ y ∈ g.bodies, y ≠ body → y ≠ other → y ∈ (collision env g body other).bodies) ∧
      (∀ j, j < new.length →
        { kind := Kind.asteroid, addr := g.asteroids.length + j } ∈
          (collision env g body other).bodies) := by
  obtain ⟨k, addr⟩ := body
  cases k with
  | asteroid => exact asteroid_collision_effect env g addr other
  | player =>
    refine ⟨[], by simp [collision], by simp [childrenOf], ?_, ?_⟩
    · intro y hy _ _
      exact hy
    · intro j hj
      simp at hj
  | dyingPlayer =>
    refine ⟨[], by simp [collision], by simp [childrenOf], ?_, ?_⟩
    · intro y hy _ _
      exact hy
    · intro j hj
      simp at hj
  | bullet =>
    have hk : ({ kind := Kind.bullet, addr := addr } : Ref).kind ≠ Kind.player := by simp
    refine ⟨[], ?_, by simp [childrenOf], ?_, ?_⟩
    · simp only [collision, Bullet.collision, List.append_nil]
      split
      · rw [(removeBody_store env _ other).1, (removeBody_store env g _).1]
      · rfl
    · intro y hy h1 h2
      simp only [collision, Bullet.collision]
      split
      · exact mem_after_two_removals env g _ other y hk hy h1 h2
      · exact hy
    · intro j hj
      simp at hj

theorem childrenOf_stable (g0 g : Game α) (new : List (Asteroid α)) (body other : Ref)
    (hP : g.asteroids = g0.asteroids ++ new)
    (hb : body.kind = Kind.asteroid → body.addr < g0.asteroids.length) :
    childrenOf g body other = childrenOf g0 body other := by
  obtain ⟨k, addr⟩ := body
  cases k with
  | asteroid =>
    have hlt : addr < g0.asteroids.length := hb rfl
    have hget : g.asteroids.get? addr = g0.asteroids.get? addr := by
      rw [hP, List.get?_eq_getElem?, List.get?_eq_getElem?, List.getElem?_append_left hlt]
    unfold childrenOf
    simp only [hget]
  | player => simp [childrenOf]
  | dyingPlayer => simp [childrenOf]
  | bullet => simp [childrenOf]

/-- One handler call keeps the shape of the store of asteroids (the initial
store followed by the children made so far) and keeps every child made so
far in `bodies`, when the two bodies are objects of the initial store. -/
theorem handler_step (env : Env α) (g0 g : Game α) (new : List (Asteroid α))
    (body other : Ref)
    (hP1 : g.asteroids = g0.asteroids ++ new)
    (hP2 : ∀ j, j < new.length →
      { kind := Kind.asteroid, addr := g0.asteroids.length + j } ∈ g.bodies)
    (hb : body.kind = Kind.asteroid → body.addr < g0.asteroids.length)
    (ho : other.kind = Kind.asteroid → other.addr < g0.asteroids.length) :
    ∃ new1 : List (Asteroid α),
      (collision env g body other).asteroids = g0.asteroids ++ (new ++ new1) ∧
      new1.map (fun c => (c.radius, c.center)) = childrenOf g0 body other ∧
      (∀ j, j < (new ++ new1).length →
        { kind := Kind.asteroid, addr := g0.asteroids.length + j } ∈
          (collision env g body other).bodies) := by
  obtain ⟨new1, h1, h2, h3, h4⟩ := collision_effect env g body other
  refine ⟨new1, ?_, ?_, ?_⟩
  · rw [h1, hP1, List.append_assoc]
  · rw [h2, childrenOf_stable g0 g new body other hP1 hb]
  · intro j hj
    rcases Nat.lt_or_ge j new.length with hlt | hge
    · apply h3 _ (hP2 j hlt)
      · intro hc
        have := hb (by rw [← hc])
        rw [← hc] at this
        simp at this
      · intro hc
        have := ho (by rw [← hc])
        rw [← hc] at this
        simp at this
    · have hlen : g.asteroids.length = g0.asteroids.length + new.length := by
        rw [hP1, List.length_append]
      rw [List.length_append] at hj
      have h := h4 (j - new.length) (by omega)
      rw [hlen] at h
      have e : g0.asteroids.length + new.length + (j - new.length) =
          g0.asteroids.length + j := by omega
      rw [e] at h
      exact h

theorem dispatchCollision_eq (env : Env α) (g : Game α) (c : Ref × Ref) :
    dispatchCollision env g c = collision env (collision env g c.1 c.2) c.2 c.1 := by
  obtain ⟨⟨k1, a1⟩, ⟨k2, a2⟩⟩ := c
  cases k1 <;> cases k2 <;> simp [dispatchCollision, hasCollision, collision]

/-- The dispatch loop of `reportCollisions` over pairs of objects of the
initial store: the children made are those of `childrenOf`, pair by pair and
handler by handler, and all of them are in `bodies` at the end. -/
theorem dispatch_fold (env : Env α) (g0 : Game α) (cs : List (Ref × Ref)) :
    ∀ (g : Game α) (new : List (Asteroid α)),
      g.asteroids = g0.asteroids ++ new →
      (∀ j, j < new.length →
        { kind := Kind.asteroid, addr := g0.asteroids.length + j } ∈ g.bodies) →
      (∀ c ∈ cs, (c.1.kind = Kind.asteroid → c.1.addr < g0.asteroids.length) ∧
        (c.2.kind = Kind.asteroid → c.2.addr < g0.asteroids.length)) →
      ∃ new1 : List (Asteroid α),
        (cs.foldl (dispatchCollision env) g).asteroids = g0.asteroids ++ (new ++ new1) ∧
        new1.map (fun c => (c.radius, c.center)) =
          cs.flatMap (fun c => childrenOf g0 c.1 c.2 ++ childrenOf g0 c.2 c.1) ∧
        (∀ j, j < (new ++ new1).length →
          { kind := Kind.asteroid, addr := g0.asteroids.length + j } ∈
            (cs.foldl (dispatchCollision env) g).bodies) := by
  induction cs with
  | nil =>
    intro g new hP1 hP2 _
    exact ⟨[], by simpa using hP1, by simp, by simpa using hP2⟩
  | cons c cs ih =>
    intro g new hP1 hP2 hold
    have hc := hold c (List.mem_cons_self _ _)
    have hcs : ∀ c1 ∈ cs, (c1.1.kind = Kind.asteroid → c1.1.addr < g0.asteroids.length) ∧
        (c1.2.kind = Kind.asteroid → c1.2.addr < g0.asteroids.length) :=
      fun c1 h1 => hold c1 (List.mem_cons_of_mem _ h1)
    obtain ⟨n1, a1, m1, b1⟩ := handler_step env g0 g new c.1 c.2 hP1 hP2 hc.1 hc.2
    obtain ⟨n2, a2, m2, b2⟩ :=
      handler_step env g0 (collision env g c.1 c.2) (new ++ n1) c.2 c.1 a1 b1 hc.2 hc.1
    rw [← dispatchCollision_eq] at a2 b2
    obtain ⟨n3, a3, m3, b3⟩ := ih (dispatchCollision env g c) (new ++ n1 ++ n2) a2 b2 hcs
    refine ⟨n1 ++ n2 ++ n3, ?_, ?_, ?_⟩
    · rw [List.foldl_cons, a3]
      simp only [List.append_assoc]
    · simp only [List.map_append, m1, m2, m3, List.flatMap_cons, List.append_assoc]
    · intro j hj
      rw [List.foldl_cons]
      apply b3 j
      simpa only [List.append_assoc] using hj

theorem pointsOf_allocated (g : Game α) (r : Ref) (h : g.pointsOf r ≠ [])
    (hk : r.kind = Kind.asteroid) : r.addr < g.asteroids.length := by
  rcases Nat.lt_or_ge r.addr g.asteroids.length with hlt | hge
  · exact hlt
  · exfalso
    apply h
    unfold Game.pointsOf
    rw [hk]
    simp only
    rw [List.get?_eq_none.mpr hge]
    rfl

theorem isColliding_allocated (g : Game α) (b1 b2 : Ref) (h : isColliding g b1 b2 = true) :
    (b1.kind = Kind.asteroid → b1.addr < g.asteroids.length) ∧
    (b2.kind = Kind.asteroid → b2.addr < g.asteroids.length) := by
  rw [isColliding_eq] at h
  simp only [Bool.and_eq_true, edgesIntersect, List.any_eq_true] at h
  obtain ⟨_, e1, he1, e2, he2, _⟩ := h
  constructor
  · apply pointsOf_allocated
    intro hc
    rw [hc] at he1
    simp [pointsToLines] at he1
  · apply pointsOf_allocated
    intro hc
    rw [hc] at he2
    simp [pointsToLines] at he2

theorem collected_allocated (g : Game α) (bodies : List Ref) :
    ∀ c ∈ collectCollisions g bodies,
      (c.1.kind = Kind.asteroid → c.1.addr < g.asteroids.length) ∧
      (c.2.kind = Kind.asteroid → c.2.addr < g.asteroids.length) := by
  intro c hc
  unfold collectCollisions at hc
  simp only [List.mem_flatMap, List.mem_filterMap] at hc
  obtain ⟨i, _, j, _, hj⟩ := hc
  simp only [List.get?_eq_getElem?] at hj
  cases hbi : bodies[i]? with
  | none => simp [hbi] at hj
  | some bi =>
    cases hbj : bodies[j]? with
    | none => simp [hbi, hbj] at hj
    | some bj =>
      rw [hbi, hbj] at hj
      by_cases hcol : isColliding g bi bj = true
      · simp only [hcol, if_true, Option.some.injEq] at hj
        rw [← hj]
        exact isColliding_allocated g bi bj hcol
      · simp [hcol] at hj

/-- C19. Children are spawned per handler call.  For an asteroid of radius
`r > 10`, in `bodies` or not, every call `collision(o)` with `o` a `Player`
or a `Bullet` makes two new asteroids of radius `r - 10` and appends them to
`bodies`; `Bullet.collision` makes none.  In one `reportCollisions` pass the
asteroids made are, pair by pair and handler by handler, those of
`childrenOf`: two for each handler call of an asteroid of radius above 10 on
a `Player` or `Bullet`, hence `2k` for an asteroid in `k` such pairs; and
all of them are in `bodies` at the end of the pass. -/
theorem children_per_handler_call (env : Env α) (g : Game α) :
    (∀ (addr : Nat) (a : Asteroid α) (o : Ref), g.asteroids.get? addr = some a →
      a.radius > 10 → (o.kind = Kind.player ∨ o.kind = Kind.bullet) →
      ∃ c1 c2 : Asteroid α,
        (Asteroid.collision env g addr o).asteroids = g.asteroids ++ [c1, c2] ∧
        c1.radius = a.radius - 10 ∧ c2.radius = a.radius - 10 ∧
        { kind := Kind.asteroid, addr := g.asteroids.length } ∈
          (Asteroid.collision env g addr o).bodies ∧
        { kind := Kind.asteroid, addr := g.asteroids.length + 1 } ∈
          (Asteroid.collision env g addr o).bodies) ∧
    (∀ (addr : Nat) (o : Ref), (Bullet.collision env g addr o).asteroids = g.asteroids) ∧
    (∃ new : List (Asteroid α),
      (reportCollisions env g).asteroids = g.asteroids ++ new ∧
      new.map (fun c => (c.radius, c.center)) =
        (collectCollisions g g.bodies).flatMap
          (fun c => childrenOf g c.1 c.2 ++ childrenOf g c.2 c.1) ∧
      (∀ j, j < new.length →
        { kind := Kind.asteroid, addr := g.asteroids.length + j } ∈
          (reportCollisions env g).bodies)) := by
  refine ⟨?_, ?_, ?_⟩
  · intro addr a o ha hr ho
    obtain ⟨new, h1, h2, _, h4⟩ := asteroid_collision_effect env g addr o
    have hch : childrenOf g { kind := Kind.asteroid, addr := addr } o =
        [(a.radius - 10, a.center), (a.radius - 10, a.center)] := by
      unfold childrenOf
      simp only [ha, ho, hr, and_self, if_true]
    rw [hch] at h2
    have hlen : new.length = 2 := by
      have := congrArg List.length h2
      simpa using this
    obtain ⟨c1, c2, hnew⟩ := List.length_eq_two.mp hlen
    rw [hnew] at h1 h2 h4
    simp only [List.map_cons, List.map_nil, List.cons.injEq, Prod.mk.injEq, and_true] at h2
    refine ⟨c1, c2, h1, h2.1.1, h2.2.1, ?_, ?_⟩
    · have := h4 0 (by simp)
      simpa using this
    · exact h4 1 (by simp)
  · intro addr o
    obtain ⟨new, h1, h2, _, _⟩ := collision_effect env g { kind := Kind.bullet, addr := addr } o
    have hnil : new = [] := by
      have : childrenOf g { kind := Kind.bullet, addr := addr } o = [] := by simp [childrenOf]
      rw [this] at h2
      simpa using h2
    rw [hnil, List.append_nil] at h1
    exact h1
  · obtain ⟨new, h1, h2, h3⟩ := dispatch_fold env g (collectCollisions g g.bodies) g []
      (by simp) (by intro j hj; simp at hj) (collected_allocated g g.bodies)
    exact ⟨new, by simpa using h1, h2, by simpa using h3⟩

/-- C19, witness: in `twoBulletWorld` the asteroid of radius 30 is in two
colliding pairs, one with each bullet; the pass makes four asteroids of
radius 20 at its center `(75, 75)`, all of them in `bodies` afterwards. -/
theorem children_per_handler_call_witness :
    collectCollisions twoBulletWorld twoBulletWorld.bodies =
      [(firstAsteroid, firstBullet), (firstAsteroid, secondBullet)] ∧
    (∃ new : List (Asteroid ℚ),
      (reportCollisions hostQ twoBulletWorld).asteroids = twoBulletWorld.asteroids ++ new ∧
      new.map (fun c => (c.radius, c.center)) =
        [(20, { x := 75, y := 75 }), (20, { x := 75, y := 75 }),
         (20, { x := 75, y := 75 }), (20, { x := 75, y := 75 })] ∧
      (∀ j, j < new.length →
        { kind := Kind.asteroid, addr := twoBulletWorld.asteroids.length + j } ∈
          (reportCollisions hostQ twoBulletWorld).bodies)) := by
  have pa : Game.pointsOf twoBulletWorld firstAsteroid =
      [{ x := 70, y := 70 }, { x := 80, y := 70 }, { x := 75, y := 85 }] := rfl
  have p0 : Game.pointsOf twoBulletWorld firstBullet =
      [{ x := 75, y := 75 }, { x := 75, y := 70 }] := rfl
  have p1 : Game.pointsOf twoBulletWorld secondBullet =
      [{ x := 72, y := 72 }, { x := 72, y := 68 }] := rfl
  have h01 : isColliding twoBulletWorld firstAsteroid firstBullet = true := by
    rw [isColliding_eq]
    simp only [ne_eq, Bool.and_eq_true, decide_eq_true_eq, edgesIntersect, List.any_eq_true]
    refine ⟨by decide, { p0 := { x := 70, y := 70 }, p1 := { x := 80, y := 70 } }, ?_,
      { p0 := { x := 75, y := 75 }, p1 := { x := 75, y := 70 } }, ?_, ?_⟩
    · rw [pa, pointsToLines_connected_eq]
      simp
    · rw [p0, pointsToLines_connected_eq]
      simp
    · simp [geom.linesIntersecting, geom.det, geom.n1, geom.n2]
      norm_num
  have h02 : isColliding twoBulletWorld firstAsteroid secondBullet = true := by
    rw [isColliding_eq]
    simp only [ne_eq, Bool.and_eq_true, decide_eq_true_eq, edgesIntersect, List.any_eq_true]
    refine ⟨by decide, { p0 := { x := 70, y := 70 }, p1 := { x := 80, y := 70 } }, ?_,
      { p0 := { x := 72, y := 72 }, p1 := { x := 72, y := 68 } }, ?_, ?_⟩
    · rw [pa, pointsToLines_connected_eq]
      simp
    · rw [p1, pointsToLines_connected_eq]
      simp
    · simp [geom.linesIntersecting, geom.det, geom.n1, geom.n2]
      norm_num
  have h12 : isColliding twoBulletWorld firstBullet secondBullet = false := by
    rw [isColliding_eq, edgesIntersect, p0, p1, pointsToLines_connected_eq,
      pointsToLines_connected_eq]
    simp [geom.linesIntersecting, geom.det]
  have hcol : collectCollisions twoBulletWorld twoBulletWorld.bodies =
      [(firstAsteroid, firstBullet), (firstAsteroid, secondBullet)] := by
    have hb : twoBulletWorld.bodies = [firstAsteroid, firstBullet, secondBullet] := rfl
    rw [hb]
    simp [collectCollisions, List.range, List.range.loop, List.range', h01, h02, h12]
  obtain ⟨new, h1, h2, h3⟩ := (children_per_handler_call hostQ twoBulletWorld).2.2
  refine ⟨hcol, new, h1, ?_, h3⟩
  have c0 : childrenOf twoBulletWorld firstAsteroid firstBullet =
      [(20, { x := 75, y := 75 }), (20, { x := 75, y := 75 })] := by
    simp [childrenOf, twoBulletWorld, firstAsteroid, firstBullet, bigAsteroid]
    norm_num
  have c1 : childrenOf twoBulletWorld firstAsteroid secondBullet =
      [(20, { x := 75, y := 75 }), (20, { x := 75, y := 75 })] := by
    simp [childrenOf, twoBulletWorld, firstAsteroid, secondBullet, bigAsteroid]
    norm_num
  have c2 : childrenOf twoBulletWorld firstBullet firstAsteroid = [] := by
    simp [childrenOf, firstBullet]
  have c3 : childrenOf twoBulletWorld secondBullet firstAsteroid = [] := by
    simp [childrenOf, secondBullet]
  rw [h2, hcol]
  simp [c0, c1, c2, c3]

/-! ## C20: the heading invariant -/

/-- Moving the pivot and the point by the same vector moves the rotated
point by that vector. -/
theorem rotate_moved (env : Env α) (c c1 gi : Point α) (a : α) :
    geom.translate (geom.rotate env (geom.translate c gi) c a) (geom.vectorTo c c1) =
      geom.rotate env (geom.translate c1 gi) c1 a := by
  unfold geom.rotate geom.translate geom.vectorTo
  simp only [Point.mk.injEq]
  constructor <;> ring

theorem heading_moveBody (env : Env α) (glyph : List (Point α)) (b : Body α) (a : α)
    (center : Point α)
    (h : b.points = glyph.map fun gi => geom.rotate env (geom.translate b.center gi) b.center a) :
    (moveBody b center).points = glyph.map fun gi =>
      geom.rotate env (geom.translate (moveBody b center).center gi) (moveBody b center).center a := by
  unfold moveBody
  simp only
  rw [h, List.map_map]
  apply List.map_congr_left
  intro gi _
  exact rotate_moved env b.center center gi a

theorem heading_wrap (env : Env α) (glyph : List (Point α)) (g : Game α) (b : Body α) (a : α)
    (h : b.points = glyph.map fun gi => geom.rotate env (geom.translate b.center gi) b.center a) :
    (Game.wrapIfOffScreen g b).points = glyph.map fun gi =>
      geom.rotate env (geom.translate (Game.wrapIfOffScreen g b).center gi)
        (Game.wrapIfOffScreen g b).center a := by
  unfold Game.wrapIfOffScreen
  dsimp only
  split
  · exact heading_moveBody env glyph b a _ h
  · split
    · exact heading_moveBody env glyph b a _ h
    · exact h

theorem heading_turn (env : Env α) (hlaws : TrigLaws env) (glyph : List (Point α))
    (p : Player α) (angleDelta : α)
    (h : p.points = glyph.map fun gi => geom.rotate env (geom.translate p.center gi) p.center p.angle) :
    (Player.turn env p angleDelta).points = glyph.map fun gi =>
      geom.rotate env (geom.translate (Player.turn env p angleDelta).center gi)
        (Player.turn env p angleDelta).center (Player.turn env p angleDelta).angle := by
  unfold Player.turn
  simp only
  rw [h, List.map_map]
  apply List.map_congr_left
  intro gi _
  exact rotate_rotate env hlaws _ _ _ _

theorem heading_new (env : Env α) (hlaws : TrigLaws env) (debug : Bool) (c : Point α) :
    (Player.new debug c).points = (Player.glyph debug c).map fun gi =>
      geom.rotate env (geom.translate (Player.new debug c).center gi)
        (Player.new debug c).center (Player.new debug c).angle := by
  have hangle : (Player.new debug c).angle = 0 := rfl
  rw [hangle]
  unfold Player.glyph
  rw [List.map_map]
  conv_lhs => rw [← List.map_id (Player.new debug c).points]
  apply List.map_congr_left
  intro q _
  simp only [Function.comp, id]
  rw [rotate_zero env hlaws]
  unfold geom.translate geom.vectorTo
  cases q
  simp

theorem updateTurn_heading (env : Env α) (hlaws : TrigLaws env) (glyph : List (Point α))
    (inp : Input) (p : Player α)
    (h : p.points = glyph.map fun gi => geom.rotate env (geom.translate p.center gi) p.center p.angle) :
    (Player.updateTurn env inp p).points = glyph.map fun gi =>
      geom.rotate env (geom.translate (Player.updateTurn env inp p).center gi)
        (Player.updateTurn env inp p).center (Player.updateTurn env inp p).angle := by
  unfold Player.updateTurn
  split
  · exact heading_turn env hlaws glyph p _ h
  · split
    · exact heading_turn env hlaws glyph p _ h
    · exact h

theorem updateThrust_shape (env : Env α) (inp : Input) (p : Player α) :
    (Player.updateThrust env inp p).points = p.points ∧
    (Player.updateThrust env inp p).center = p.center ∧
    (Player.updateThrust env inp p).angle = p.angle := by
  unfold Player.updateThrust
  split
  · dsimp only
    split <;> exact ⟨rfl, rfl, rfl⟩
  · exact ⟨rfl, rfl, rfl⟩

theorem updateFire_shape (env : Env α) (inp : Input) (g : Game α) (p : Player α) :
    (Player.updateFire env inp g p).2.points = p.points ∧
    (Player.updateFire env inp g p).2.center = p.center ∧
    (Player.updateFire env inp g p).2.angle = p.angle := by
  unfold Player.updateFire
  split <;> exact ⟨rfl, rfl, rfl⟩

/-- The heading invariant over any ordered field, for a host whose `cos` and
`sin` satisfy the trigonometric laws. -/
theorem heading_invariant (env : Env α) (hlaws : TrigLaws env) (debug : Bool) (c : Point α)
    (p : Player α) (h : PlayerReachable env debug c p) :
    p.points = (Player.glyph debug c).map fun gi =>
      geom.rotate env (geom.translate p.center gi) p.center p.angle := by
  induction h with
  | construct => exact heading_new env hlaws debug c
  | turn p angleDelta _ ih => exact heading_turn env hlaws _ p angleDelta ih
  | moveBody p center _ ih => exact heading_moveBody env _ p.toBody p.angle center ih
  | wrapIfOffScreen p g _ ih => exact heading_wrap env _ g p.toBody p.angle ih
  | update p p1 inp g addr _ hp hp1 ih =>
    rw [player_update_stored env inp g addr p hp] at hp1
    have heq := Option.some.inj hp1
    have h1 := updateTurn_heading env hlaws _ inp p ih
    obtain ⟨t1, t2, t3⟩ := updateThrust_shape env inp (Player.updateTurn env inp p)
    obtain ⟨f1, f2, f3⟩ := updateFire_shape env inp g
      (Player.updateThrust env inp (Player.updateTurn env inp p))
    rw [← t1, ← t2, ← t3, ← f1, ← f2, ← f3] at h1
    have h2 := heading_moveBody env _ _ _
      (geom.translate
        (Player.updateFire env inp g
          (Player.updateThrust env inp (Player.updateTurn env inp p))).2.center
        (Player.updateFire env inp g
          (Player.updateThrust env inp (Player.updateTurn env inp p))).2.velocity) h1
    have h3 := heading_wrap env _
      (Player.updateFire env inp g
        (Player.updateThrust env inp (Player.updateTurn env inp p))).1 _ _ h2
    rw [← heq]
    exact h3

/-- C20. Player heading invariant, over the reals with `Math.cos` and
`Math.sin` the real cosine and sine.  In every state `p` reachable from the
construction of the player by any sequence of `turn`, `moveBody`,
`wrapIfOffScreen` and `Player.update` steps, the polygon is the glyph fixed
at construction rotated by `p.angle` about the current center:
`points[i] = geom.rotate(center + g_i, center, angle)` for every `i`, the
two lists having the same length. -/
theorem player_heading_invariant (sqrt : ℝ → ℝ) (pi : ℝ) (random : Nat → ℝ)
    (debug : Bool) (c : Point ℝ) (p : Player ℝ)
    (h : PlayerReachable
      { cos := Real.cos, sin := Real.sin, sqrt := sqrt, pi := pi, random := random }
      debug c p) :
    p.points = (Player.glyph debug c).map fun gi =>
      geom.rotate { cos := Real.cos, sin := Real.sin, sqrt := sqrt, pi := pi, random := random }
        (geom.translate p.center gi) p.center p.angle :=
  heading_invariant _ (trigLaws_real sqrt pi random) debug c p h

/-- C20, witness: the player constructed at `(400, 300)`, turned by 1 radian
and then moved to `(10, 20)`, is reachable, and its polygon is the glyph
rotated by its angle about `(10, 20)`. -/
theorem player_heading_invariant_witness :
    PlayerReachable
      { cos := Real.cos, sin := Real.sin, sqrt := Real.sqrt, pi := Real.pi,
        random := fun _ => (0 : ℝ) }
      false { x := 400, y := 300 }
      { Player.turn
          { cos := Real.cos, sin := Real.sin, sqrt := Real.sqrt, pi := Real.pi,
            random := fun _ => (0 : ℝ) }
          (Player.new false { x := 400, y := 300 }) 1 with
        toBody := (moveBody
          (Player.turn
            { cos := Real.cos, sin := Real.sin, sqrt := Real.sqrt, pi := Real.pi,
              random := fun _ => (0 : ℝ) }
            (Player.new false { x := 400, y := 300 }) 1).toBody { x := 10, y := 20 }) } ∧
    (moveBody
      (Player.turn
        { cos := Real.cos, sin := Real.sin, sqrt := Real.sqrt, pi := Real.pi,
          random := fun _ => (0 : ℝ) }
        (Player.new false { x := 400, y := 300 }) 1).toBody { x := 10, y := 20 }).points =
      (Player.glyph false ({ x := 400, y := 300 } : Point ℝ)).map fun gi =>
        geom.rotate
          { cos := Real.cos, sin := Real.sin, sqrt := Real.sqrt, pi := Real.pi,
            random := fun _ => (0 : ℝ) }
          (geom.translate { x := 10, y := 20 } gi) { x := 10, y := 20 } (0 + 1) :=
  ⟨PlayerReachable.moveBody _ _ (PlayerReachable.turn _ _ PlayerReachable.construct),
   player_heading_invariant Real.sqrt Real.pi (fun _ => 0) false { x := 400, y := 300 } _
     (PlayerReachable.moveBody _ _ (PlayerReachable.turn _ _ PlayerReachable.construct))⟩

end Theory

end Asteroids
